import Mathlib

/-!
# micropantrybackend: access gate, route handlers and batched writers

A shallow embedding of `backend/auth.js`, of `backend/main.js` (the access
gate, the route table, every route handler, the helpers `parseFoodItems` and
`parseReceiptItems`, the callable `addShoppingListToPantry` and the scheduled
`checkExpiringItems`) and of the batched-writer routes of `functions/index.js`.

* JavaScript values are the inductive `JsVal`; numbers are integers or decimals
  `m / 10 ^ p` (JSON numbers that matter here are only tested for being zero),
  and points in time are numbers of milliseconds.
* A `try { ... } catch` block is a computation in `Except String`, the string
  being the message of the thrown error.
* The identity provider (`admin.auth().verifyIdToken`), the document store
  (`db`), the language-model client (`openai`), the food database and the
  platform functions `JSON.parse`, `toLowerCase` and `parseFloat` are
  parameters: a theorem with such a parameter holds for every provider, store,
  client and platform function. `Store` is an explicit store state, for
  statements about what is there after a call.
* The two regular expressions of the parsing helpers are run by a small
  backtracking matcher (`matchAtoms`, `regexMatch`): greedy repetition, optional
  character, capture groups, leftmost match.
* A middleware returns the request context it leaves behind, the response it
  sent (if any), how often it called `next`, and what it handed to the provider.
-/

set_option autoImplicit false

namespace MicroPantry

/-! ## JavaScript values -/

/-- JavaScript values as they occur in request bodies, decoded tokens and
documents. `serverTimestamp` is the sentinel object
`admin.firestore.FieldValue.serverTimestamp()`. An object is its list of own
properties; the first entry for a key is the one that counts. `num n` is an
integer; `dec m p` is the number `m / 10 ^ p`, for the numbers that are written
with decimals, such as `0.9`. -/
inductive JsVal where
  | undefined
  | null
  | bool (b : Bool)
  | num (n : Int)
  | dec (mantissa : Int) (places : Nat)
  | str (s : String)
  | arr (items : List JsVal)
  | obj (fields : List (String × JsVal))
  | serverTimestamp
  deriving Inhabited

namespace JsVal

/-- JavaScript truthiness (`ToBoolean`): `undefined`, `null`, `false`, `0` and
the empty string are falsy, everything else is truthy. -/
def truthy : JsVal → Bool
  | undefined => false
  | null => false
  | bool b => b
  | num n => n != 0
  | dec m _ => m != 0
  | str s => s != ""
  | arr _ => true
  | obj _ => true
  | serverTimestamp => true

/-- The JavaScript expression `a || b` on values that are already evaluated. -/
def or (a b : JsVal) : JsVal :=
  if a.truthy then a else b

/-- `Array.isArray(v)`. -/
def isArray : JsVal → Bool
  | arr _ => true
  | _ => false

/-- Strict equality `a === b`. Primitives compare by value; two arrays or
objects are equal only when they are the same reference, which values read
from two different places (a decoded token and a request) never are. -/
def strictEq : JsVal → JsVal → Bool
  | undefined, undefined => true
  | null, null => true
  | bool a, bool b => a == b
  | num a, num b => a == b
  | num a, dec m p => a * 10 ^ p == m
  | dec m p, num a => m == a * 10 ^ p
  | dec m p, dec m2 p2 => m * 10 ^ p2 == m2 * 10 ^ p
  | str a, str b => a == b
  | _, _ => false

/-- Message of the `TypeError` thrown when a property of `undefined` or `null`
is read. -/
def typeError (key : String) : String :=
  "Cannot read properties of undefined or null (reading " ++ key ++ ")"

/-- Property read `v.key` (also one field of a destructuring `const {key} = v`).
Reading from `undefined` or `null` throws a `TypeError`; an object yields its own
property or `undefined`; every other value has none of the property names that
the handlers read (`userId`, `items`, `name`, `uid`, ...), so it yields
`undefined`. -/
def prop (v : JsVal) (key : String) : Except String JsVal :=
  match v with
  | undefined => .error (typeError key)
  | null => .error (typeError key)
  | obj fields => .ok ((fields.lookup key).getD undefined)
  | _ => .ok undefined

end JsVal

/-! ## Strings -/

/-- `s.startsWith(pre)`. -/
def startsWith (s pre : String) : Bool :=
  pre.data.isPrefixOf s.data

/-- Worker of `jsSplit`: scans the remaining characters; `skip` counts the
characters of a separator occurrence still to be dropped, `cur` is the piece
being collected, reversed. -/
def splitGo (sep : List Char) : Nat → List Char → List Char → List (List Char)
  | _, cur, [] => [cur.reverse]
  | skip + 1, cur, _ :: rest => splitGo sep skip cur rest
  | 0, cur, c :: rest =>
    if sep.isPrefixOf (c :: rest) then
      cur.reverse :: splitGo sep (sep.length - 1) [] rest
    else
      splitGo sep 0 (c :: cur) rest

/-- `s.split(sep)` for a non-empty separator string: the pieces between the
successive, non-overlapping occurrences of `sep`, found from the left. -/
def jsSplit (s sep : String) : List String :=
  (splitGo sep.data 0 [] s.data).map String.mk

/-! ## Requests and responses -/

/-- HTTP request methods. -/
inductive Method where
  | GET | POST | PUT | DELETE | OTHER
  deriving DecidableEq, Repr

/-- The method as written in the request line. -/
def Method.name : Method → String
  | .GET => "GET"
  | .POST => "POST"
  | .PUT => "PUT"
  | .DELETE => "DELETE"
  | .OTHER => "OTHER"

/-- The parts of an Express request that the gate and the handlers read:
`req.method`, `req.path`, `req.headers.authorization`, `req.params`, `req.body`
and `req.user`. A request arriving from the network has `user = undefined`. -/
structure Request where
  method : Method
  path : String
  authorization : Option String
  params : List (String × String)
  body : JsVal
  user : JsVal

/-- `req.params[key]`: the matched path segment, or `undefined`. -/
def Request.param (req : Request) (key : String) : JsVal :=
  match req.params.lookup key with
  | some v => .str v
  | none => .undefined

/-- A response sent with `res.status(status).json(body)`. -/
structure Response where
  status : Nat
  body : JsVal

/-- What a middleware did: the request context afterwards, the response it
sent (if any), the number of calls of `next`, and the arguments of its calls of
`verifyIdToken`, in order. -/
structure MwResult where
  req : Request
  response : Option Response
  nextCalls : Nat
  verified : List JsVal

/-- The identity provider: `admin.auth().verifyIdToken`, which resolves to the
decoded token or rejects with an error message. -/
abbrev Verifier := JsVal → Except String JsVal

/-! ## backend/auth.js -/

/-- Body of the 401 sent when no bearer header is present. -/
def noTokenBody : JsVal :=
  .obj [("success", .bool false), ("message", .str "No authentication token provided")]

/-- Body of the 401 sent from the `catch` of `authenticateUser`. -/
def invalidTokenBody : JsVal :=
  .obj [("success", .bool false), ("message", .str "Invalid authentication token")]

/-- Body of the 403 sent on an identity mismatch. -/
def unauthorizedBody : JsVal :=
  .obj [("success", .bool false), ("message", .str "Unauthorized access")]

/-- Body of the 403 sent from the `catch` of `authorizeUser`. -/
def authorizationFailedBody : JsVal :=
  .obj [("success", .bool false), ("message", .str "Authorization failed")]

/-- The value of `authHeader.split("Bearer ")[1]`. -/
def idTokenOf (authHeader : String) : JsVal :=
  match (jsSplit authHeader "Bearer ").get? 1 with
  | some t => .str t
  | none => .undefined

/-- Middleware `authenticateUser` of `backend/auth.js`. -/
def authenticateUser (verifyIdToken : Verifier) (req : Request) : MwResult :=
  match req.authorization with
  | none => { req := req, response := some ⟨401, noTokenBody⟩, nextCalls := 0, verified := [] }
  | some authHeader =>
    if authHeader == "" || !startsWith authHeader "Bearer " then
      { req := req, response := some ⟨401, noTokenBody⟩, nextCalls := 0, verified := [] }
    else
      let idToken := idTokenOf authHeader
      match verifyIdToken idToken with
      | .ok decodedToken =>
        { req := { req with user := decodedToken }, response := none, nextCalls := 1,
          verified := [idToken] }
      | .error _ =>
        { req := req, response := some ⟨401, invalidTokenBody⟩, nextCalls := 0,
          verified := [idToken] }

/-- The value of `req.params.userId || req.body.userId`; the body is read only
when the path parameter is falsy, and reading it throws when the body is
`undefined` or `null`. -/
def requestUserId (req : Request) : Except String JsVal :=
  if (req.param "userId").truthy then .ok (req.param "userId")
  else req.body.prop "userId"

/-- Middleware `authorizeUser` of `backend/auth.js`. -/
def authorizeUser (req : Request) : MwResult :=
  match req.user.prop "uid" with
  | .error _ =>
    { req := req, response := some ⟨403, authorizationFailedBody⟩, nextCalls := 0, verified := [] }
  | .ok tokenUserId =>
    match requestUserId req with
    | .error _ =>
      { req := req, response := some ⟨403, authorizationFailedBody⟩, nextCalls := 0,
        verified := [] }
    | .ok requestUserId =>
      if !requestUserId.truthy then
        { req := req, response := none, nextCalls := 1, verified := [] }
      else if !JsVal.strictEq tokenUserId requestUserId then
        { req := req, response := some ⟨403, unauthorizedBody⟩, nextCalls := 0, verified := [] }
      else
        { req := req, response := none, nextCalls := 1, verified := [] }

/-! ## The document store -/

/-- A document or collection reference: the segments of its path. -/
abbrev DocPath := List String

/-- The data of a stored document: its fields. -/
abbrev Fields := List (String × JsVal)

/-- A write staged into a batch or sent to the store directly. -/
inductive Write where
  | set (ref : DocPath) (data : JsVal)
  | update (ref : DocPath) (data : JsVal)
  | delete (ref : DocPath)

/-- The document a write targets. -/
def Write.ref : Write → DocPath
  | .set ref _ => ref
  | .update ref _ => ref
  | .delete ref => ref

/-- A condition of a query, `where(field, op, value)`. -/
structure Condition where
  field : String
  op : String
  value : JsVal

/-- A query on a collection:
`coll.where(...) ... .orderBy(field, direction).limit(n)`. -/
structure Query where
  coll : DocPath
  conditions : List Condition
  orderBy : Option (String × String)
  limit : Option Nat

/-- The Firestore client as the handlers see it. `get ref` is `ref.get()` on a
document (the data of the snapshot when it exists), `list coll` is `coll.get()`
on a collection (ids and data), `commit ws` is `batch.commit()`, `write w` is a
write sent on its own (`ref.set`, `ref.update`, `ref.delete`, `coll.add`),
`query q` is `get()` on a query (ids and data of the documents found), and
`autoId n` is the id that the n-th call of `doc()` without argument (or of
`add`) generates during one request. Each operation may reject with an error
message. Staging a write into a batch does not fail by itself: a write that the
client refuses makes the commit of its batch reject. -/
structure Db where
  get : DocPath → Except String (Option Fields)
  list : DocPath → Except String (List (String × Fields))
  commit : List Write → Except String Unit
  autoId : Nat → String
  write : Write → Except String Unit
  query : Query → Except String (List (String × Fields))

/-- What a handler did to the store, in order. `batch w` only stages the write
`w` into the batch (`batch.set`, `batch.update`); `batchCommit` hands the whole
batch to the store; `write w` sends the single write `w` to the store; `query q`
runs the query `q`. -/
inductive StoreOp where
  | get (ref : DocPath)
  | list (coll : DocPath)
  | batch (w : Write)
  | batchCommit (writes : List Write)
  | write (w : Write)
  | query (q : Query)

/-- A handler run: the response sent and the store operations performed. -/
structure HandlerResult where
  response : Response
  ops : List StoreOp

/-- `coll.doc(id)`: a non-empty string names the document `coll/id` (ids are
taken to contain no slash); any other argument is rejected by the client. -/
def docRef (coll : DocPath) (id : JsVal) : Except String DocPath :=
  match id with
  | .str s => if s == "" then .error "documentPath must be a non-empty string"
    else .ok (coll ++ [s])
  | _ => .error "documentPath must be a non-empty string"

/-- The documents and collections a handler read from the store, in order. -/
def readsOf : List StoreOp → List DocPath
  | [] => []
  | .get ref :: rest => ref :: readsOf rest
  | .list coll :: rest => coll :: readsOf rest
  | .query q :: rest => q.coll :: readsOf rest
  | _ :: rest => readsOf rest

/-- The writes a handler staged into a batch, in order. -/
def stagedOf : List StoreOp → List Write
  | [] => []
  | .batch w :: rest => w :: stagedOf rest
  | _ :: rest => stagedOf rest

/-- The batches a handler handed to `batch.commit()`, in order. -/
def commitsOf : List StoreOp → List (List Write)
  | [] => []
  | .batchCommit ws :: rest => ws :: commitsOf rest
  | _ :: rest => commitsOf rest

/-! ## backend/main.js: handlers -/

/-- Handler of `GET /health`. -/
def health (_req : Request) : HandlerResult :=
  ⟨⟨200, .obj [("status", .str "ok")]⟩, []⟩

/-- Body of the 400 of `POST /pantry/add`. -/
def pantryAddBadRequest : JsVal :=
  .obj [("error", .str "User ID and items array are required")]

/-- Body of the 500 of `POST /pantry/add`. -/
def pantryAddFailed : JsVal :=
  .obj [("error", .str "Failed to add items to pantry")]

/-- Body of the 200 of `POST /pantry/add`. -/
def pantryAddOk : JsVal :=
  .obj [("success", .bool true), ("message", .str "Items added to pantry")]

/-- The container document staged by `POST /pantry/add` when the pantry does
not exist yet. -/
def pantryContainer (userId : JsVal) : JsVal :=
  .obj [("userId", userId), ("createdAt", .serverTimestamp)]

/-- The item document staged by `POST /pantry/add` for one entry; every read of
the entry may throw. -/
def pantryItemData (item : JsVal) : Except String JsVal := do
  let name ← item.prop "name"
  let quantity ← item.prop "quantity"
  let unit ← item.prop "unit"
  let category ← item.prop "category"
  let expiryDate ← item.prop "expiryDate"
  let purchaseDate ← item.prop "purchaseDate"
  let customImage ← item.prop "customImage"
  let isCustom ← item.prop "isCustom"
  pure (.obj [
    ("name", name),
    ("quantity", quantity.or (.num 1)),
    ("unit", unit.or (.str "item")),
    ("category", category.or (.str "uncategorized")),
    ("expiryDate", expiryDate.or .null),
    ("purchaseDate", purchaseDate.or .serverTimestamp),
    ("customImage", customImage.or .null),
    ("isCustom", isCustom.or (.bool false)),
    ("createdAt", .serverTimestamp),
    ("updatedAt", .serverTimestamp)])

/-- The loop `for (const item of items)` of `POST /pantry/add`: the writes
staged, in order, and the error that ended the loop early, if any. `n` counts
the ids generated so far. -/
def stagePantryItems (db : Db) (pantryRef : DocPath) :
    Nat → List JsVal → List Write × Option String
  | _, [] => ([], none)
  | n, item :: rest =>
    match item.prop "name" with
    | .error e => ([], some e)
    | .ok name =>
      if !name.truthy then stagePantryItems db pantryRef n rest
      else
        match pantryItemData item with
        | .error e => ([], some e)
        | .ok data =>
          let itemRef := pantryRef ++ ["items", db.autoId n]
          let more := stagePantryItems db pantryRef (n + 1) rest
          (Write.set itemRef data :: more.1, more.2)

/-- The elements of an array value. -/
def JsVal.elems : JsVal → List JsVal
  | .arr items => items
  | _ => []

/-- The batch that `POST /pantry/add` builds once the pantry lookup has
answered with `pantryDoc`: the container write when the pantry does not exist,
then the item writes; with the error that ended the loop early, if any. -/
def pantryBatch (db : Db) (pantryRef : DocPath) (userId : JsVal) (pantryDoc : Option Fields)
    (items : List JsVal) : List Write × Option String :=
  let container : List Write :=
    if pantryDoc.isSome then [] else [.set pantryRef (pantryContainer userId)]
  let loop := stagePantryItems db pantryRef 0 items
  (container ++ loop.1, loop.2)

/-- The end of `POST /pantry/add`: unless the loop threw, the batch is
committed; the answer is 200 when nothing threw and 500 otherwise. The pantry
lookup and the staging calls have happened in either case. -/
def pantryCommit (db : Db) (pantryRef : DocPath) (batch : List Write × Option String) :
    HandlerResult :=
  match batch.2 with
  | some _ => ⟨⟨500, pantryAddFailed⟩, .get pantryRef :: batch.1.map StoreOp.batch⟩
  | none =>
    match db.commit batch.1 with
    | .error _ =>
      ⟨⟨500, pantryAddFailed⟩,
        .get pantryRef :: (batch.1.map StoreOp.batch ++ [.batchCommit batch.1])⟩
    | .ok _ =>
      ⟨⟨200, pantryAddOk⟩,
        .get pantryRef :: (batch.1.map StoreOp.batch ++ [.batchCommit batch.1])⟩

/-- Handler of `POST /pantry/add`. -/
def pantryAdd (db : Db) (req : Request) : HandlerResult :=
  match req.body.prop "userId", req.body.prop "items" with
  | .ok userId, .ok items =>
    if !userId.truthy || !items.truthy || !items.isArray then
      ⟨⟨400, pantryAddBadRequest⟩, []⟩
    else
      match docRef ["pantries"] userId with
      | .error _ => ⟨⟨500, pantryAddFailed⟩, []⟩
      | .ok pantryRef =>
        match db.get pantryRef with
        | .error _ => ⟨⟨500, pantryAddFailed⟩, [.get pantryRef]⟩
        | .ok pantryDoc =>
          pantryCommit db pantryRef (pantryBatch db pantryRef userId pantryDoc items.elems)
  | _, _ => ⟨⟨500, pantryAddFailed⟩, []⟩

/-- The object `{id: doc.id, ...doc.data()}`: a field `id` of the data replaces
the document id, in place. -/
def withId (id : String) (data : Fields) : JsVal :=
  match data.lookup "id" with
  | some v => .obj (("id", v) :: data.filter (fun kv => kv.1 != "id"))
  | none => .obj (("id", .str id) :: data)

/-- Handler of `GET /shopping-list/:listId`. -/
def shoppingListGet (db : Db) (req : Request) : HandlerResult :=
  let listId := req.param "listId"
  if !listId.truthy then ⟨⟨400, .obj [("error", .str "List ID is required")]⟩, []⟩
  else
    let failed : Response := ⟨500, .obj [("error", .str "Failed to fetch shopping list items")]⟩
    match docRef ["shopping-lists"] listId with
    | .error _ => ⟨failed, []⟩
    | .ok listRef =>
      match db.get listRef with
      | .error _ => ⟨failed, [.get listRef]⟩
      | .ok none => ⟨⟨404, .obj [("error", .str "Shopping list not found")]⟩, [.get listRef]⟩
      | .ok (some listData) =>
        match db.list (listRef ++ ["items"]) with
        | .error _ => ⟨failed, [.get listRef, .list (listRef ++ ["items"])]⟩
        | .ok docs =>
          ⟨⟨200, .obj [("list", .obj listData),
                      ("items", .arr (docs.map (fun d => withId d.1 d.2)))]⟩,
            [.get listRef, .list (listRef ++ ["items"])]⟩

/-! ## More of JavaScript -/

/-- The digits of a fraction `frac / 10 ^ places`, without trailing zeros. -/
def fractionDigits (frac places : Nat) : List Char :=
  let digits := (Nat.repr frac).data
  ((List.replicate (places - digits.length) '0' ++ digits).reverse.dropWhile
    (fun c => c == '0')).reverse

/-- The text of the number `m / 10 ^ p`. -/
def decString (m : Int) (p : Nat) : String :=
  let whole := Nat.repr (m.natAbs / 10 ^ p)
  let frac := fractionDigits (m.natAbs % 10 ^ p) p
  (if m < 0 then "-" else "") ++ whole ++ (if frac.isEmpty then "" else "." ++ String.mk frac)

mutual
/-- JavaScript `String(v)` as used by template literals and `join`. -/
def JsVal.toJsString : JsVal → String
  | .undefined => "undefined"
  | .null => "null"
  | .bool true => "true"
  | .bool false => "false"
  | .num n => toString n
  | .dec m p => decString m p
  | .str s => s
  | .arr items => joinItems "," items
  | .obj _ => "[object Object]"
  | .serverTimestamp => "[object Object]"
/-- `items.join(sep)`: `undefined` and `null` elements contribute the empty
string. -/
def joinItems (sep : String) : List JsVal → String
  | [] => ""
  | [v] => joinOne v
  | v :: rest => joinOne v ++ sep ++ joinItems sep rest
/-- The contribution of one element to a `join`. -/
def joinOne : JsVal → String
  | .undefined => ""
  | .null => ""
  | v => JsVal.toJsString v
end

/-- Indexing `v[i]`: reading from `undefined` or `null` throws; an array yields
its element or `undefined`; a string yields its character or `undefined`. -/
def JsVal.index (v : JsVal) (i : Nat) : Except String JsVal :=
  match v with
  | .undefined => .error (JsVal.typeError "index")
  | .null => .error (JsVal.typeError "index")
  | .arr items => .ok (items.getD i .undefined)
  | .str s => .ok (match s.data.get? i with
    | some c => .str (String.mk [c])
    | none => .undefined)
  | _ => .ok .undefined

/-- The fields of an object after `obj[key] = x`: an existing property keeps
its place, a new one is added at the end. -/
def setField (fields : Fields) (key : String) (x : JsVal) : Fields :=
  if fields.any (fun kv => kv.1 == key) then
    fields.map (fun kv => if kv.1 == key then (kv.1, x) else kv)
  else fields ++ [(key, x)]

/-- The value `v` after the assignment `v.key = x`. Assigning to a property of
`undefined` or `null` throws. On an array the property lands on the array
object and is no element of it, on a primitive the assignment has no effect:
both are left as they are. -/
def JsVal.assign (v : JsVal) (key : String) (x : JsVal) : Except String JsVal :=
  match v with
  | .undefined => .error (JsVal.typeError key)
  | .null => .error (JsVal.typeError key)
  | .obj fields => .ok (.obj (setField fields key x))
  | other => .ok other

/-- `v.length > 0` for an array `v`. -/
def JsVal.nonEmptyArray : JsVal → Bool
  | .arr (_ :: _) => true
  | _ => false

/-! ## More of the store -/

/-- The writes of a run that the store accepted: the single writes it did not
reject and the batches whose commit it did not reject, in order. -/
def persistedOf (db : Db) : List StoreOp → List Write
  | [] => []
  | .write w :: rest =>
    (match db.write w with
      | .ok _ => [w]
      | .error _ => []) ++ persistedOf db rest
  | .batchCommit ws :: rest =>
    (match db.commit ws with
      | .ok _ => ws
      | .error _ => []) ++ persistedOf db rest
  | _ :: rest => persistedOf db rest

/-- The single writes a handler sent to the store, in order. -/
def writesOf : List StoreOp → List Write
  | [] => []
  | .write w :: rest => w :: writesOf rest
  | _ :: rest => writesOf rest

/-- A loop `for (const child of children)` that stages one `set` per child
under a generated id of the collection `coll`. `mk child` is the body up to the
write: it throws, skips the child (`continue`) or yields the document. The
result is the writes staged and the error that ended the loop early, if any;
`n` counts the ids generated so far. -/
def stageChildren (db : Db) (coll : DocPath) (mk : JsVal → Except String (Option JsVal)) :
    Nat → List JsVal → List Write × Option String
  | _, [] => ([], none)
  | n, child :: rest =>
    match mk child with
    | .error e => ([], some e)
    | .ok none => stageChildren db coll mk n rest
    | .ok (some data) =>
      let more := stageChildren db coll mk (n + 1) rest
      (Write.set (coll ++ [db.autoId n]) data :: more.1, more.2)

/-! ## backend/main.js: more handlers -/

/-- Handler of `GET /pantry/:userId`. -/
def pantryGet (db : Db) (req : Request) : HandlerResult :=
  let userId := req.param "userId"
  if !userId.truthy then ⟨⟨400, .obj [("error", .str "User ID is required")]⟩, []⟩
  else
    let failed : Response := ⟨500, .obj [("error", .str "Failed to fetch pantry items")]⟩
    match docRef ["pantries"] userId with
    | .error _ => ⟨failed, []⟩
    | .ok pantryRef =>
      match db.get pantryRef with
      | .error _ => ⟨failed, [.get pantryRef]⟩
      | .ok none => ⟨⟨404, .obj [("error", .str "Pantry not found")]⟩, [.get pantryRef]⟩
      | .ok (some _) =>
        match db.list (pantryRef ++ ["items"]) with
        | .error _ => ⟨failed, [.get pantryRef, .list (pantryRef ++ ["items"])]⟩
        | .ok docs =>
          ⟨⟨200, .obj [("items", .arr (docs.map (fun d => withId d.1 d.2)))]⟩,
            [.get pantryRef, .list (pantryRef ++ ["items"])]⟩

/-- The reference `db.collection("pantries").doc(userId).collection("items").doc(itemId)`. -/
def pantryItemRef (userId itemId : JsVal) : Except String DocPath := do
  let pantryRef ← docRef ["pantries"] userId
  docRef (pantryRef ++ ["items"]) itemId

/-- Handler of `PUT /pantry/item/:userId/:itemId`. -/
def pantryItemPut (db : Db) (req : Request) : HandlerResult :=
  let userId := req.param "userId"
  let itemId := req.param "itemId"
  let updates := req.body
  if !userId.truthy || !itemId.truthy then
    ⟨⟨400, .obj [("error", .str "User ID and item ID are required")]⟩, []⟩
  else
    let failed : Response := ⟨500, .obj [("error", .str "Failed to update pantry item")]⟩
    match pantryItemRef userId itemId with
    | .error _ => ⟨failed, []⟩
    | .ok itemRef =>
      match db.get itemRef with
      | .error _ => ⟨failed, [.get itemRef]⟩
      | .ok none => ⟨⟨404, .obj [("error", .str "Item not found")]⟩, [.get itemRef]⟩
      | .ok (some _) =>
        match updates.assign "updatedAt" .serverTimestamp with
        | .error _ => ⟨failed, [.get itemRef]⟩
        | .ok stamped =>
          match db.write (.update itemRef stamped) with
          | .error _ => ⟨failed, [.get itemRef, .write (.update itemRef stamped)]⟩
          | .ok _ =>
            ⟨⟨200, .obj [("success", .bool true), ("message", .str "Item updated")]⟩,
              [.get itemRef, .write (.update itemRef stamped)]⟩

/-- Handler of `DELETE /pantry/item/:userId/:itemId`. -/
def pantryItemDelete (db : Db) (req : Request) : HandlerResult :=
  let userId := req.param "userId"
  let itemId := req.param "itemId"
  if !userId.truthy || !itemId.truthy then
    ⟨⟨400, .obj [("error", .str "User ID and item ID are required")]⟩, []⟩
  else
    let failed : Response := ⟨500, .obj [("error", .str "Failed to delete pantry item")]⟩
    match pantryItemRef userId itemId with
    | .error _ => ⟨failed, []⟩
    | .ok itemRef =>
      match db.get itemRef with
      | .error _ => ⟨failed, [.get itemRef]⟩
      | .ok none => ⟨⟨404, .obj [("error", .str "Item not found")]⟩, [.get itemRef]⟩
      | .ok (some _) =>
        match db.write (.delete itemRef) with
        | .error _ => ⟨failed, [.get itemRef, .write (.delete itemRef)]⟩
        | .ok _ =>
          ⟨⟨200, .obj [("success", .bool true), ("message", .str "Item deleted")]⟩,
            [.get itemRef, .write (.delete itemRef)]⟩

/-- The body of the loop of `POST /shopping-list/create` up to the write: an
entry without a truthy `name` is skipped. -/
def listItemData (item : JsVal) : Except String (Option JsVal) := do
  let name ← item.prop "name"
  if !name.truthy then pure none
  else
    let quantity ← item.prop "quantity"
    let unit ← item.prop "unit"
    let category ← item.prop "category"
    let isChecked ← item.prop "isChecked"
    pure (some (.obj [
      ("name", name),
      ("quantity", quantity.or (.num 1)),
      ("unit", unit.or (.str "item")),
      ("category", category.or (.str "uncategorized")),
      ("isChecked", isChecked.or (.bool false)),
      ("createdAt", .serverTimestamp),
      ("updatedAt", .serverTimestamp)]))

/-- The part of a create handler after the container has been written: when
`children` is a non-empty array its entries are staged into a batch and the
batch is committed; then the handler answers `ok`. Anything thrown leads to the
answer `failed`. `done` is what the handler did before. -/
def createChildren (db : Db) (coll : DocPath) (mk : JsVal → Except String (Option JsVal))
    (children : JsVal) (done : List StoreOp) (ok failed : Response) : HandlerResult :=
  if children.truthy && children.isArray && children.nonEmptyArray then
    let loop := stageChildren db coll mk 1 children.elems
    match loop.2 with
    | some _ => ⟨failed, done ++ loop.1.map StoreOp.batch⟩
    | none =>
      match db.commit loop.1 with
      | .error _ => ⟨failed, done ++ (loop.1.map StoreOp.batch ++ [.batchCommit loop.1])⟩
      | .ok _ => ⟨ok, done ++ (loop.1.map StoreOp.batch ++ [.batchCommit loop.1])⟩
  else ⟨ok, done⟩

/-- Handler of `POST /shopping-list/create`. -/
def shoppingListCreate (db : Db) (req : Request) : HandlerResult :=
  let failed : Response := ⟨500, .obj [("error", .str "Failed to create shopping list")]⟩
  match req.body.prop "userId", req.body.prop "name", req.body.prop "items" with
  | .ok userId, .ok name, .ok items =>
    if !userId.truthy then ⟨⟨400, .obj [("error", .str "User ID is required")]⟩, []⟩
    else
      let listRef := ["shopping-lists", db.autoId 0]
      let container := Write.set listRef (.obj [
        ("userId", userId),
        ("name", name.or (.str "Shopping List")),
        ("createdAt", .serverTimestamp),
        ("updatedAt", .serverTimestamp)])
      match db.write container with
      | .error _ => ⟨failed, [.write container]⟩
      | .ok _ =>
        createChildren db (listRef ++ ["items"]) listItemData items [.write container]
          ⟨200, .obj [("success", .bool true), ("message", .str "Shopping list created"),
            ("listId", .str (db.autoId 0))]⟩
          failed
  | _, _, _ => ⟨failed, []⟩

/-- The body of the loop of `POST /meal-plan/create` up to the write: a meal
without a truthy `date` or without a truthy `type` is skipped. -/
def mealData (meal : JsVal) : Except String (Option JsVal) := do
  let date ← meal.prop "date"
  let type ← meal.prop "type"
  if !date.truthy || !type.truthy then pure none
  else
    let recipeId ← meal.prop "recipeId"
    let recipeName ← meal.prop "recipeName"
    let notes ← meal.prop "notes"
    pure (some (.obj [
      ("date", date),
      ("type", type),
      ("recipeId", recipeId.or .null),
      ("recipeName", recipeName.or .null),
      ("notes", notes.or .null),
      ("createdAt", .serverTimestamp),
      ("updatedAt", .serverTimestamp)]))

/-- Handler of `POST /meal-plan/create`. -/
def mealPlanCreate (db : Db) (req : Request) : HandlerResult :=
  let failed : Response := ⟨500, .obj [("error", .str "Failed to create meal plan")]⟩
  match req.body.prop "userId", req.body.prop "name", req.body.prop "startDate",
    req.body.prop "endDate", req.body.prop "meals" with
  | .ok userId, .ok name, .ok startDate, .ok endDate, .ok meals =>
    if !userId.truthy || !startDate.truthy then
      ⟨⟨400, .obj [("error", .str "User ID and start date are required")]⟩, []⟩
    else
      let mealPlanRef := ["meal-plans", db.autoId 0]
      let container := Write.set mealPlanRef (.obj [
        ("userId", userId),
        ("name", name.or (.str "Meal Plan")),
        ("startDate", startDate),
        ("endDate", endDate.or .null),
        ("createdAt", .serverTimestamp),
        ("updatedAt", .serverTimestamp)])
      match db.write container with
      | .error _ => ⟨failed, [.write container]⟩
      | .ok _ =>
        createChildren db (mealPlanRef ++ ["meals"]) mealData meals [.write container]
          ⟨200, .obj [("success", .bool true), ("message", .str "Meal plan created"),
            ("mealPlanId", .str (db.autoId 0))]⟩
          failed
  | _, _, _, _, _ => ⟨failed, []⟩

/-! ## backend/main.js: routes that use the language model -/

/-- The configured language-model client: `create request` is
`openai.chat.completions.create(request)`, which resolves to a completion or
rejects. The variable `openai` of `backend/main.js` is `none` when no API key is
configured. -/
abbrev OpenAI := JsVal → Except String JsVal

/-- The expression `completion.choices[0].message.content`. -/
def completionContent (completion : JsVal) : Except String JsVal := do
  let choices ← completion.prop "choices"
  let first ← choices.index 0
  let message ← first.prop "message"
  message.prop "content"

/-- The call `openai.chat.completions.create(request)` on the variable
`openai`: reading `chat` from an undefined `openai` throws a `TypeError`. -/
def createCompletion (openai : Option OpenAI) (request : JsVal) : Except String JsVal :=
  match openai with
  | none => .error (JsVal.typeError "chat")
  | some client => client request

/-- The request that `POST /ai-chef/query` sends to the language model. -/
def aiChefRequest (pantryItems : List JsVal) (query : JsVal) : JsVal :=
  .obj [
    ("messages", .arr [
      .obj [("role", .str "system"),
        ("content", .str ("You are an AI Chef assistant. The user has these ingredients in their pantry: "
          ++ joinItems ", " pantryItems
          ++ ". \n                   Recommend recipes based on their query and pantry ingredients. If you need more ingredients, suggest what they need to buy."))],
      .obj [("role", .str "user"), ("content", query)]]),
    ("model", .str "gpt-3.5-turbo")]

/-- Handler of `POST /ai-chef/query`. -/
def aiChefQuery (openai : Option OpenAI) (db : Db) (req : Request) : HandlerResult :=
  let failed : Response := ⟨500, .obj [("error", .str "Failed to process query")]⟩
  match req.body.prop "userId", req.body.prop "query" with
  | .ok userId, .ok query =>
    if !userId.truthy || !query.truthy then
      ⟨⟨400, .obj [("error", .str "User ID and query are required")]⟩, []⟩
    else
      match openai with
      | none =>
        ⟨⟨503, .obj [("error", .str "AI Chef service unavailable"),
          ("message", .str "OpenAI integration is not configured")]⟩, []⟩
      | some client =>
        match docRef ["pantries"] userId with
        | .error _ => ⟨failed, []⟩
        | .ok pantryRef =>
          match db.list (pantryRef ++ ["items"]) with
          | .error _ => ⟨failed, [.list (pantryRef ++ ["items"])]⟩
          | .ok docs =>
            let pantryItems := docs.map (fun d => (d.2.lookup "name").getD .undefined)
            match (client (aiChefRequest pantryItems query)).bind completionContent with
            | .error _ => ⟨failed, [.list (pantryRef ++ ["items"])]⟩
            | .ok content =>
              ⟨⟨200, .obj [("response", content)]⟩, [.list (pantryRef ++ ["items"])]⟩
  | _, _ => ⟨failed, []⟩

/-- The request that `POST /micronutrition/analyze` sends to the language
model. -/
def micronutritionRequest (foodName : JsVal) : JsVal :=
  .obj [
    ("messages", .arr [
      .obj [("role", .str "system"),
        ("content", .str "You are a nutrition expert. Provide detailed micronutritional analysis for the food item. \n                   Include nutrients, potential health effects, and any relevant research. Keep it factual and scientific.")],
      .obj [("role", .str "user"),
        ("content", .str ("Analyze micronutrients for: " ++ foodName.toJsString))]]),
    ("model", .str "gpt-3.5-turbo")]

/-- Handler of `POST /micronutrition/analyze`. -/
def micronutritionAnalyze (openai : Option OpenAI) (req : Request) : HandlerResult :=
  let failed : Response := ⟨500, .obj [("error", .str "Failed to analyze micronutrition")]⟩
  match req.body.prop "foodName" with
  | .ok foodName =>
    if !foodName.truthy then
      ⟨⟨400, .obj [("error", .str "Food name is required")]⟩, []⟩
    else
      match openai with
      | none =>
        ⟨⟨503, .obj [("error", .str "Micronutrition analysis service unavailable"),
          ("message", .str "OpenAI integration is not configured")]⟩, []⟩
      | some client =>
        match (client (micronutritionRequest foodName)).bind completionContent with
        | .error _ => ⟨failed, []⟩
        | .ok content => ⟨⟨200, .obj [("foodName", foodName), ("analysis", content)]⟩, []⟩
  | .error _ => ⟨failed, []⟩

/-- The request with an image that `POST /food/recognize` and
`POST /receipt/scan` send to the language model. -/
def visionRequest (system text : String) (imageUrl : JsVal) (maxTokens : Int) : JsVal :=
  .obj [
    ("model", .str "gpt-4-vision-preview"),
    ("messages", .arr [
      .obj [("role", .str "system"), ("content", .str system)],
      .obj [("role", .str "user"),
        ("content", .arr [
          .obj [("type", .str "text"), ("text", .str text)],
          .obj [("type", .str "image_url"),
            ("image_url", .obj [("url", imageUrl), ("detail", .str "high")])]])]]),
    ("max_tokens", .num maxTokens)]

/-- Handler of `POST /food/recognize`. The helper `parseFoodItems` is a
parameter. -/
def foodRecognize (openai : Option OpenAI) (parseFoodItems : JsVal → JsVal) (db : Db)
    (req : Request) : HandlerResult :=
  let failed : Response := ⟨500, .obj [("error", .str "Failed to recognize food items")]⟩
  match req.body.prop "imageUrl", req.user.prop "uid" with
  | .ok imageUrl, .ok userId =>
    if !imageUrl.truthy then ⟨⟨400, .obj [("error", .str "Image URL is required")]⟩, []⟩
    else
      match (createCompletion openai (visionRequest
          "You are a food recognition expert. Analyze the image and identify all food items present. For each item, provide its name, category (e.g., fruit, vegetable, meat, dairy, etc.), and confidence level (0-1)."
          "What food items are in this image? Provide a detailed analysis."
          imageUrl 500)).bind completionContent with
      | .error _ => ⟨failed, []⟩
      | .ok analysis =>
        let foodItems := parseFoodItems analysis
        let record := Write.set ["food-recognition", db.autoId 0] (.obj [
          ("userId", userId),
          ("imageUrl", imageUrl),
          ("recognizedItems", foodItems),
          ("timestamp", .serverTimestamp)])
        match db.write record with
        | .error _ => ⟨failed, [.write record]⟩
        | .ok _ =>
          ⟨⟨200, .obj [("success", .bool true),
            ("message", .str "Food items recognized successfully"),
            ("data", .obj [("recognizedItems", foodItems)])]⟩, [.write record]⟩
  | _, _ => ⟨failed, []⟩

/-- Handler of `POST /receipt/scan`. The helper `parseReceiptItems` is a
parameter. -/
def receiptScan (openai : Option OpenAI) (parseReceiptItems : JsVal → JsVal) (db : Db)
    (req : Request) : HandlerResult :=
  let failed : Response := ⟨500, .obj [("error", .str "Failed to scan receipt")]⟩
  match req.body.prop "imageUrl", req.user.prop "uid" with
  | .ok imageUrl, .ok userId =>
    if !imageUrl.truthy then ⟨⟨400, .obj [("error", .str "Image URL is required")]⟩, []⟩
    else
      match (createCompletion openai (visionRequest
          "You are a receipt scanning expert. Analyze the receipt image and extract all items with their prices, quantities, and total amounts. Format the response as a structured list of items with their details."
          "Please analyze this receipt and extract all items with their prices and quantities."
          imageUrl 1000)).bind completionContent with
      | .error _ => ⟨failed, []⟩
      | .ok analysis =>
        let receiptItems := parseReceiptItems analysis
        let record := Write.set ["receipts", db.autoId 0] (.obj [
          ("userId", userId),
          ("imageUrl", imageUrl),
          ("items", receiptItems),
          ("timestamp", .serverTimestamp)])
        match db.write record with
        | .error _ => ⟨failed, [.write record]⟩
        | .ok _ =>
          ⟨⟨200, .obj [("success", .bool true),
            ("message", .str "Receipt scanned successfully"),
            ("data", .obj [("items", receiptItems)])]⟩, [.write record]⟩
  | _, _ => ⟨failed, []⟩

/-! ## backend/main.js: callable and scheduled functions -/

/-- An error of the callable protocol, `new functions.https.HttpsError(code, message)`. -/
structure HttpsError where
  code : String
  message : String

/-- What can be thrown inside the `try` of a callable: an `HttpsError` or any
other error. -/
inductive Thrown where
  | https (e : HttpsError)
  | other (message : String)

/-- A run of a callable: what the caller gets, a value or an `HttpsError`, and
the store operations performed. -/
structure CallResult where
  result : Except HttpsError JsVal
  ops : List StoreOp

/-- Turns the failure of a library call into a thrown error. -/
def thrown {α : Type} (r : Except String α) : Except Thrown α :=
  match r with
  | .ok a => .ok a
  | .error e => .error (.other e)

/-- The pantry item that `addShoppingListToPantry` creates from a shopping-list
item. -/
def purchasedItemData (item : Fields) : JsVal :=
  .obj [
    ("name", (item.lookup "name").getD .undefined),
    ("quantity", ((item.lookup "quantity").getD .undefined).or (.num 1)),
    ("unit", ((item.lookup "unit").getD .undefined).or (.str "item")),
    ("category", ((item.lookup "category").getD .undefined).or (.str "uncategorized")),
    ("purchaseDate", .serverTimestamp),
    ("expiryDate", .null),
    ("createdAt", .serverTimestamp),
    ("updatedAt", .serverTimestamp)]

/-- The loop `for (const itemId of purchasedItems)` of `addShoppingListToPantry`:
the store operations performed (lookups and stagings), the writes staged, and
the error that ended the loop early, if any. `n` counts the ids generated so
far. -/
def stagePurchased (db : Db) (pantryRef : DocPath) (listId : JsVal) :
    Nat → List JsVal → List StoreOp × List Write × Option String
  | _, [] => ([], [], none)
  | n, itemId :: rest =>
    match (docRef ["shopping-lists"] listId).bind (fun listRef =>
        docRef (listRef ++ ["items"]) itemId) with
    | .error e => ([], [], some e)
    | .ok itemRef =>
      match db.get itemRef with
      | .error e => ([.get itemRef], [], some e)
      | .ok none =>
        let more := stagePurchased db pantryRef listId n rest
        (.get itemRef :: more.1, more.2.1, more.2.2)
      | .ok (some item) =>
        let pantryItem := Write.set (pantryRef ++ ["items", db.autoId n]) (purchasedItemData item)
        let check := Write.update itemRef (.obj [("isChecked", .bool true)])
        let more := stagePurchased db pantryRef listId (n + 1) rest
        (.get itemRef :: .batch pantryItem :: .batch check :: more.1,
          pantryItem :: check :: more.2.1, more.2.2)

/-- The `try` block of `addShoppingListToPantry`. -/
def addShoppingListToPantryTry (db : Db) (data : JsVal) : Except Thrown JsVal × List StoreOp :=
  match data.prop "userId", data.prop "listId", data.prop "purchasedItems" with
  | .ok userId, .ok listId, .ok purchasedItems =>
    if !userId.truthy || !listId.truthy || !purchasedItems.truthy || !purchasedItems.isArray then
      (.error (.https ⟨"invalid-argument",
        "User ID, list ID, and purchased items array are required"⟩), [])
    else
      match docRef ["pantries"] userId with
      | .error e => (.error (.other e), [])
      | .ok pantryRef =>
        match db.get pantryRef with
        | .error e => (.error (.other e), [.get pantryRef])
        | .ok pantryDoc =>
          let container : List Write :=
            if pantryDoc.isSome then [] else [.set pantryRef (pantryContainer userId)]
          let loop := stagePurchased db pantryRef listId 0 purchasedItems.elems
          let ops := .get pantryRef :: (container.map StoreOp.batch ++ loop.1)
          let batch := container ++ loop.2.1
          match loop.2.2 with
          | some e => (.error (.other e), ops)
          | none =>
            match db.commit batch with
            | .error e => (.error (.other e), ops ++ [.batchCommit batch])
            | .ok _ =>
              (.ok (.obj [("success", .bool true), ("message", .str "Items added to pantry")]),
                ops ++ [.batchCommit batch])
  | _, _, _ => (.error (.other (JsVal.typeError "userId")), [])

/-- The callable `addShoppingListToPantry`: whatever is thrown inside its `try`
is caught and replaced by the `HttpsError` with code `internal`. -/
def addShoppingListToPantry (db : Db) (data : JsVal) : CallResult :=
  match addShoppingListToPantryTry db data with
  | (.ok value, ops) => ⟨.ok value, ops⟩
  | (.error _, ops) => ⟨.error ⟨"internal", "Failed to add items to pantry"⟩, ops⟩

/-- Three days in milliseconds. -/
def threeDaysMs : Int := 3 * 24 * 60 * 60 * 1000

/-- The query `coll.where(field, "<=", hi).where(field, ">=", lo).get()` for
points in time `lo` and `hi`: the documents of the collection whose `field` is a
point in time between them. Points in time are numbers of milliseconds. The
documents come in the order of the collection listing. -/
def rangeQuery (db : Db) (coll : DocPath) (field : String) (lo hi : Int) :
    Except String (List (String × Fields)) :=
  (db.list coll).map (fun docs =>
    docs.filter (fun d =>
      match d.2.lookup field with
      | some (.num e) => decide (lo ≤ e) && decide (e ≤ hi)
      | _ => false))

/-- The notification that `checkExpiringItems` records for a pantry. -/
def expiryNotification (userId : String) (expiringItems : List (String × Fields)) : JsVal :=
  .obj [
    ("userId", .str userId),
    ("type", .str "expiring-items"),
    ("items", .arr (expiringItems.map (fun d => withId d.1 d.2))),
    ("read", .bool false),
    ("createdAt", .serverTimestamp)]

/-- The loop over the pantries of `checkExpiringItems`, with the two bounds of
its query: the store operations performed, until one of them fails. `n` counts
the ids generated so far. -/
def sweepPantries (db : Db) (lo hi : Int) : Nat → List (String × Fields) → List StoreOp
  | _, [] => []
  | n, pantryDoc :: rest =>
    let items := ["pantries", pantryDoc.1, "items"]
    match rangeQuery db items "expiryDate" lo hi with
    | .error _ => [.list items]
    | .ok expiringItems =>
      if expiringItems.length > 0 then
        let w := Write.set ["notifications", db.autoId n]
          (expiryNotification pantryDoc.1 expiringItems)
        match db.write w with
        | .error _ => [.list items, .write w]
        | .ok _ => .list items :: .write w :: sweepPantries db lo hi (n + 1) rest
      else .list items :: sweepPantries db lo hi n rest

/-- The scheduled function `checkExpiringItems`, run at the time `t`
(milliseconds). `now.setDate(now.getDate() + 3)` moves `now` itself three days
ahead (days of 24 hours) and returns its new time, of which `threeDaysFromNow`
is a copy: both bounds of the query are `t` plus three days. The function
returns `null` in every case; its effect is the store operations. -/
def checkExpiringItems (db : Db) (t : Int) : List StoreOp :=
  let now := t + threeDaysMs
  let threeDaysFromNow := now
  match db.list ["pantries"] with
  | .error _ => [.list ["pantries"]]
  | .ok pantries => .list ["pantries"] :: sweepPantries db now threeDaysFromNow 0 pantries

/-! ## An explicit store state -/

/-- A state of the store: its documents with their data, and the number of ids
that `doc()` has generated so far. Server timestamps are kept as the sentinel. -/
structure Store where
  docs : List (DocPath × Fields)
  generated : Nat

/-- The data of the document `ref`, when it exists. -/
def Store.doc (s : Store) (ref : DocPath) : Option Fields :=
  s.docs.lookup ref

/-- The id under which `path` is a document of the collection `coll`. -/
def childId (coll path : DocPath) : Option String :=
  if path.dropLast = coll then path.getLast? else none

/-- The documents of the collection `coll`, with their ids. -/
def Store.children (s : Store) (coll : DocPath) : List (String × Fields) :=
  s.docs.filterMap (fun d => (childId coll d.1).map (fun id => (id, d.2)))

/-- The documents after one accepted write. `set` replaces the whole document,
`update` overwrites the given fields of an existing document, `delete` removes
the document. -/
def applyWrite (docs : List (DocPath × Fields)) : Write → List (DocPath × Fields)
  | .set ref (.obj fields) => docs.filter (fun d => !(d.1 == ref)) ++ [(ref, fields)]
  | .update ref (.obj fields) =>
    docs.map (fun d =>
      if d.1 == ref then (d.1, fields.foldl (fun acc kv => setField acc kv.1 kv.2) d.2) else d)
  | .delete ref => docs.filter (fun d => !(d.1 == ref))
  | _ => docs

/-- Whether the store accepts a write: the data is an object, and an `update`
needs its document to exist. -/
def acceptsWrite (docs : List (DocPath × Fields)) : Write → Bool
  | .set _ (.obj _) => true
  | .update ref (.obj _) => (docs.lookup ref).isSome
  | .delete _ => true
  | _ => false

/-- Whether a document satisfies a condition of a query: `==` on primitive
values, `array-contains`, and `<=`, `>=` on integers. -/
def Condition.holds (c : Condition) (data : Fields) : Bool :=
  match c.op, data.lookup c.field with
  | "==", some v => JsVal.strictEq v c.value
  | "array-contains", some (.arr items) => items.any (fun x => JsVal.strictEq x c.value)
  | "<=", some (.num a) =>
    (match c.value with
      | .num b => decide (a ≤ b)
      | _ => false)
  | ">=", some (.num a) =>
    (match c.value with
      | .num b => decide (b ≤ a)
      | _ => false)
  | _, _ => false

/-- The documents that a query finds in the state `s`, in the order of the
collection listing (the ordering that `orderBy` asks for is not modelled). -/
def Store.find (s : Store) (q : Query) : List (String × Fields) :=
  let found := (s.children q.coll).filter (fun d => q.conditions.all (fun c => c.holds d.2))
  match q.limit with
  | some n => found.take n
  | none => found

/-- The store client on the state `s`, for a generator `gen` of document ids:
reads answer from the state, a batch is accepted when each of its writes is, and
the ids generated during the request continue those generated before. -/
def Store.db (gen : Nat → String) (s : Store) : Db where
  get := fun ref => .ok (s.doc ref)
  list := fun coll => .ok (s.children coll)
  commit := fun ws =>
    if ws.all (acceptsWrite s.docs) then .ok () else .error "batch rejected"
  autoId := fun n => gen (s.generated + n)
  write := fun w => if acceptsWrite s.docs w then .ok () else .error "write rejected"
  query := fun q => .ok (s.find q)

/-- One `POST /pantry/add` on the state `s`: the response, and the state after
the writes that the store accepted. -/
def pantryAddOn (gen : Nat → String) (s : Store) (req : Request) : Response × Store :=
  let run := pantryAdd (s.db gen) req
  (run.response,
    { docs := (persistedOf (s.db gen) run.ops).foldl applyWrite s.docs,
      generated := s.generated + (stagedOf run.ops).length })

/-- The fields of the item document that `POST /pantry/add` stages for an
entry. -/
def pantryItemFields (item : JsVal) : Fields :=
  match pantryItemData item with
  | .ok (.obj fields) => fields
  | _ => []

/-! ## Text: whitespace and regular expressions -/

/-- The characters that `trim()` removes and that `\s` matches: the white space
and line terminator characters of ECMAScript. -/
def isJsSpace (c : Char) : Bool :=
  let n := c.toNat
  n == 9 || n == 10 || n == 11 || n == 12 || n == 13 || n == 32 || n == 160 || n == 5760 ||
    (8192 ≤ n && n ≤ 8202) || n == 8232 || n == 8233 || n == 8239 || n == 8287 ||
    n == 12288 || n == 65279

/-- `s.trim()` on the characters of `s`. -/
def jsTrim (s : List Char) : List Char :=
  ((s.dropWhile isJsSpace).reverse.dropWhile isJsSpace).reverse

/-- `\d`: the ten ASCII digits. -/
def isDigit (c : Char) : Bool :=
  48 ≤ c.toNat && c.toNat ≤ 57

/-- One element of a regular expression of the kind the parsers use: a
character class, a greedy repetition of a character class (`least` is 0 for `*`
and 1 for `+`), an optional character class (`?`), or the opening or closing
parenthesis of the capturing group `i`. -/
inductive Atom where
  | one (p : Char → Bool)
  | many (p : Char → Bool) (least : Nat)
  | opt (p : Char → Bool)
  | opening (i : Nat)
  | closing (i : Nat)

/-- The state of the capturing groups during a match: for each group that was
opened, the input that was left at its opening parenthesis, and for each group
that was closed, its text. -/
structure Captures where
  opened : List (Nat × List Char)
  texts : List (Nat × List Char)

/-- The text of the group `i`, the empty text when the group did not take part. -/
def Captures.group (c : Captures) (i : Nat) : List Char :=
  (c.texts.lookup i).getD []

/-- The captures after the closing parenthesis of the group `i` is passed with
`s` left of the input: the text of the group is what was consumed since its
opening parenthesis. -/
def Captures.close (c : Captures) (i : Nat) (s : List Char) : Captures :=
  match c.opened.lookup i with
  | some start => { c with texts := (i, start.take (start.length - s.length)) :: c.texts }
  | none => c

/-- A greedy repetition of the class `p`, followed by the rest of the pattern
`k`: as many characters as possible are taken first, and one character after the
other is given back as long as the rest of the pattern fails. `taken` counts
the characters taken so far. -/
def manyGo {α : Type} (p : Char → Bool) (k : List Char → Option α) (least : Nat) :
    List Char → Nat → Option α
  | [], taken => if least ≤ taken then k [] else none
  | ch :: rest, taken =>
    if p ch then
      match manyGo p k least rest (taken + 1) with
      | some r => some r
      | none => if least ≤ taken then k (ch :: rest) else none
    else if least ≤ taken then k (ch :: rest) else none

/-- Matches a pattern at the beginning of `s`, with backtracking: the input
left behind the match and the captures, or `none` when there is no match that
starts here. -/
def matchAtoms : List Atom → List Char → Captures → Option (List Char × Captures)
  | [], s, c => some (s, c)
  | .one p :: atoms, s, c =>
    match s with
    | ch :: rest => if p ch then matchAtoms atoms rest c else none
    | [] => none
  | .many p least :: atoms, s, c => manyGo p (fun rest => matchAtoms atoms rest c) least s 0
  | .opt p :: atoms, s, c =>
    match (match s with
      | ch :: rest => if p ch then matchAtoms atoms rest c else none
      | [] => none) with
    | some r => some r
    | none => matchAtoms atoms s c
  | .opening i :: atoms, s, c => matchAtoms atoms s { c with opened := (i, s) :: c.opened }
  | .closing i :: atoms, s, c => matchAtoms atoms s (c.close i s)

/-- `s.match(pattern)` for a pattern without the `g` flag: the captures of the
match that starts leftmost, or `none` (`null`) when the pattern matches nowhere. -/
def regexMatch (pattern : List Atom) : List Char → Option Captures
  | [] => (matchAtoms pattern [] ⟨[], []⟩).map Prod.snd
  | ch :: rest =>
    match matchAtoms pattern (ch :: rest) ⟨[], []⟩ with
    | some r => some r.2
    | none => regexMatch pattern rest

/-- The pattern `/([^$]+)\s*\$(\d+\.?\d*)/` of `parseReceiptItems`. -/
def pricePattern : List Atom :=
  [.opening 1, .many (fun c => c != '$') 1, .closing 1,
   .many isJsSpace 0,
   .one (fun c => c == '$'),
   .opening 2, .many isDigit 1, .opt (fun c => c == '.'), .many isDigit 0, .closing 2]

/-- The pattern `/([^(]+)\s*\(([^)]+)\)/` of `parseFoodItems`. -/
def foodPattern : List Atom :=
  [.opening 1, .many (fun c => c != '(') 1, .closing 1,
   .many isJsSpace 0,
   .one (fun c => c == '('),
   .opening 2, .many (fun c => c != ')') 1, .closing 2,
   .one (fun c => c == ')')]

/-- The lines of a text, `text.split('\n')`. -/
def linesOf (text : List Char) : List (List Char) :=
  splitGo ['\n'] 0 [] text

/-- The item that `parseReceiptItems` pushes for one line, if any. The builtin
`parseFloat` is a parameter. -/
def receiptItemOfLine (parseFloat : String → JsVal) (line : List Char) : Option JsVal :=
  match regexMatch pricePattern line with
  | some priceMatch =>
    let itemName := priceMatch.group 1
    let price := priceMatch.group 2
    some (.obj [
      ("name", .str (String.mk (jsTrim itemName))),
      ("price", parseFloat (String.mk price)),
      ("quantity", .num 1),
      ("total", parseFloat (String.mk price))])
  | none => none

/-- The helper `parseReceiptItems` of `backend/main.js`. Calling `split` on
anything but a string throws, and the `catch` returns the empty array. -/
def parseReceiptItems (parseFloat : String → JsVal) (analysis : JsVal) : JsVal :=
  match analysis with
  | .str text => .arr ((linesOf text.data).filterMap (receiptItemOfLine parseFloat))
  | _ => .arr []

/-- The item that `parseFoodItems` pushes for one line, if any. -/
def foodItemOfLine (line : List Char) : Option JsVal :=
  if line.contains '(' && line.contains ')' then
    match regexMatch foodPattern line with
    | some m =>
      some (.obj [
        ("name", .str (String.mk (jsTrim (m.group 1)))),
        ("category", .str (String.mk (jsTrim (m.group 2)))),
        ("confidence", .dec 9 1)])
    | none => none
  else none

/-- The helper `parseFoodItems` of `backend/main.js`. -/
def parseFoodItems (analysis : JsVal) : JsVal :=
  match analysis with
  | .str text => .arr ((linesOf text.data).filterMap foodItemOfLine)
  | _ => .arr []

/-! ## backend/main.js: the remaining handlers -/

/-- `typeof v === "string"`. -/
def JsVal.isString : JsVal → Bool
  | .str _ => true
  | _ => false

/-- `v.trim().length === 0` for a string `v`. -/
def JsVal.isBlank : JsVal → Bool
  | .str s => (jsTrim s.data).isEmpty
  | _ => false

/-- Optional chaining `v?.key`: `undefined` when `v` is `undefined` or `null`. -/
def JsVal.optProp (v : JsVal) (key : String) : JsVal :=
  match v.prop key with
  | .ok x => x
  | .error _ => .undefined

/-- Body of the 400 of `POST /user/profile` for a bad display name. -/
def displayNameRequired : JsVal :=
  .obj [("success", .bool false),
    ("message", .str "Display name is required and must be a non-empty string")]

/-- Body of the 400 of `POST /user/profile` for bad dietary restrictions. -/
def dietaryMustBeArray : JsVal :=
  .obj [("success", .bool false), ("message", .str "Dietary restrictions must be an array")]

/-- Body of the 500 of `POST /user/profile`: it carries `error.message`. -/
def profileFailed (message : String) : JsVal :=
  .obj [("success", .bool false), ("message", .str "Failed to manage user profile"),
    ("error", .str message)]

/-- Handler of `POST /user/profile`. `nowIso` is the text of `new Date()` in the
response. -/
def userProfilePost (db : Db) (nowIso : String) (req : Request) : HandlerResult :=
  match req.user.prop "uid", req.user.prop "email" with
  | .ok userId, .ok userEmail =>
    match req.body.prop "displayName", req.body.prop "preferences" with
    | .ok displayName, .ok preferences =>
      if !displayName.truthy || !displayName.isString || displayName.isBlank then
        ⟨⟨400, displayNameRequired⟩, []⟩
      else if (preferences.optProp "dietaryRestrictions").truthy &&
          !(preferences.optProp "dietaryRestrictions").isArray then
        ⟨⟨400, dietaryMustBeArray⟩, []⟩
      else
        match docRef ["users"] userId with
        | .error e => ⟨⟨500, profileFailed e⟩, []⟩
        | .ok userRef =>
          match db.get userRef with
          | .error e => ⟨⟨500, profileFailed e⟩, [.get userRef]⟩
          | .ok userDoc =>
            let w : Write :=
              if userDoc.isSome then
                .update userRef (.obj [("displayName", displayName),
                  ("preferences", preferences), ("updatedAt", .serverTimestamp)])
              else
                .set userRef (.obj [("displayName", displayName), ("email", userEmail),
                  ("preferences", preferences), ("createdAt", .serverTimestamp),
                  ("updatedAt", .serverTimestamp)])
            match db.write w with
            | .error e => ⟨⟨500, profileFailed e⟩, [.get userRef, .write w]⟩
            | .ok _ =>
              ⟨⟨200, .obj [("success", .bool true),
                ("message", .str (if userDoc.isSome then "Profile updated successfully"
                  else "Profile created successfully")),
                ("data", .obj [("displayName", displayName), ("email", userEmail),
                  ("preferences", preferences), ("updatedAt", .str nowIso)])]⟩,
                [.get userRef, .write w]⟩
    | .error e, _ => ⟨⟨500, profileFailed e⟩, []⟩
    | _, .error e => ⟨⟨500, profileFailed e⟩, []⟩
  | .error e, _ => ⟨⟨500, profileFailed e⟩, []⟩
  | _, .error e => ⟨⟨500, profileFailed e⟩, []⟩

/-- A handler that looks one document up by a path parameter and answers with
its data: `GET /user/profile/:userId` and `GET /recipe/:recipeId`. -/
def getDocument (db : Db) (coll : String) (param : String) (required missing failed : String)
    (req : Request) : HandlerResult :=
  let id := req.param param
  if !id.truthy then ⟨⟨400, .obj [("error", .str required)]⟩, []⟩
  else
    match docRef [coll] id with
    | .error _ => ⟨⟨500, .obj [("error", .str failed)]⟩, []⟩
    | .ok ref =>
      match db.get ref with
      | .error _ => ⟨⟨500, .obj [("error", .str failed)]⟩, [.get ref]⟩
      | .ok none => ⟨⟨404, .obj [("error", .str missing)]⟩, [.get ref]⟩
      | .ok (some data) => ⟨⟨200, .obj data⟩, [.get ref]⟩

/-- Handler of `GET /user/profile/:userId`. -/
def userProfileGet (db : Db) (req : Request) : HandlerResult :=
  getDocument db "users" "userId" "User ID is required" "User not found"
    "Failed to fetch user profile" req

/-- Handler of `GET /recipe/:recipeId`. -/
def recipeGet (db : Db) (req : Request) : HandlerResult :=
  getDocument db "recipes" "recipeId" "Recipe ID is required" "Recipe not found"
    "Failed to fetch recipe details" req

/-- A handler that lists the documents of a user, newest first:
`GET /shopping-lists/:userId`, `GET /meal-plans/:userId` and
`GET /recipes/:userId`. -/
def listOwned (db : Db) (coll : String) (key : String) (failed : String) (req : Request) :
    HandlerResult :=
  let userId := req.param "userId"
  if !userId.truthy then ⟨⟨400, .obj [("error", .str "User ID is required")]⟩, []⟩
  else
    let q : Query := ⟨[coll], [⟨"userId", "==", userId⟩], some ("createdAt", "desc"), none⟩
    match db.query q with
    | .error _ => ⟨⟨500, .obj [("error", .str failed)]⟩, [.query q]⟩
    | .ok docs =>
      ⟨⟨200, .obj [(key, .arr (docs.map (fun d => withId d.1 d.2)))]⟩, [.query q]⟩

/-- Handler of `GET /shopping-lists/:userId`. -/
def shoppingListsGet (db : Db) (req : Request) : HandlerResult :=
  listOwned db "shopping-lists" "lists" "Failed to fetch shopping lists" req

/-- Handler of `GET /meal-plans/:userId`. -/
def mealPlansGet (db : Db) (req : Request) : HandlerResult :=
  listOwned db "meal-plans" "plans" "Failed to fetch meal plans" req

/-- Handler of `GET /recipes/:userId`. -/
def recipesGet (db : Db) (req : Request) : HandlerResult :=
  listOwned db "recipes" "recipes" "Failed to fetch recipes" req

/-- Handler of `GET /meal-plan/:planId`. -/
def mealPlanGet (db : Db) (req : Request) : HandlerResult :=
  let planId := req.param "planId"
  if !planId.truthy then ⟨⟨400, .obj [("error", .str "Plan ID is required")]⟩, []⟩
  else
    let failed : Response := ⟨500, .obj [("error", .str "Failed to fetch meal plan details")]⟩
    match docRef ["meal-plans"] planId with
    | .error _ => ⟨failed, []⟩
    | .ok planRef =>
      match db.get planRef with
      | .error _ => ⟨failed, [.get planRef]⟩
      | .ok none => ⟨⟨404, .obj [("error", .str "Meal plan not found")]⟩, [.get planRef]⟩
      | .ok (some planData) =>
        let q : Query := ⟨planRef ++ ["meals"], [], some ("date", "asc"), none⟩
        match db.query q with
        | .error _ => ⟨failed, [.get planRef, .query q]⟩
        | .ok docs =>
          ⟨⟨200, .obj [("plan", .obj planData),
                      ("meals", .arr (docs.map (fun d => withId d.1 d.2)))]⟩,
            [.get planRef, .query q]⟩

/-- Handler of `POST /shopping-list/:listId/add`. -/
def shoppingListAdd (db : Db) (req : Request) : HandlerResult :=
  let failed : Response := ⟨500, .obj [("error", .str "Failed to add items to shopping list")]⟩
  let listId := req.param "listId"
  match req.body.prop "items" with
  | .error _ => ⟨failed, []⟩
  | .ok items =>
    if !listId.truthy || !items.truthy || !items.isArray then
      ⟨⟨400, .obj [("error", .str "List ID and items array are required")]⟩, []⟩
    else
      match docRef ["shopping-lists"] listId with
      | .error _ => ⟨failed, []⟩
      | .ok listRef =>
        match db.get listRef with
        | .error _ => ⟨failed, [.get listRef]⟩
        | .ok none =>
          ⟨⟨404, .obj [("error", .str "Shopping list not found")]⟩, [.get listRef]⟩
        | .ok (some _) =>
          let loop := stageChildren db (listRef ++ ["items"]) listItemData 0 items.elems
          match loop.2 with
          | some _ => ⟨failed, .get listRef :: loop.1.map StoreOp.batch⟩
          | none =>
            let batch := loop.1 ++ [Write.update listRef (.obj [("updatedAt", .serverTimestamp)])]
            match db.commit batch with
            | .error _ =>
              ⟨failed, .get listRef :: (batch.map StoreOp.batch ++ [.batchCommit batch])⟩
            | .ok _ =>
              ⟨⟨200, .obj [("success", .bool true),
                ("message", .str "Items added to shopping list")]⟩,
                .get listRef :: (batch.map StoreOp.batch ++ [.batchCommit batch])⟩

/-- The reference
`db.collection("shopping-lists").doc(listId).collection("items").doc(itemId)`. -/
def listItemRef (listId itemId : JsVal) : Except String DocPath := do
  let listRef ← docRef ["shopping-lists"] listId
  docRef (listRef ++ ["items"]) itemId

/-- Handler of `PUT /shopping-list/:listId/item/:itemId`. -/
def shoppingListItemPut (db : Db) (req : Request) : HandlerResult :=
  let listId := req.param "listId"
  let itemId := req.param "itemId"
  let updates := req.body
  if !listId.truthy || !itemId.truthy then
    ⟨⟨400, .obj [("error", .str "List ID and item ID are required")]⟩, []⟩
  else
    let failed : Response := ⟨500, .obj [("error", .str "Failed to update shopping list item")]⟩
    match listItemRef listId itemId with
    | .error _ => ⟨failed, []⟩
    | .ok itemRef =>
      match db.get itemRef with
      | .error _ => ⟨failed, [.get itemRef]⟩
      | .ok none => ⟨⟨404, .obj [("error", .str "Item not found")]⟩, [.get itemRef]⟩
      | .ok (some _) =>
        match updates.assign "updatedAt" .serverTimestamp with
        | .error _ => ⟨failed, [.get itemRef]⟩
        | .ok stamped =>
          match db.write (.update itemRef stamped) with
          | .error _ => ⟨failed, [.get itemRef, .write (.update itemRef stamped)]⟩
          | .ok _ =>
            ⟨⟨200, .obj [("success", .bool true), ("message", .str "Item updated")]⟩,
              [.get itemRef, .write (.update itemRef stamped)]⟩

/-- The recipe document that `POST /recipe/save` writes; every read of the
recipe may throw. -/
def recipeData (userId recipe : JsVal) : Except String JsVal := do
  let name ← recipe.prop "name"
  let description ← recipe.prop "description"
  let ingredients ← recipe.prop "ingredients"
  let instructions ← recipe.prop "instructions"
  let prepTime ← recipe.prop "prepTime"
  let cookTime ← recipe.prop "cookTime"
  let servings ← recipe.prop "servings"
  let nutrition ← recipe.prop "nutrition"
  let image ← recipe.prop "image"
  let source ← recipe.prop "source"
  let tags ← recipe.prop "tags"
  let isFavorite ← recipe.prop "isFavorite"
  pure (.obj [
    ("userId", userId),
    ("name", name),
    ("description", description.or (.str "")),
    ("ingredients", ingredients.or (.arr [])),
    ("instructions", instructions.or (.arr [])),
    ("prepTime", prepTime.or .null),
    ("cookTime", cookTime.or .null),
    ("servings", servings.or .null),
    ("nutrition", nutrition.or (.obj [])),
    ("image", image.or .null),
    ("source", source.or .null),
    ("tags", tags.or (.arr [])),
    ("isFavorite", isFavorite.or (.bool false)),
    ("createdAt", .serverTimestamp),
    ("updatedAt", .serverTimestamp)])

/-- Handler of `POST /recipe/save`. -/
def recipeSave (db : Db) (req : Request) : HandlerResult :=
  let failed : Response := ⟨500, .obj [("error", .str "Failed to save recipe")]⟩
  match req.body.prop "userId", req.body.prop "recipe" with
  | .ok userId, .ok recipe =>
    if !userId.truthy || !recipe.truthy || !(recipe.optProp "name").truthy then
      ⟨⟨400, .obj [("error", .str "User ID and recipe details are required")]⟩, []⟩
    else
      match recipeData userId recipe with
      | .error _ => ⟨failed, []⟩
      | .ok data =>
        let w := Write.set ["recipes", db.autoId 0] data
        match db.write w with
        | .error _ => ⟨failed, [.write w]⟩
        | .ok _ =>
          ⟨⟨200, .obj [("success", .bool true), ("message", .str "Recipe saved"),
            ("recipeId", .str (db.autoId 0))]⟩, [.write w]⟩
  | _, _ => ⟨failed, []⟩

/-! ## backend/main.js: search, food database and mock routes -/

/-- The method call `v.toLowerCase()`: only a string has the method.
`toLowerCase` is the lower-casing of the platform. -/
def callToLowerCase (toLowerCase : String → String) : JsVal → Except String JsVal
  | .str s => .ok (.str (toLowerCase s))
  | .undefined => .error (JsVal.typeError "toLowerCase")
  | .null => .error (JsVal.typeError "toLowerCase")
  | _ => .error "toLowerCase is not a function"

/-- The values that `for (const x of v)` visits: the elements of an array, the
characters of a string; any other value that the handlers can hold is not
iterable and the loop throws. -/
def iterate : JsVal → Except String (List JsVal)
  | .arr items => .ok items
  | .str s => .ok (s.data.map (fun c => .str (String.mk [c])))
  | _ => .error "value is not iterable"

/-- The query
`db.collection("recipes").where("tags", "array-contains", keyword).limit(5)`. -/
def tagQuery (keyword : JsVal) : Query :=
  ⟨["recipes"], [⟨"tags", "array-contains", keyword⟩], none, some 5⟩

/-- The search loop of `POST /recipes/search`: one query per keyword, after
`prepare` has been applied to it; the results are collected in order. The loop
ends at the first thing thrown. -/
def searchRecipes (db : Db) (prepare : JsVal → Except String JsVal) :
    List JsVal → List StoreOp × Except String (List JsVal)
  | [] => ([], .ok [])
  | keyword :: rest =>
    match prepare keyword with
    | .error e => ([], .error e)
    | .ok k =>
      match db.query (tagQuery k) with
      | .error e => ([.query (tagQuery k)], .error e)
      | .ok docs =>
        let more := searchRecipes db prepare rest
        (.query (tagQuery k) :: more.1,
          more.2.map (fun found => docs.map (fun d => withId d.1 d.2) ++ found))

/-- The request that `POST /recipes/search` sends to the language model. -/
def recipeSearchRequest (query : JsVal) : JsVal :=
  .obj [
    ("messages", .arr [
      .obj [("role", .str "system"),
        ("content", .str "You are a recipe search assistant. Extract key ingredients and dish types from the user's query. Output ONLY a JSON array of keywords, nothing else.")],
      .obj [("role", .str "user"), ("content", query)]]),
    ("model", .str "gpt-3.5-turbo"),
    ("response_format", .obj [("type", .str "json_object")])]

/-- The inner `try` of `POST /recipes/search`:
`JSON.parse(completion.choices[0].message.content).keywords`, and `[query]` when
anything in that expression throws. `jsonParse` is `JSON.parse`. -/
def extractKeywords (jsonParse : JsVal → Except String JsVal) (completion query : JsVal) :
    JsVal :=
  match (completionContent completion).bind jsonParse with
  | .error _ => .arr [query]
  | .ok parsed =>
    match parsed.prop "keywords" with
    | .error _ => .arr [query]
    | .ok keywords => keywords

/-- Handler of `POST /recipes/search`. -/
def recipesSearch (openai : Option OpenAI) (jsonParse : JsVal → Except String JsVal)
    (toLowerCase : String → String) (db : Db) (req : Request) : HandlerResult :=
  let failed : Response := ⟨500, .obj [("error", .str "Failed to search recipes")]⟩
  match req.body.prop "query" with
  | .error _ => ⟨failed, []⟩
  | .ok query =>
    if !query.truthy then ⟨⟨400, .obj [("error", .str "Search query is required")]⟩, []⟩
    else
      match openai with
      | none =>
        match callToLowerCase toLowerCase query with
        | .ok (.str lowered) =>
          let keywords := (jsSplit lowered " ").map JsVal.str
          let found := searchRecipes db .ok keywords
          match found.2 with
          | .error _ => ⟨failed, found.1⟩
          | .ok results => ⟨⟨200, .obj [("results", .arr results)]⟩, found.1⟩
        | _ => ⟨failed, []⟩
      | some client =>
        match client (recipeSearchRequest query) with
        | .error _ => ⟨failed, []⟩
        | .ok completion =>
          match iterate (extractKeywords jsonParse completion query) with
          | .error _ => ⟨failed, []⟩
          | .ok keywords =>
            let found := searchRecipes db (callToLowerCase toLowerCase) keywords
            match found.2 with
            | .error _ => ⟨failed, found.1⟩
            | .ok results => ⟨⟨200, .obj [("results", .arr results)]⟩, found.1⟩

/-- The function `searchFoodInEdamam`: `edamam` is the request
`axios.get(EDAMAM_BASE_URL, ...)` for a query; whatever goes wrong is thrown
again as one fixed error. -/
def searchFoodInEdamam (edamam : JsVal → Except String JsVal) (query : JsVal) :
    Except String JsVal :=
  match (edamam query).bind (fun response => response.prop "data") with
  | .ok data => .ok data
  | .error _ => .error "Failed to search food information"

/-- Handler of `GET /food/search`. `urlQuery` is `req.query`, the parsed query
string of the request. -/
def foodSearch (edamam : JsVal → Except String JsVal) (urlQuery : JsVal) (_req : Request) :
    HandlerResult :=
  let failed : Response := ⟨500, .obj [("error", .str "Failed to search food database")]⟩
  match urlQuery.prop "query" with
  | .error _ => ⟨failed, []⟩
  | .ok query =>
    if !query.truthy then ⟨⟨400, .obj [("error", .str "Search query is required")]⟩, []⟩
    else
      match searchFoodInEdamam edamam query with
      | .error _ => ⟨failed, []⟩
      | .ok results => ⟨⟨200, results⟩, []⟩

/-- Handler of `GET /food/nutrition/:foodId`. -/
def foodNutrition (req : Request) : HandlerResult :=
  let foodId := req.param "foodId"
  if !foodId.truthy then ⟨⟨400, .obj [("error", .str "Food ID is required")]⟩, []⟩
  else ⟨⟨200, .obj []⟩, []⟩

/-- Handler of `POST /receipt/process`; `nowIso` is `new Date().toISOString()`. -/
def receiptProcess (nowIso : String) (req : Request) : HandlerResult :=
  match req.body.prop "userId", req.body.prop "imageUrl" with
  | .ok userId, .ok imageUrl =>
    if !userId.truthy || !imageUrl.truthy then
      ⟨⟨400, .obj [("error", .str "User ID and image URL are required")]⟩, []⟩
    else
      ⟨⟨200, .obj [
        ("success", .bool true),
        ("store", .str "Grocery Store"),
        ("date", .str nowIso),
        ("items", .arr [
          .obj [("name", .str "Milk"), ("price", .dec 399 2), ("quantity", .num 1)],
          .obj [("name", .str "Eggs"), ("price", .dec 249 2), ("quantity", .num 1)],
          .obj [("name", .str "Bread"), ("price", .dec 199 2), ("quantity", .num 1)]]),
        ("total", .dec 847 2)]⟩, []⟩
  | _, _ => ⟨⟨500, .obj [("error", .str "Failed to process receipt")]⟩, []⟩

/-- Handler of `POST /barcode/process`. -/
def barcodeProcess (req : Request) : HandlerResult :=
  match req.body.prop "barcode" with
  | .error _ => ⟨⟨500, .obj [("error", .str "Failed to process barcode")]⟩, []⟩
  | .ok barcode =>
    if !barcode.truthy then ⟨⟨400, .obj [("error", .str "Barcode is required")]⟩, []⟩
    else
      ⟨⟨200, .obj [
        ("success", .bool true),
        ("product", .obj [
          ("name", .str "Sample Product"),
          ("brand", .str "Sample Brand"),
          ("nutrition", .obj [("calories", .num 100), ("protein", .num 5), ("fat", .num 2),
            ("carbs", .num 15)]),
          ("alternatives", .arr [
            .obj [("name", .str "Healthier Alternative"), ("price", .dec 499 2)],
            .obj [("name", .str "Cheaper Alternative"), ("price", .dec 299 2)]])])]⟩, []⟩

/-! ## functions/index.js: the batched-writer routes

The second route set registers its handlers without any middleware. -/

namespace FunctionsIndex

/-- The loop `for (const item of items)` of `POST /pantry/add` in
`functions/index.js`; `n` counts the ids generated so far. -/
def stageItems (db : Db) (pantryRef : DocPath) : Nat → List JsVal → List Write × Option String
  | _, [] => ([], none)
  | n, item :: rest =>
    match item.prop "name", item.prop "quantity", item.prop "unit", item.prop "category",
      item.prop "expiryDate", item.prop "purchaseDate", item.prop "customImage",
      item.prop "isCustom" with
    | .ok name, .ok quantity, .ok unit, .ok category, .ok expiryDate, .ok purchaseDate,
      .ok customImage, .ok isCustom =>
      if !name.truthy then stageItems db pantryRef n rest
      else
        let more := stageItems db pantryRef (n + 1) rest
        (Write.set (pantryRef ++ ["items", db.autoId n]) (.obj [
          ("name", name),
          ("quantity", quantity.or (.num 1)),
          ("unit", unit.or (.str "item")),
          ("category", category.or (.str "uncategorized")),
          ("expiryDate", expiryDate.or .null),
          ("purchaseDate", purchaseDate.or .serverTimestamp),
          ("customImage", customImage.or .null),
          ("isCustom", isCustom.or (.bool false)),
          ("createdAt", .serverTimestamp),
          ("updatedAt", .serverTimestamp)]) :: more.1, more.2)
    | _, _, _, _, _, _, _, _ => ([], some (JsVal.typeError "name"))

/-- Handler of `POST /pantry/add` in `functions/index.js`. -/
def pantryAdd (db : Db) (req : Request) : HandlerResult :=
  let failed : Response := ⟨500, .obj [("error", .str "Failed to add items to pantry")]⟩
  match req.body.prop "userId", req.body.prop "items" with
  | .ok userId, .ok items =>
    if !userId.truthy || !items.truthy || !items.isArray then
      ⟨⟨400, .obj [("error", .str "User ID and items array are required")]⟩, []⟩
    else
      match docRef ["pantries"] userId with
      | .error _ => ⟨failed, []⟩
      | .ok pantryRef =>
        match db.get pantryRef with
        | .error _ => ⟨failed, [.get pantryRef]⟩
        | .ok pantryDoc =>
          let first : List Write :=
            if pantryDoc.isSome then []
            else [.set pantryRef (.obj [("userId", userId), ("createdAt", .serverTimestamp)])]
          let loop := stageItems db pantryRef 0 items.elems
          let batch := first ++ loop.1
          let staged := StoreOp.get pantryRef :: batch.map StoreOp.batch
          match loop.2 with
          | some _ => ⟨failed, staged⟩
          | none =>
            match db.commit batch with
            | .error _ => ⟨failed, staged ++ [.batchCommit batch]⟩
            | .ok _ =>
              ⟨⟨200, .obj [("success", .bool true), ("message", .str "Items added to pantry")]⟩,
                staged ++ [.batchCommit batch]⟩
  | _, _ => ⟨failed, []⟩

/-- The loop `for (const item of items)` of `POST /shopping-list/create` in
`functions/index.js`. -/
def stageListItems (db : Db) (listRef : DocPath) : Nat → List JsVal → List Write × Option String
  | _, [] => ([], none)
  | n, item :: rest =>
    match item.prop "name", item.prop "quantity", item.prop "unit", item.prop "category",
      item.prop "isChecked" with
    | .ok name, .ok quantity, .ok unit, .ok category, .ok isChecked =>
      if !name.truthy then stageListItems db listRef n rest
      else
        let more := stageListItems db listRef (n + 1) rest
        (Write.set (listRef ++ ["items", db.autoId n]) (.obj [
          ("name", name),
          ("quantity", quantity.or (.num 1)),
          ("unit", unit.or (.str "item")),
          ("category", category.or (.str "uncategorized")),
          ("isChecked", isChecked.or (.bool false)),
          ("createdAt", .serverTimestamp),
          ("updatedAt", .serverTimestamp)]) :: more.1, more.2)
    | _, _, _, _, _ => ([], some (JsVal.typeError "name"))

/-- Handler of `POST /shopping-list/create` in `functions/index.js`. -/
def shoppingListCreate (db : Db) (req : Request) : HandlerResult :=
  let failed : Response := ⟨500, .obj [("error", .str "Failed to create shopping list")]⟩
  match req.body.prop "userId", req.body.prop "name", req.body.prop "items" with
  | .ok userId, .ok name, .ok items =>
    if !userId.truthy then ⟨⟨400, .obj [("error", .str "User ID is required")]⟩, []⟩
    else
      let listId := db.autoId 0
      let container := Write.set ["shopping-lists", listId] (.obj [
        ("userId", userId),
        ("name", name.or (.str "Shopping List")),
        ("createdAt", .serverTimestamp),
        ("updatedAt", .serverTimestamp)])
      let ok : Response := ⟨200, .obj [("success", .bool true),
        ("message", .str "Shopping list created"), ("listId", .str listId)]⟩
      match db.write container with
      | .error _ => ⟨failed, [.write container]⟩
      | .ok _ =>
        match items with
        | .arr (first :: more) =>
          let loop := stageListItems db ["shopping-lists", listId] 1 (first :: more)
          let staged := StoreOp.write container :: loop.1.map StoreOp.batch
          match loop.2 with
          | some _ => ⟨failed, staged⟩
          | none =>
            match db.commit loop.1 with
            | .error _ => ⟨failed, staged ++ [.batchCommit loop.1]⟩
            | .ok _ => ⟨ok, staged ++ [.batchCommit loop.1]⟩
        | _ => ⟨ok, [.write container]⟩
  | _, _, _ => ⟨failed, []⟩

/-- The loop `for (const meal of meals)` of `POST /meal-plan/create` in
`functions/index.js`. -/
def stageMeals (db : Db) (mealPlanRef : DocPath) : Nat → List JsVal → List Write × Option String
  | _, [] => ([], none)
  | n, meal :: rest =>
    match meal.prop "date", meal.prop "type", meal.prop "recipeId", meal.prop "recipeName",
      meal.prop "notes" with
    | .ok date, .ok type, .ok recipeId, .ok recipeName, .ok notes =>
      if !date.truthy || !type.truthy then stageMeals db mealPlanRef n rest
      else
        let more := stageMeals db mealPlanRef (n + 1) rest
        (Write.set (mealPlanRef ++ ["meals", db.autoId n]) (.obj [
          ("date", date),
          ("type", type),
          ("recipeId", recipeId.or .null),
          ("recipeName", recipeName.or .null),
          ("notes", notes.or .null),
          ("createdAt", .serverTimestamp),
          ("updatedAt", .serverTimestamp)]) :: more.1, more.2)
    | _, _, _, _, _ => ([], some (JsVal.typeError "date"))

/-- Handler of `POST /meal-plan/create` in `functions/index.js`. -/
def mealPlanCreate (db : Db) (req : Request) : HandlerResult :=
  let failed : Response := ⟨500, .obj [("error", .str "Failed to create meal plan")]⟩
  match req.body.prop "userId", req.body.prop "name", req.body.prop "startDate",
    req.body.prop "endDate", req.body.prop "meals" with
  | .ok userId, .ok name, .ok startDate, .ok endDate, .ok meals =>
    if !userId.truthy || !startDate.truthy then
      ⟨⟨400, .obj [("error", .str "User ID and start date are required")]⟩, []⟩
    else
      let mealPlanId := db.autoId 0
      let container := Write.set ["meal-plans", mealPlanId] (.obj [
        ("userId", userId),
        ("name", name.or (.str "Meal Plan")),
        ("startDate", startDate),
        ("endDate", endDate.or .null),
        ("createdAt", .serverTimestamp),
        ("updatedAt", .serverTimestamp)])
      let ok : Response := ⟨200, .obj [("success", .bool true),
        ("message", .str "Meal plan created"), ("mealPlanId", .str mealPlanId)]⟩
      match db.write container with
      | .error _ => ⟨failed, [.write container]⟩
      | .ok _ =>
        match meals with
        | .arr (first :: more) =>
          let loop := stageMeals db ["meal-plans", mealPlanId] 1 (first :: more)
          let staged := StoreOp.write container :: loop.1.map StoreOp.batch
          match loop.2 with
          | some _ => ⟨failed, staged⟩
          | none =>
            match db.commit loop.1 with
            | .error _ => ⟨failed, staged ++ [.batchCommit loop.1]⟩
            | .ok _ => ⟨ok, staged ++ [.batchCommit loop.1]⟩
        | _ => ⟨ok, [.write container]⟩
  | _, _, _, _, _ => ⟨failed, []⟩

end FunctionsIndex

/-! ## backend/main.js: the Express application -/

/-- The routes of `backend/main.js`, in the order of their declaration. -/
inductive Route where
  | health
  | userProfilePost
  | userProfileGet
  | pantryAdd
  | pantryGet
  | pantryItemPut
  | pantryItemDelete
  | shoppingListCreate
  | shoppingListsGet
  | shoppingListGet
  | shoppingListAdd
  | shoppingListItemPut
  | mealPlanCreate
  | mealPlansGet
  | mealPlanGet
  | recipeSave
  | recipesGet
  | recipeGet
  | aiChefQuery
  | recipesSearch
  | foodSearch
  | foodNutrition
  | receiptProcess
  | barcodeProcess
  | micronutritionAnalyze
  | foodRecognize
  | receiptScan
  deriving DecidableEq, Repr

/-- One segment of a route pattern: a literal or a named parameter `:name`. -/
inductive Seg where
  | lit (s : String)
  | par (name : String)

/-- The middleware a route declares before its handler. -/
inductive RouteGuard where
  | unguarded
  | authorize
  | authenticate
  deriving DecidableEq, Repr

/-- A route declaration `app.METHOD(pattern, guard, handler)`. -/
structure RouteDecl where
  method : Method
  pattern : List Seg
  guard : RouteGuard
  route : Route

/-- The route table of `backend/main.js`, in source order. -/
def routes : List RouteDecl := [
  ⟨.GET, [.lit "health"], .unguarded, .health⟩,
  ⟨.POST, [.lit "user", .lit "profile"], .authorize, .userProfilePost⟩,
  ⟨.GET, [.lit "user", .lit "profile", .par "userId"], .authorize, .userProfileGet⟩,
  ⟨.POST, [.lit "pantry", .lit "add"], .authorize, .pantryAdd⟩,
  ⟨.GET, [.lit "pantry", .par "userId"], .authorize, .pantryGet⟩,
  ⟨.PUT, [.lit "pantry", .lit "item", .par "userId", .par "itemId"], .authorize, .pantryItemPut⟩,
  ⟨.DELETE, [.lit "pantry", .lit "item", .par "userId", .par "itemId"], .authorize,
    .pantryItemDelete⟩,
  ⟨.POST, [.lit "shopping-list", .lit "create"], .authorize, .shoppingListCreate⟩,
  ⟨.GET, [.lit "shopping-lists", .par "userId"], .authorize, .shoppingListsGet⟩,
  ⟨.GET, [.lit "shopping-list", .par "listId"], .authorize, .shoppingListGet⟩,
  ⟨.POST, [.lit "shopping-list", .par "listId", .lit "add"], .authorize, .shoppingListAdd⟩,
  ⟨.PUT, [.lit "shopping-list", .par "listId", .lit "item", .par "itemId"], .authorize,
    .shoppingListItemPut⟩,
  ⟨.POST, [.lit "meal-plan", .lit "create"], .authorize, .mealPlanCreate⟩,
  ⟨.GET, [.lit "meal-plans", .par "userId"], .authorize, .mealPlansGet⟩,
  ⟨.GET, [.lit "meal-plan", .par "planId"], .authorize, .mealPlanGet⟩,
  ⟨.POST, [.lit "recipe", .lit "save"], .authorize, .recipeSave⟩,
  ⟨.GET, [.lit "recipes", .par "userId"], .authorize, .recipesGet⟩,
  ⟨.GET, [.lit "recipe", .par "recipeId"], .authorize, .recipeGet⟩,
  ⟨.POST, [.lit "ai-chef", .lit "query"], .authorize, .aiChefQuery⟩,
  ⟨.POST, [.lit "recipes", .lit "search"], .authorize, .recipesSearch⟩,
  ⟨.GET, [.lit "food", .lit "search"], .authorize, .foodSearch⟩,
  ⟨.GET, [.lit "food", .lit "nutrition", .par "foodId"], .authorize, .foodNutrition⟩,
  ⟨.POST, [.lit "receipt", .lit "process"], .authorize, .receiptProcess⟩,
  ⟨.POST, [.lit "barcode", .lit "process"], .authorize, .barcodeProcess⟩,
  ⟨.POST, [.lit "micronutrition", .lit "analyze"], .authorize, .micronutritionAnalyze⟩,
  ⟨.POST, [.lit "food", .lit "recognize"], .authorize, .foodRecognize⟩,
  ⟨.POST, [.lit "receipt", .lit "scan"], .authenticate, .receiptScan⟩]

/-- ASCII lower-casing; Express matches literal path segments without regard
to case. -/
def lower (s : String) : String :=
  String.mk (s.data.map Char.toLower)

/-- The segments of a request path: the pieces between the slashes, without the
empty piece before the leading slash and without an empty piece after a
trailing slash (Express routes match with or without it). -/
def pathSegments (path : String) : List String :=
  let pieces := (jsSplit path "/").drop 1
  if pieces.getLast? = some "" then pieces.dropLast else pieces

/-- Matches path segments against a route pattern and collects `req.params`. A
parameter matches exactly one non-empty segment. -/
def matchSegs : List Seg → List String → Option (List (String × String))
  | [], [] => some []
  | .lit s :: pat, seg :: segs =>
    if lower seg == s then matchSegs pat segs else none
  | .par name :: pat, seg :: segs =>
    if seg == "" then none
    else (matchSegs pat segs).map (fun ps => (name, seg) :: ps)
  | _, _ => none

/-- The first declared route that matches method and path, with its params. -/
def matchRoute (method : Method) (path : String) :
    Option (RouteDecl × List (String × String)) :=
  routes.findSome? (fun decl =>
    if decl.method = method then
      (matchSegs decl.pattern (pathSegments path)).map (fun ps => (decl, ps))
    else none)

/-- A stage of the processing of one request that was entered, with the
request context it was entered with. -/
inductive Step where
  | authenticate (req : Request)
  | authorize (req : Request)
  | handler (route : Route) (req : Request)

/-- The processing of one request by the application. -/
structure AppRun where
  response : Response
  steps : List Step
  verified : List JsVal
  ops : List StoreOp

/-- The answer of Express when no route matches. -/
def notFound (req : Request) : Response :=
  ⟨404, .str ("Cannot " ++ req.method.name ++ " " ++ req.path)⟩

/-- The gate installed with `app.use` before every route: the liveness path is
passed on, every other request goes through `authenticateUser`. The second
component tells whether `authenticateUser` was invoked. -/
def authGate (verifyIdToken : Verifier) (req : Request) : MwResult × Bool :=
  if req.path == "/health" then
    ({ req := req, response := none, nextCalls := 1, verified := [] }, false)
  else
    (authenticateUser verifyIdToken req, true)

/-- The stack of one matched route: its guard, then its handler. -/
def runRoute (verifyIdToken : Verifier) (handlers : Route → Request → HandlerResult)
    (decl : RouteDecl) (req : Request) : AppRun :=
  let run (r : Request) : AppRun :=
    let h := handlers decl.route r
    ⟨h.response, [.handler decl.route r], [], h.ops⟩
  match decl.guard with
  | .unguarded => run req
  | .authorize =>
    let a := authorizeUser req
    match a.response with
    | some resp => ⟨resp, [.authorize req], [], []⟩
    | none =>
      let rest := run a.req
      ⟨rest.response, .authorize req :: rest.steps, [], rest.ops⟩
  | .authenticate =>
    let a := authenticateUser verifyIdToken req
    match a.response with
    | some resp => ⟨resp, [.authenticate req], a.verified, []⟩
    | none =>
      let rest := run a.req
      ⟨rest.response, .authenticate req :: rest.steps, a.verified, rest.ops⟩

/-- The application `app` of `backend/main.js` from the gate on: the gate, then
the first matching route. The request is the one that `cors` and
`express.json()` have passed on, with its body parsed. `handlers` gives the body
of every route handler. -/
def app (verifyIdToken : Verifier) (handlers : Route → Request → HandlerResult)
    (req : Request) : AppRun :=
  let gate := authGate verifyIdToken req
  let gateSteps : List Step := if gate.2 then [.authenticate req] else []
  match gate.1.response with
  | some resp => ⟨resp, gateSteps, gate.1.verified, []⟩
  | none =>
    match matchRoute req.method req.path with
    | none => ⟨notFound req, gateSteps, gate.1.verified, []⟩
    | some (decl, params) =>
      let rest := runRoute verifyIdToken handlers decl { gate.1.req with params := params }
      ⟨rest.response, gateSteps ++ rest.steps, gate.1.verified ++ rest.verified, rest.ops⟩

/-- The handler bodies of `backend/main.js`: the ones embedded above, and
`others` for the remaining routes. -/
def mainHandlers (db : Db) (others : Route → Request → HandlerResult) :
    Route → Request → HandlerResult
  | .health => health
  | .pantryAdd => pantryAdd db
  | .pantryGet => pantryGet db
  | .pantryItemPut => pantryItemPut db
  | .pantryItemDelete => pantryItemDelete db
  | .shoppingListCreate => shoppingListCreate db
  | .shoppingListGet => shoppingListGet db
  | .mealPlanCreate => mealPlanCreate db
  | r => others r

/-- The handler bodies of `backend/main.js` with the routes that use the
language model: `openai` is the client, if configured, and the two parsing
helpers are parameters. -/
def aiHandlers (openai : Option OpenAI) (parseFoodItems parseReceiptItems : JsVal → JsVal)
    (db : Db) (others : Route → Request → HandlerResult) : Route → Request → HandlerResult
  | .aiChefQuery => aiChefQuery openai db
  | .micronutritionAnalyze => micronutritionAnalyze openai
  | .foodRecognize => foodRecognize openai parseFoodItems db
  | .receiptScan => receiptScan openai parseReceiptItems db
  | r => mainHandlers db others r

/-! ## backend/main.js: all handlers -/

/-- What the handlers of `backend/main.js` reach outside the process: the store,
the language-model client (`none` when no API key is configured), the food
database, and the platform functions `JSON.parse`, `toLowerCase`, `parseFloat`
and the clock. -/
structure Services where
  db : Db
  openai : Option OpenAI
  edamam : JsVal → Except String JsVal
  jsonParse : JsVal → Except String JsVal
  toLowerCase : String → String
  parseFloat : String → JsVal
  nowIso : String

/-- The handler that `backend/main.js` registers for each route. `urlQuery` is
`req.query`. -/
def handlers (s : Services) (urlQuery : JsVal) : Route → Request → HandlerResult
  | .health => health
  | .userProfilePost => userProfilePost s.db s.nowIso
  | .userProfileGet => userProfileGet s.db
  | .pantryAdd => pantryAdd s.db
  | .pantryGet => pantryGet s.db
  | .pantryItemPut => pantryItemPut s.db
  | .pantryItemDelete => pantryItemDelete s.db
  | .shoppingListCreate => shoppingListCreate s.db
  | .shoppingListsGet => shoppingListsGet s.db
  | .shoppingListGet => shoppingListGet s.db
  | .shoppingListAdd => shoppingListAdd s.db
  | .shoppingListItemPut => shoppingListItemPut s.db
  | .mealPlanCreate => mealPlanCreate s.db
  | .mealPlansGet => mealPlansGet s.db
  | .mealPlanGet => mealPlanGet s.db
  | .recipeSave => recipeSave s.db
  | .recipesGet => recipesGet s.db
  | .recipeGet => recipeGet s.db
  | .aiChefQuery => aiChefQuery s.openai s.db
  | .recipesSearch => recipesSearch s.openai s.jsonParse s.toLowerCase s.db
  | .foodSearch => foodSearch s.edamam urlQuery
  | .foodNutrition => foodNutrition
  | .receiptProcess => receiptProcess s.nowIso
  | .barcodeProcess => barcodeProcess
  | .micronutritionAnalyze => micronutritionAnalyze s.openai
  | .foodRecognize => foodRecognize s.openai parseFoodItems s.db
  | .receiptScan => receiptScan s.openai (parseReceiptItems s.parseFloat) s.db

/-- The text in the `catch` block of each route of `backend/main.js`; `GET
/health` has no such block. -/
def failureText : Route → Option String
  | .health => none
  | .userProfilePost => some "Failed to manage user profile"
  | .userProfileGet => some "Failed to fetch user profile"
  | .pantryAdd => some "Failed to add items to pantry"
  | .pantryGet => some "Failed to fetch pantry items"
  | .pantryItemPut => some "Failed to update pantry item"
  | .pantryItemDelete => some "Failed to delete pantry item"
  | .shoppingListCreate => some "Failed to create shopping list"
  | .shoppingListsGet => some "Failed to fetch shopping lists"
  | .shoppingListGet => some "Failed to fetch shopping list items"
  | .shoppingListAdd => some "Failed to add items to shopping list"
  | .shoppingListItemPut => some "Failed to update shopping list item"
  | .mealPlanCreate => some "Failed to create meal plan"
  | .mealPlansGet => some "Failed to fetch meal plans"
  | .mealPlanGet => some "Failed to fetch meal plan details"
  | .recipeSave => some "Failed to save recipe"
  | .recipesGet => some "Failed to fetch recipes"
  | .recipeGet => some "Failed to fetch recipe details"
  | .aiChefQuery => some "Failed to process query"
  | .recipesSearch => some "Failed to search recipes"
  | .foodSearch => some "Failed to search food database"
  | .foodNutrition => some "Failed to fetch nutrition information"
  | .receiptProcess => some "Failed to process receipt"
  | .barcodeProcess => some "Failed to process barcode"
  | .micronutritionAnalyze => some "Failed to analyze micronutrition"
  | .foodRecognize => some "Failed to recognize food items"
  | .receiptScan => some "Failed to scan receipt"

/-! ## Predicates and inputs used in the statements -/

/-- A provider that rejects every token. -/
def rejectAll : Verifier := fun _ => .error "auth/argument-error"

/-- A request of the principal `u1` whose body names the subject `0`. -/
def falsyIdRequest : Request :=
  ⟨.POST, "/recipe/save", some "Bearer tok1", [], .obj [("userId", .num 0)],
    .obj [("uid", .str "u1")]⟩

/-- A provider that knows the token `a` of the principal `u1` and nothing else. -/
def onlyTokenA : Verifier := fun t =>
  match t with
  | .str "a" => .ok (.obj [("uid", .str "u1")])
  | _ => .error "auth/argument-error"

/-- A request whose header is "Bearer " followed by the token `aBearer b`. -/
def nestedBearerRequest : Request :=
  ⟨.GET, "/pantry/u1", some "Bearer aBearer b", [], .obj [], .undefined⟩

/-- A request to which no principal has been attached. -/
def noPrincipalRequest : Request :=
  ⟨.GET, "/pantry/u1", none, [("userId", "u1")], .obj [], .undefined⟩

/-- A provider that knows the token `tok1` of the principal `u1` and nothing
else. -/
def tokenOfU1 : Verifier := fun t =>
  match t with
  | .str "tok1" => .ok (.obj [("uid", .str "u1"), ("email", .str "u1@example.com")])
  | _ => .error "auth/argument-error"

/-- A store that holds the shopping list `L2` of the user `u2` with one item,
and nothing else. -/
def storeOfU2 : Db where
  get := fun ref =>
    if ref = ["shopping-lists", "L2"] then
      .ok (some [("userId", .str "u2"), ("name", .str "Groceries")])
    else .ok none
  list := fun coll =>
    if coll = ["shopping-lists", "L2", "items"] then .ok [("i1", [("name", .str "Milk")])]
    else .ok []
  commit := fun _ => .ok ()
  autoId := fun n => String.mk (List.replicate (n + 1) 'x')
  write := fun _ => .ok ()
  query := fun _ => .ok []

/-- The principal `u1` asks for the shopping list `L2`. -/
def foreignListRequest : Request :=
  ⟨.GET, "/shopping-list/L2", some "Bearer tok1", [], .obj [], .undefined⟩

/-- An entry of the `items` array has a name when its `name` property is
truthy: it is there and is not `null`, `false`, `0` or the empty string. -/
def hasName (item : JsVal) : Bool :=
  match item.prop "name" with
  | .ok name => name.truthy
  | .error _ => false

/-- A stand-in for the handlers that a statement leaves open. -/
def otherHandlers : Route → Request → HandlerResult :=
  fun _ _ => ⟨⟨501, .undefined⟩, []⟩

/-- An empty store that accepts every commit. -/
def emptyStore : Db where
  get := fun _ => .ok none
  list := fun _ => .ok []
  commit := fun _ => .ok ()
  autoId := fun n => String.mk (List.replicate (n + 1) 'x')
  write := fun _ => .ok ()
  query := fun _ => .ok []

/-- A `POST /pantry/add` of the principal `u1` with the given body. -/
def pantryAddRequest (body : JsVal) : Request :=
  ⟨.POST, "/pantry/add", some "Bearer tok1", [], body, .undefined⟩

/-- A store that accepts single writes and rejects every batch. -/
def batchRejectingStore : Db where
  get := fun _ => .ok none
  list := fun _ => .ok []
  commit := fun _ => .error "DEADLINE_EXCEEDED"
  autoId := fun n => String.mk (List.replicate (n + 1) 'x')
  write := fun _ => .ok ()
  query := fun _ => .ok []

/-- A request of the principal `u1` with the given method, path and body. -/
def requestOfU1 (method : Method) (path : String) (body : JsVal) : Request :=
  ⟨method, path, some "Bearer tok1", [], body, .undefined⟩

/-- A store that holds the shopping list `L1` of `u1` with the item `i1`, and
no pantry. -/
def storeWithListItem : Db where
  get := fun ref =>
    if ref = ["shopping-lists", "L1", "items", "i1"] then
      .ok (some [("name", .str "Milk"), ("quantity", .num 2), ("isChecked", .bool false),
        ("updatedAt", .serverTimestamp)])
    else .ok none
  list := fun _ => .ok []
  commit := fun _ => .ok ()
  autoId := fun n => String.mk (List.replicate (n + 1) 'x')
  write := fun _ => .ok ()
  query := fun _ => .ok []

/-- One day in milliseconds. -/
def oneDayMs : Int := 24 * 60 * 60 * 1000

/-- A store with the pantry of `u1`, which holds one item that expires one day
after the time `0`. -/
def storeWithExpiringItem : Db where
  get := fun _ => .ok none
  list := fun coll =>
    if coll = ["pantries"] then .ok [("u1", [("userId", .str "u1")])]
    else if coll = ["pantries", "u1", "items"] then
      .ok [("i1", [("name", .str "Milk"), ("expiryDate", .num oneDayMs)])]
    else .ok []
  commit := fun _ => .ok ()
  autoId := fun n => String.mk (List.replicate (n + 1) 'x')
  write := fun _ => .ok ()
  query := fun _ => .ok []

/-- The item records that one `POST /pantry/add` with the entries `items`
creates when `k` ids have been generated before: one per entry, under the next
ids of the generator. -/
def newItemRecords (gen : Nat → String) : Nat → List JsVal → List (String × Fields)
  | _, [] => []
  | k, item :: rest => (gen k, pantryItemFields item) :: newItemRecords gen (k + 1) rest

/-- The document of the items collection of `u` that holds a record. -/
def itemDoc (u : String) (record : String × Fields) : DocPath × Fields :=
  (["pantries", u, "items", record.1], record.2)

/-- The generator of the example stores: `x`, `xx`, `xxx`, ... -/
def xs (n : Nat) : String := String.mk (List.replicate (n + 1) 'x')

/-- A store state that holds the pantry of `u1` and nothing else. -/
def pantryOfU1 : Store :=
  ⟨[(["pantries", "u1"], [("userId", .str "u1"), ("createdAt", .serverTimestamp)])], 0⟩

/-- A store that cannot be reached: every operation fails. -/
def unreachableStore : Db where
  get := fun _ => .error "UNAVAILABLE"
  list := fun _ => .error "UNAVAILABLE"
  commit := fun _ => .error "UNAVAILABLE"
  autoId := fun n => String.mk (List.replicate (n + 1) 'x')
  write := fun _ => .error "UNAVAILABLE"
  query := fun _ => .error "UNAVAILABLE"

/-- The value of a run of decimal digits. -/
def digitsValue (digits : List Char) : Nat :=
  digits.foldl (fun n c => 10 * n + (c.toNat - 48)) 0

/-- An example of `parseFloat` on the numerals that the price pattern captures:
digits, optionally followed by a point and more digits. -/
def decimalOf (s : String) : JsVal :=
  let whole := s.data.takeWhile isDigit
  match s.data.dropWhile isDigit with
  | '.' :: rest =>
    let fraction := rest.takeWhile isDigit
    if fraction.isEmpty then .num (digitsValue whole)
    else .dec (digitsValue (whole ++ fraction)) fraction.length
  | _ => .num (digitsValue whole)

/-- An example of `JSON.parse` that knows three texts: an array of two
keywords, the empty object, and an object that holds a `keywords` array. -/
def parseReply : JsVal → Except String JsVal
  | .str "[\"chicken\", \"rice\"]" => .ok (.arr [.str "chicken", .str "rice"])
  | .str "\x7b\x7d" => .ok (.obj [])
  | .str "\x7b\"keywords\": [\"chicken\"]\x7d" => .ok (.obj [("keywords", .arr [.str "chicken"])])
  | _ => .error "Unexpected token in JSON"

/-- A language model that answers every request with the given text. -/
def replyWith (content : String) : OpenAI := fun _ =>
  .ok (.obj [("choices", .arr [.obj [("message",
    .obj [("role", .str "assistant"), ("content", .str content)])]])])

/-- The services around the store `db` and the language-model client `openai`,
with a food database that cannot be reached, the example parsers and ASCII
lower-casing. -/
def servicesOn (db : Db) (openai : Option OpenAI) : Services :=
  ⟨db, openai, fun _ => .error "Network Error", parseReply, lower, decimalOf,
    "2026-01-01T00:00:00.000Z"⟩

/-- A request that `authenticateUser` and `authorizeUser` have passed on for the
principal `u1`, with the given method, path and body. -/
def passedRequestOfU1 (method : Method) (path : String) (body : JsVal) : Request :=
  ⟨method, path, some "Bearer tok1", [], body,
    .obj [("uid", .str "u1"), ("email", .str "u1@example.com")]⟩

/-- The numeral at the start of a text: the leading digits and, when a point
follows them, the point and the digits behind it. It is what `\d+\.?\d*` matches
at the start of a text that begins with a digit. -/
def numeralOf (t : List Char) : List Char :=
  match t.dropWhile isDigit with
  | '.' :: rest => t.takeWhile isDigit ++ '.' :: rest.takeWhile isDigit
  | _ => t.takeWhile isDigit

/-- The text behind the numeral at the start of a text. -/
def afterNumeral (t : List Char) : List Char :=
  match t.dropWhile isDigit with
  | '.' :: rest => rest.dropWhile isDigit
  | rest => rest

/-- The split `pre ++ name ++ "$" ++ after` of a line at its first priced dollar
sign: `name` is the whole text between that dollar sign and the dollar sign
before it (or the start of the line), it is not empty, a digit follows the
dollar sign, and no dollar sign further left comes after a character other than
a dollar sign and before a digit. It is the split at the leftmost match of
`/([^$]+)\s*\$(\d+\.?\d*)/`, with the first group taken as long as possible. -/
def firstPriced (pre name after : List Char) : Prop :=
  name ≠ [] ∧ (∀ c ∈ name, c ≠ '$') ∧ after.takeWhile isDigit ≠ [] ∧
  (pre = [] ∨ pre.getLast? = some '$') ∧
  (∀ a x b, pre ++ name = a ++ x :: '$' :: b → x ≠ '$' → b.takeWhile isDigit = [])

/-- A write to a document of a top-level collection (a path of two segments)
belongs to `uid` when it sets a document whose `userId` is strictly equal to
`uid`. -/
def ownedBy (uid : JsVal) (w : Write) : Prop :=
  w.ref.length = 2 →
    ∃ data owner, w = .set w.ref data ∧ data.prop "userId" = .ok owner ∧
      JsVal.strictEq uid owner = true

/-- The body of a `POST /recipe/save` of the recipe `Soup` for the user `u1`. -/
def soupOfU1 : JsVal :=
  .obj [("userId", .str "u1"), ("recipe", .obj [("name", .str "Soup")])]

/-- The write that saves the recipe `Soup` of `u1` under the first generated
id of the example stores. -/
def savedSoup : Write :=
  .set ["recipes", "x"] (.obj [
    ("userId", .str "u1"),
    ("name", .str "Soup"),
    ("description", .str ""),
    ("ingredients", .arr []),
    ("instructions", .arr []),
    ("prepTime", .null),
    ("cookTime", .null),
    ("servings", .null),
    ("nutrition", .obj []),
    ("image", .null),
    ("source", .null),
    ("tags", .arr []),
    ("isFavorite", .bool false),
    ("createdAt", .serverTimestamp),
    ("updatedAt", .serverTimestamp)])

/-- A `POST /pantry/add` of `u1` whose only entry supplies the quantity `0` and
the empty unit. -/
def zeroQuantityRequest : Request :=
  passedRequestOfU1 .POST "/pantry/add"
    (.obj [("userId", .str "u1"),
      ("items", .arr [.obj [("name", .str "Milk"), ("quantity", .num 0), ("unit", .str "")]])])

/-- The item write that the example stores stage for the entry of
`zeroQuantityRequest`. -/
def zeroQuantityWrite : Write :=
  .set ["pantries", "u1", "items", "x"] (.obj [
    ("name", .str "Milk"),
    ("quantity", .num 1),
    ("unit", .str "item"),
    ("category", .str "uncategorized"),
    ("expiryDate", .null),
    ("purchaseDate", .serverTimestamp),
    ("customImage", .null),
    ("isCustom", .bool false),
    ("createdAt", .serverTimestamp),
    ("updatedAt", .serverTimestamp)])

/-! ## Lemmas -/

/-- Dropping the rest of a separator occurrence: after `pre.length` skipped
characters the scan goes on behind `pre`. -/
theorem splitGo_skip (sep : List Char) (pre rest cur : List Char) :
    splitGo sep pre.length cur (pre ++ rest) = splitGo sep 0 cur rest := by
  induction pre with
  | nil => rfl
  | cons p ps ih =>
    show splitGo sep (ps.length + 1) cur (p :: (ps ++ rest)) = _
    rw [splitGo]
    exact ih

/-- A text without an occurrence of the separator is one piece. -/
theorem splitGo_no_occurrence (sep : List Char) (rest : List Char) :
    ∀ cur, (∀ pre suf, rest = pre ++ suf → sep.isPrefixOf suf = false) →
      splitGo sep 0 cur rest = [cur.reverse ++ rest] := by
  induction rest with
  | nil => intro cur _; simp [splitGo]
  | cons c rest ih =>
    intro cur h
    have h0 : sep.isPrefixOf (c :: rest) = false := h [] (c :: rest) rfl
    rw [splitGo]
    simp only [h0, Bool.false_eq_true, if_false]
    rw [ih (c :: cur) (fun pre suf hs => h (c :: pre) suf (by rw [hs]; rfl))]
    simp

/-- For a header "Bearer " followed by a token in which "Bearer " does not
occur, `authHeader.split("Bearer ")[1]` is that token. -/
theorem idTokenOf_bearer (t : String)
    (h : ∀ pre suf, t.data = pre ++ suf → ("Bearer ".data).isPrefixOf suf = false) :
    idTokenOf ("Bearer " ++ t) = .str t := by
  have hsplit : splitGo "Bearer ".data 0 [] ("Bearer ".data ++ t.data) = [[], t.data] := by
    show splitGo "Bearer ".data 0 [] ('B' :: (['e', 'a', 'r', 'e', 'r', ' '] ++ t.data)) = _
    rw [splitGo]
    have hp : ("Bearer ".data).isPrefixOf ('B' :: (['e', 'a', 'r', 'e', 'r', ' '] ++ t.data))
        = true := by
      show ("Bearer ".data).isPrefixOf ("Bearer ".data ++ t.data) = true
      exact List.isPrefixOf_iff_prefix.2 (List.prefix_append _ _)
    simp only [hp, if_true]
    have hk := splitGo_skip "Bearer ".data ['e', 'a', 'r', 'e', 'r', ' '] t.data []
    have hlen : ("Bearer ".data).length - 1 = ['e', 'a', 'r', 'e', 'r', ' '].length := by decide
    rw [hlen, hk, splitGo_no_occurrence _ _ [] h]
    rfl
  unfold idTokenOf jsSplit
  rw [String.data_append, hsplit]
  rfl

/-- A split always yields at least one piece. -/
theorem splitGo_ne_nil (sep : List Char) (rest : List Char) :
    ∀ skip cur, splitGo sep skip cur rest ≠ [] := by
  induction rest with
  | nil => intro skip cur; simp [splitGo]
  | cons c rest ih =>
    intro skip cur
    cases skip with
    | zero =>
      rw [splitGo]
      split
      · simp
      · exact ih 0 (c :: cur)
    | succ k =>
      rw [splitGo]
      exact ih k cur

/-- For a header that starts with "Bearer ", `authHeader.split("Bearer ")[1]`
is a string: the provider is never handed `undefined`. -/
theorem idTokenOf_defined (hd : String) (h : startsWith hd "Bearer " = true) :
    ∃ t, idTokenOf hd = .str t := by
  obtain ⟨rest, hrest⟩ := List.isPrefixOf_iff_prefix.1 h
  have hsplit : ∃ piece pieces, splitGo "Bearer ".data 0 [] hd.data = [] :: piece :: pieces := by
    rw [← hrest]
    show ∃ piece pieces,
      splitGo "Bearer ".data 0 [] ('B' :: (['e', 'a', 'r', 'e', 'r', ' '] ++ rest)) = _
    rw [splitGo]
    have hp : ("Bearer ".data).isPrefixOf ('B' :: (['e', 'a', 'r', 'e', 'r', ' '] ++ rest))
        = true := by
      show ("Bearer ".data).isPrefixOf ("Bearer ".data ++ rest) = true
      exact List.isPrefixOf_iff_prefix.2 (List.prefix_append _ _)
    simp only [hp, if_true]
    have hne := splitGo_ne_nil "Bearer ".data (['e', 'a', 'r', 'e', 'r', ' '] ++ rest)
      (("Bearer ".data).length - 1) []
    cases hs : splitGo "Bearer ".data (("Bearer ".data).length - 1) []
        (['e', 'a', 'r', 'e', 'r', ' '] ++ rest) with
    | nil => exact absurd hs hne
    | cons piece pieces => exact ⟨piece, pieces, rfl⟩
  obtain ⟨piece, pieces, hs⟩ := hsplit
  unfold idTokenOf jsSplit
  rw [hs]
  exact ⟨String.mk piece, rfl⟩

/-- The unsuccessful outcomes of `authenticateUser` share this shape. -/
theorem authenticateUser_cases (verifyIdToken : Verifier) (req : Request) :
    (∃ body, authenticateUser verifyIdToken req =
        { req := req, response := some ⟨401, body⟩, nextCalls := 0, verified := [] } ∧
        body.prop "success" = .ok (.bool false) ∧
        (req.authorization = none ∨
          ∃ hd, req.authorization = some hd ∧ (hd = "" ∨ startsWith hd "Bearer " = false))) ∨
    (∃ hd e, req.authorization = some hd ∧ startsWith hd "Bearer " = true ∧
        verifyIdToken (idTokenOf hd) = .error e ∧
        authenticateUser verifyIdToken req =
          { req := req, response := some ⟨401, invalidTokenBody⟩, nextCalls := 0,
            verified := [idTokenOf hd] }) ∨
    (∃ hd d, req.authorization = some hd ∧ startsWith hd "Bearer " = true ∧
        verifyIdToken (idTokenOf hd) = .ok d ∧
        authenticateUser verifyIdToken req =
          { req := { req with user := d }, response := none, nextCalls := 1,
            verified := [idTokenOf hd] }) := by
  unfold authenticateUser
  cases hauth : req.authorization with
  | none => exact Or.inl ⟨noTokenBody, rfl, rfl, Or.inl rfl⟩
  | some hd =>
    by_cases hbad : (hd == "" || !startsWith hd "Bearer ") = true
    · refine Or.inl ⟨noTokenBody, ?_, rfl, Or.inr ⟨hd, rfl, ?_⟩⟩
      · simp only [hbad, if_true]
      · simpa using hbad
    · have hst : startsWith hd "Bearer " = true := by
        simp at hbad; exact hbad.2
      simp only [hbad]
      cases hv : verifyIdToken (idTokenOf hd) with
      | error e => exact Or.inr (Or.inl ⟨hd, e, rfl, hst, hv, by simp⟩)
      | ok d => exact Or.inr (Or.inr ⟨hd, d, rfl, hst, hv, by simp⟩)

/-- The request context that `authorizeUser` leaves behind is the one it got. -/
theorem authorizeUser_req (req : Request) : (authorizeUser req).req = req := by
  unfold authorizeUser
  split
  · rfl
  · split
    · rfl
    · split
      · rfl
      · split <;> rfl

/-- The outcomes of `authorizeUser`: it either passes the request on unchanged
or answers 403. -/
theorem authorizeUser_cases (req : Request) :
    authorizeUser req = { req := req, response := none, nextCalls := 1, verified := [] } ∨
    ∃ body, authorizeUser req =
      { req := req, response := some ⟨403, body⟩, nextCalls := 0, verified := [] } := by
  unfold authorizeUser
  split
  · exact Or.inr ⟨_, rfl⟩
  · split
    · exact Or.inr ⟨_, rfl⟩
    · split
      · exact Or.inl rfl
      · split
        · exact Or.inr ⟨_, rfl⟩
        · exact Or.inl rfl

/-- Strict equality with a string holds exactly for that string. -/
theorem strictEq_str (u : String) (v : JsVal) :
    JsVal.strictEq (.str u) v = true ↔ v = .str u := by
  cases v <;> simp [JsVal.strictEq]
  exact eq_comm

/-- On a path other than the liveness path the gate is `authenticateUser`. -/
theorem authGate_other (verifyIdToken : Verifier) (req : Request) (h : req.path ≠ "/health") :
    authGate verifyIdToken req = (authenticateUser verifyIdToken req, true) := by
  unfold authGate
  have : (req.path == "/health") = false := by simpa using h
  simp [this]

/-- On the liveness path the gate passes the request on untouched. -/
theorem authGate_health (verifyIdToken : Verifier) (req : Request) (h : req.path = "/health") :
    authGate verifyIdToken req =
      ({ req := req, response := none, nextCalls := 1, verified := [] }, false) := by
  unfold authGate
  simp [h]

/-- The stages a route stack enters: its guard on the request it was given,
then its handler on the same request, or on that request with the principal
which a route-level `authenticateUser` attached. -/
theorem runRoute_steps (verifyIdToken : Verifier) (handlers : Route → Request → HandlerResult)
    (decl : RouteDecl) (r : Request) (step : Step)
    (h : step ∈ (runRoute verifyIdToken handlers decl r).steps) :
    step = .authorize r ∨ step = .authenticate r ∨
    step = .handler decl.route r ∨
    ∃ hd d, r.authorization = some hd ∧ verifyIdToken (idTokenOf hd) = .ok d ∧
      step = .handler decl.route { r with user := d } := by
  unfold runRoute at h
  cases hg : decl.guard with
  | unguarded =>
    simp only [hg, List.mem_singleton] at h
    exact Or.inr (Or.inr (Or.inl h))
  | authorize =>
    simp only [hg] at h
    rcases authorizeUser_cases r with hr | ⟨body, hr⟩
    · simp only [hr, List.mem_cons, List.mem_singleton, List.not_mem_nil, or_false] at h
      rcases h with h | h
      · exact Or.inl h
      · exact Or.inr (Or.inr (Or.inl h))
    · simp only [hr, List.mem_singleton] at h
      exact Or.inl h
  | authenticate =>
    simp only [hg] at h
    rcases authenticateUser_cases verifyIdToken r with
      ⟨body, hr, _, _⟩ | ⟨hd, e, hauth, hst, hv, hr⟩ | ⟨hd, d, hauth, hst, hv, hr⟩
    · simp only [hr, List.mem_singleton] at h
      exact Or.inr (Or.inl h)
    · simp only [hr, List.mem_singleton] at h
      exact Or.inr (Or.inl h)
    · simp only [hr, List.mem_cons, List.mem_singleton, List.not_mem_nil, or_false] at h
      rcases h with h | h
      · exact Or.inr (Or.inl h)
      · exact Or.inr (Or.inr (Or.inr ⟨hd, d, hauth, hv, h⟩))

/-- Off the liveness path, `authenticateUser` is the first stage entered. -/
theorem app_first_stage (verifyIdToken : Verifier)
    (handlers : Route → Request → HandlerResult) (req : Request)
    (hpath : req.path ≠ "/health") :
    ∃ rest, (app verifyIdToken handlers req).steps = .authenticate req :: rest := by
  unfold app
  rw [authGate_other verifyIdToken req hpath]
  rcases authenticateUser_cases verifyIdToken req with
    ⟨body, hr, _, _⟩ | ⟨hd, e, hauth, hst, hv, hr⟩ | ⟨hd, d, hauth, hst, hv, hr⟩
  · simp [hr]
  · simp [hr]
  · simp only [hr]
    cases hm : matchRoute req.method req.path with
    | none => simp
    | some found => simp

/-- A property read that succeeds for one key succeeds for every key. -/
theorem prop_ok_of_prop_ok (v : JsVal) (k k2 : String) (a : JsVal)
    (h : v.prop k = .ok a) : ∃ b, v.prop k2 = .ok b := by
  cases v <;> simp [JsVal.prop] at h ⊢

/-- `POST /pantry/add` on a body that fails the validation. -/
theorem pantryAdd_invalid (db : Db) (req : Request) (userId items : JsVal)
    (hu : req.body.prop "userId" = .ok userId) (hi : req.body.prop "items" = .ok items)
    (hbad : userId.truthy = false ∨ items.truthy = false ∨ items.isArray = false) :
    pantryAdd db req = ⟨⟨400, pantryAddBadRequest⟩, []⟩ := by
  unfold pantryAdd
  simp only [hu, hi]
  rcases hbad with h | h | h <;> simp [h]

/-- `POST /pantry/add` on a body that passes the validation with a string
`userId`, once the pantry lookup has answered. -/
theorem pantryAdd_valid (db : Db) (req : Request) (uid : String) (items : List JsVal)
    (snap : Option Fields)
    (hu : req.body.prop "userId" = .ok (.str uid)) (hne : uid ≠ "")
    (hi : req.body.prop "items" = .ok (.arr items))
    (hget : db.get ["pantries", uid] = .ok snap) :
    pantryAdd db req =
      pantryCommit db ["pantries", uid]
        (pantryBatch db ["pantries", uid] (.str uid) snap items) := by
  unfold pantryAdd
  have hd : docRef ["pantries"] (.str uid) = .ok ["pantries", uid] := by
    simp [docRef, hne]
  simp only [hu, hi, hd, hget, JsVal.truthy, JsVal.isArray, JsVal.elems]
  simp [hne]

/-- Every write the loop stages sets a document of the `items` subcollection. -/
theorem stagePantryItems_refs (db : Db) (ref : DocPath) (items : List JsVal) :
    ∀ n, ∀ w ∈ (stagePantryItems db ref n items).1,
      ∃ k data, w = .set (ref ++ ["items", db.autoId k]) data := by
  induction items with
  | nil => intro n w hw; simp [stagePantryItems] at hw
  | cons item rest ih =>
    intro n w hw
    unfold stagePantryItems at hw
    cases hname : item.prop "name" with
    | error e => simp [hname] at hw
    | ok name =>
      simp only [hname] at hw
      by_cases ht : name.truthy = true
      · simp only [ht, Bool.not_true, Bool.false_eq_true, if_false] at hw
        cases hdata : pantryItemData item with
        | error e => simp [hdata] at hw
        | ok data =>
          simp only [hdata, List.mem_cons] at hw
          rcases hw with hw | hw
          · exact ⟨n, data, hw⟩
          · exact ih (n + 1) w hw
      · have hf : name.truthy = false := by simpa using ht
        simp only [hf, Bool.not_false, if_true] at hw
        exact ih n w hw

/-- An item document can be built from every entry that is not `null` or
`undefined`. -/
theorem pantryItemData_ok (item : JsVal) (h : item ≠ .null ∧ item ≠ .undefined) :
    ∃ data, pantryItemData item = .ok data := by
  cases item <;> first | exact absurd rfl h.1 | exact absurd rfl h.2 | exact ⟨_, rfl⟩

/-- The loop runs to its end when no entry is `null` or `undefined`. -/
theorem stagePantryItems_completes (db : Db) (ref : DocPath) (items : List JsVal)
    (h : ∀ e ∈ items, e ≠ .null ∧ e ≠ .undefined) :
    ∀ n, (stagePantryItems db ref n items).2 = none := by
  induction items with
  | nil => intro n; rfl
  | cons item rest ih =>
    intro n
    have hrest : ∀ e ∈ rest, e ≠ .null ∧ e ≠ .undefined :=
      fun e he => h e (List.mem_cons_of_mem _ he)
    have hitem := h item (List.mem_cons_self _ _)
    obtain ⟨data, hdata⟩ := pantryItemData_ok item hitem
    unfold stagePantryItems
    cases hname : item.prop "name" with
    | error e =>
      exfalso
      cases item <;> simp [JsVal.prop] at hname
      · exact hitem.2 rfl
      · exact hitem.1 rfl
    | ok name =>
      simp only [hdata]
      by_cases ht : name.truthy = true
      · simp [ht, ih hrest (n + 1)]
      · have hf : name.truthy = false := by simpa using ht
        simp [hf, ih hrest n]

/-- Staging operations are not commits. -/
theorem commitsOf_batch_append (ws : List Write) (rest : List StoreOp) :
    commitsOf (ws.map StoreOp.batch ++ rest) = commitsOf rest := by
  induction ws with
  | nil => rfl
  | cons w ws ih => simpa [commitsOf] using ih

/-- The staged writes of a run of staging operations. -/
theorem stagedOf_batch_append (ws : List Write) (rest : List StoreOp) :
    stagedOf (ws.map StoreOp.batch ++ rest) = ws ++ stagedOf rest := by
  induction ws with
  | nil => rfl
  | cons w ws ih => simpa [stagedOf] using ih

/-- The only batch that the end of `POST /pantry/add` commits is the one built. -/
theorem pantryCommit_commits (db : Db) (ref : DocPath) (batch : List Write × Option String)
    (ws : List Write) (h : StoreOp.batchCommit ws ∈ (pantryCommit db ref batch).ops) :
    ws = batch.1 := by
  unfold pantryCommit at h
  cases hb : batch.2 with
  | some e =>
    simp only [hb, List.mem_cons, List.mem_map] at h
    rcases h with h | ⟨w, _, h⟩ <;> cases h
  | none =>
    simp only [hb] at h
    cases hc : db.commit batch.1 with
    | error e =>
      simp only [hc, List.mem_cons, List.mem_append, List.mem_map, List.not_mem_nil,
        or_false] at h
      rcases h with h | ⟨w, _, h⟩ | h
      · cases h
      · cases h
      · exact StoreOp.batchCommit.inj h
    | ok u =>
      simp only [hc, List.mem_cons, List.mem_append, List.mem_map, List.not_mem_nil,
        or_false] at h
      rcases h with h | ⟨w, _, h⟩ | h
      · cases h
      · cases h
      · exact StoreOp.batchCommit.inj h

/-- When the loop ran to its end, exactly the batch built is committed, and
everything in it was staged before. -/
theorem pantryCommit_complete (db : Db) (ref : DocPath) (batch : List Write × Option String)
    (h : batch.2 = none) :
    commitsOf (pantryCommit db ref batch).ops = [batch.1] ∧
    stagedOf (pantryCommit db ref batch).ops = batch.1 ∧
    (db.commit batch.1 = .ok () → (pantryCommit db ref batch).response = ⟨200, pantryAddOk⟩) := by
  unfold pantryCommit
  simp only [h]
  cases hc : db.commit batch.1 with
  | error e =>
    refine ⟨?_, ?_, fun h => by cases h⟩
    · simp [commitsOf, commitsOf_batch_append]
    · simp [stagedOf, stagedOf_batch_append]
  | ok u =>
    refine ⟨?_, ?_, fun _ => rfl⟩
    · simp [commitsOf, commitsOf_batch_append]
    · simp [stagedOf, stagedOf_batch_append]

/-- The loop stages one write per entry that has a name, in the order of the
array, under the ids that `doc()` generates one after the other. -/
theorem stagePantryItems_named (db : Db) (ref : DocPath) (items : List JsVal)
    (h : ∀ e ∈ items, e ≠ .null ∧ e ≠ .undefined) :
    ∀ n,
      List.Forall₂
        (fun e w => ∃ id data, pantryItemData e = .ok data ∧
          w = Write.set (ref ++ ["items", id]) data)
        (items.filter hasName) (stagePantryItems db ref n items).1 ∧
      (stagePantryItems db ref n items).1.map Write.ref =
        (List.range (stagePantryItems db ref n items).1.length).map
          (fun i => ref ++ ["items", db.autoId (n + i)]) := by
  induction items with
  | nil => intro n; simp [stagePantryItems]
  | cons item rest ih =>
    intro n
    have hrest : ∀ e ∈ rest, e ≠ .null ∧ e ≠ .undefined :=
      fun e he => h e (List.mem_cons_of_mem _ he)
    have hitem := h item (List.mem_cons_self _ _)
    obtain ⟨data, hdata⟩ := pantryItemData_ok item hitem
    cases hname : item.prop "name" with
    | error e =>
      exfalso
      cases item <;> simp [JsVal.prop] at hname
      · exact hitem.2 rfl
      · exact hitem.1 rfl
    | ok name =>
      by_cases ht : name.truthy = true
      · have hn : hasName item = true := by simp [hasName, hname, ht]
        have hs : stagePantryItems db ref n (item :: rest) =
            (Write.set (ref ++ ["items", db.autoId n]) data ::
              (stagePantryItems db ref (n + 1) rest).1,
              (stagePantryItems db ref (n + 1) rest).2) := by
          rw [stagePantryItems]
          simp [hname, ht, hdata]
        rw [hs, List.filter_cons_of_pos hn]
        obtain ⟨ih1, ih2⟩ := ih hrest (n + 1)
        refine ⟨List.Forall₂.cons ⟨db.autoId n, data, hdata, rfl⟩ ih1, ?_⟩
        simp only [List.map_cons, List.length_cons, Write.ref, List.range_succ_eq_map,
          Nat.add_zero, List.map_map]
        rw [ih2]
        congr 1
        apply List.map_congr_left
        intro i _
        simp only [Function.comp]
        have : n + 1 + i = n + Nat.succ i := by omega
        rw [this]
      · have hf : name.truthy = false := by simpa using ht
        have hn : ¬ hasName item = true := by simp [hasName, hname, hf]
        have hs : stagePantryItems db ref n (item :: rest) =
            stagePantryItems db ref n rest := by
          rw [stagePantryItems]
          simp [hname, hf]
        rw [hs, List.filter_cons_of_neg hn]
        exact ih hrest n

/-- The route that `POST /pantry/add` is dispatched to. -/
theorem matchRoute_pantryAdd :
    matchRoute .POST "/pantry/add" =
      some (⟨.POST, [.lit "pantry", .lit "add"], .authorize, .pantryAdd⟩, []) := rfl

/-- A `POST /pantry/add` whose handler is entered: the handler runs on the body
of the request, after `authorizeUser` has passed it on, and its response and
store operations are those of the application. -/
theorem app_pantryAdd (verifyIdToken : Verifier) (db : Db)
    (others : Route → Request → HandlerResult) (req r : Request)
    (hm : req.method = .POST) (hp : req.path = "/pantry/add")
    (hstep : Step.handler .pantryAdd r ∈
      (app verifyIdToken (mainHandlers db others) req).steps) :
    r.body = req.body ∧
    (app verifyIdToken (mainHandlers db others) req).response = (pantryAdd db r).response ∧
    (app verifyIdToken (mainHandlers db others) req).ops = (pantryAdd db r).ops := by
  have hne : req.path ≠ "/health" := by rw [hp]; decide
  unfold app at hstep ⊢
  rw [authGate_other verifyIdToken req hne] at hstep ⊢
  rw [hm, hp, matchRoute_pantryAdd] at hstep ⊢
  rcases authenticateUser_cases verifyIdToken req with
    ⟨body, hr, _, _⟩ | ⟨hd, e, hauth, hst, hv, hr⟩ | ⟨hd, d, hauth, hst, hv, hr⟩
  · simp [hr] at hstep
  · simp [hr] at hstep
  · simp only [hr] at hstep ⊢
    unfold runRoute at hstep ⊢
    simp only at hstep ⊢
    rcases authorizeUser_cases
        { method := req.method, path := req.path, authorization := req.authorization,
          params := [], body := req.body, user := d } with ha | ⟨body, ha⟩
    · simp only [ha] at hstep ⊢
      simp only [if_true, List.singleton_append, List.mem_cons, List.mem_singleton,
        List.not_mem_nil, or_false] at hstep
      rcases hstep with h | h | h
      · cases h
      · cases h
      · cases h
        exact ⟨rfl, rfl, rfl⟩
    · simp [ha] at hstep

/-- When the handler of a route stack is entered, the outcome of the stack is
the outcome of the handler, which sees the body and the params of the request
given to the stack. -/
theorem runRoute_handler (verifyIdToken : Verifier) (handlers : Route → Request → HandlerResult)
    (decl : RouteDecl) (r0 r : Request) (route : Route)
    (h : Step.handler route r ∈ (runRoute verifyIdToken handlers decl r0).steps) :
    route = decl.route ∧ r.body = r0.body ∧ r.params = r0.params ∧
    (runRoute verifyIdToken handlers decl r0).response = (handlers route r).response ∧
    (runRoute verifyIdToken handlers decl r0).ops = (handlers route r).ops := by
  unfold runRoute at h ⊢
  cases hg : decl.guard with
  | unguarded =>
    simp only [hg, List.mem_singleton] at h ⊢
    cases h
    exact ⟨rfl, rfl, rfl, rfl, rfl⟩
  | authorize =>
    simp only [hg] at h ⊢
    rcases authorizeUser_cases r0 with hr | ⟨body, hr⟩
    · simp only [hr, List.mem_cons, List.mem_singleton, List.not_mem_nil, or_false] at h ⊢
      rcases h with h | h
      · cases h
      · cases h
        exact ⟨rfl, rfl, rfl, rfl, rfl⟩
    · simp [hr] at h
  | authenticate =>
    simp only [hg] at h ⊢
    rcases authenticateUser_cases verifyIdToken r0 with
      ⟨body, hr, _, _⟩ | ⟨hd, e, hauth, hst, hv, hr⟩ | ⟨hd, d, hauth, hst, hv, hr⟩
    · simp [hr] at h
    · simp [hr] at h
    · simp only [hr, List.mem_cons, List.mem_singleton, List.not_mem_nil, or_false] at h ⊢
      rcases h with h | h
      · cases h
      · cases h
        exact ⟨rfl, rfl, rfl, rfl, rfl⟩

/-- When a handler is entered by the application, the route is the one that
method and path are dispatched to, the handler sees the body of the request and
the params of the match, and the outcome of the application is the outcome of
the handler. -/
theorem app_handler (verifyIdToken : Verifier) (handlers : Route → Request → HandlerResult)
    (req r : Request) (route : Route)
    (h : Step.handler route r ∈ (app verifyIdToken handlers req).steps) :
    (∃ decl, matchRoute req.method req.path = some (decl, r.params) ∧ decl.route = route) ∧
    r.body = req.body ∧
    (app verifyIdToken handlers req).response = (handlers route r).response ∧
    (app verifyIdToken handlers req).ops = (handlers route r).ops := by
  unfold app at h ⊢
  by_cases hp : req.path = "/health"
  · rw [authGate_health verifyIdToken req hp] at h ⊢
    simp only at h ⊢
    cases hm : matchRoute req.method req.path with
    | none => simp [hm] at h
    | some found =>
      obtain ⟨decl, params⟩ := found
      simp only [hm, Bool.false_eq_true, if_false, List.nil_append] at h ⊢
      obtain ⟨h1, h2, h3, h4, h5⟩ := runRoute_handler _ _ _ _ _ _ h
      exact ⟨⟨decl, by rw [h3], h1.symm⟩, h2, h4, h5⟩
  · rw [authGate_other verifyIdToken req hp] at h ⊢
    rcases authenticateUser_cases verifyIdToken req with
      ⟨body, hr, _, _⟩ | ⟨hd, e, hauth, hst, hv, hr⟩ | ⟨hd, d, hauth, hst, hv, hr⟩
    · simp [hr] at h
    · simp [hr] at h
    · simp only [hr] at h ⊢
      cases hm : matchRoute req.method req.path with
      | none => simp [hm] at h
      | some found =>
        obtain ⟨decl, params⟩ := found
        simp only [hm, if_true, List.singleton_append, List.mem_cons] at h ⊢
        rcases h with h | h
        · cases h
        · obtain ⟨h1, h2, h3, h4, h5⟩ := runRoute_handler _ _ _ _ _ _ h
          exact ⟨⟨decl, by rw [h3], h1.symm⟩, h2, h4, h5⟩

/-- Every element on the left of a `Forall₂` has a partner on the right. -/
theorem forall₂_exists_right {α β : Type} (R : α → β → Prop) :
    ∀ (l₁ : List α) (l₂ : List β), List.Forall₂ R l₁ l₂ → ∀ a ∈ l₁, ∃ b ∈ l₂, R a b := by
  intro l₁ l₂ h
  induction h with
  | nil => intro a ha; cases ha
  | cons hab _ ih =>
    intro a ha
    rcases List.mem_cons.1 ha with ha | ha
    · subst ha
      exact ⟨_, List.mem_cons_self _ _, hab⟩
    · obtain ⟨b, hb, hr⟩ := ih a ha
      exact ⟨b, List.mem_cons_of_mem _ hb, hr⟩

/-- The example generator never repeats an id. -/
theorem xs_injective : Function.Injective xs := by
  intro a b h
  have h2 : (xs a).data.length = (xs b).data.length := by rw [h]
  simpa [xs] using h2

/-- One record per entry. -/
theorem newItemRecords_length (gen : Nat → String) (items : List JsVal) :
    ∀ k, (newItemRecords gen k items).length = items.length := by
  induction items with
  | nil => intro k; rfl
  | cons item rest ih => intro k; simp [newItemRecords, ih]

/-- The data of the records is the item data of the entries, in order. -/
theorem newItemRecords_data (gen : Nat → String) (items : List JsVal) :
    ∀ k, (newItemRecords gen k items).map Prod.snd = items.map pantryItemFields := by
  induction items with
  | nil => intro k; rfl
  | cons item rest ih => intro k; simp [newItemRecords, ih]

/-- The ids of the records of one call are ids that the generator had not
produced before the call. -/
theorem newItemRecords_ids (gen : Nat → String) (items : List JsVal) :
    ∀ k, ∀ id ∈ (newItemRecords gen k items).map Prod.fst,
      ∃ j, k ≤ j ∧ j < k + items.length ∧ id = gen j := by
  induction items with
  | nil => intro k id h; simp [newItemRecords] at h
  | cons item rest ih =>
    intro k id h
    simp only [newItemRecords, List.map_cons, List.mem_cons] at h
    rcases h with h | h
    · exact ⟨k, Nat.le_refl _, by simp, h⟩
    · obtain ⟨j, h1, h2, h3⟩ := ih (k + 1) id h
      exact ⟨j, by omega, by simp only [List.length_cons]; omega, h3⟩

/-- The ids of the records of one call are pairwise different. -/
theorem newItemRecords_nodup (gen : Nat → String) (hgen : Function.Injective gen)
    (items : List JsVal) :
    ∀ k, ((newItemRecords gen k items).map Prod.fst).Nodup := by
  induction items with
  | nil => intro k; simp [newItemRecords]
  | cons item rest ih =>
    intro k
    simp only [newItemRecords, List.map_cons, List.nodup_cons]
    refine ⟨?_, ih (k + 1)⟩
    intro hmem
    obtain ⟨j, h1, _, h3⟩ := newItemRecords_ids gen rest (k + 1) _ hmem
    have := hgen h3
    omega

/-- When every entry is an object with a name, the loop stages the records of
`newItemRecords`. -/
theorem stagePantryItems_records (gen : Nat → String) (s : Store) (u : String)
    (items : List JsVal)
    (hwf : ∀ e ∈ items, (∃ fields, e = .obj fields) ∧ hasName e = true) :
    ∀ n, stagePantryItems (s.db gen) ["pantries", u] n items =
      (((newItemRecords gen (s.generated + n) items).map (itemDoc u)).map
        (fun d => Write.set d.1 (.obj d.2)), none) := by
  induction items with
  | nil => intro n; rfl
  | cons item rest ih =>
    intro n
    obtain ⟨⟨fields, hf⟩, hn⟩ := hwf item (List.mem_cons_self _ _)
    subst hf
    have hrest := ih (fun e he => hwf e (List.mem_cons_of_mem _ he)) (n + 1)
    have hname : ((fields.lookup "name").getD .undefined).truthy = true := hn
    rw [stagePantryItems]
    simp only [JsVal.prop, hname, Bool.not_true, Bool.false_eq_true, if_false]
    have hdata : pantryItemData (.obj fields) =
        .ok (.obj (pantryItemFields (.obj fields))) := rfl
    simp only [hdata, hrest, newItemRecords, List.map_cons, itemDoc]
    have : s.generated + n + 1 = s.generated + (n + 1) := by omega
    rw [this]
    rfl

/-- Setting documents under paths that are new and pairwise different appends
them. -/
theorem foldl_applyWrite_fresh (new : List (DocPath × Fields)) :
    ∀ docs : List (DocPath × Fields),
      (∀ p ∈ new, ∀ d ∈ docs, d.1 ≠ p.1) → (new.map Prod.fst).Nodup →
      (new.map (fun d => Write.set d.1 (.obj d.2))).foldl applyWrite docs = docs ++ new := by
  induction new with
  | nil => intro docs _ _; simp
  | cons p ps ih =>
    intro docs hfresh hnd
    simp only [List.map_cons, List.nodup_cons] at hnd
    simp only [List.map_cons, List.foldl_cons]
    have hstep : applyWrite docs (.set p.1 (.obj p.2)) = docs ++ [p] := by
      simp only [applyWrite]
      congr 1
      rw [List.filter_eq_self]
      intro d hd
      have := hfresh p (List.mem_cons_self _ _) d hd
      simpa using this
    rw [hstep, ih (docs ++ [p])]
    · simp
    · intro q hq d hd
      rcases List.mem_append.1 hd with hd | hd
      · exact hfresh q (List.mem_cons_of_mem _ hq) d hd
      · rw [List.mem_singleton] at hd
        subst hd
        intro heq
        exact hnd.1 (heq ▸ List.mem_map_of_mem Prod.fst hq)
    · exact hnd.2

/-- Staging operations persist nothing. -/
theorem persistedOf_batch_append (db : Db) (ws : List Write) (rest : List StoreOp) :
    persistedOf db (ws.map StoreOp.batch ++ rest) = persistedOf db rest := by
  induction ws with
  | nil => rfl
  | cons w ws ih => simpa [persistedOf] using ih

/-- The store accepts a batch of `set`s of objects. -/
theorem sets_accepted (docs : List (DocPath × Fields)) (new : List (DocPath × Fields)) :
    (new.map (fun d => Write.set d.1 (.obj d.2))).all (acceptsWrite docs) = true := by
  induction new with
  | nil => rfl
  | cons p ps ih => simpa [acceptsWrite] using ih

/-- One `POST /pantry/add` with entries that are objects with a name, on a
state in which the pantry exists and the ids still to come are unused: the
answer is 200 and the state gains the records of `newItemRecords`. -/
theorem pantryAddOn_existing (gen : Nat → String) (hgen : Function.Injective gen)
    (s : Store) (req : Request) (u : String) (items : List JsVal) (c : Fields)
    (hfresh : ∀ k, s.generated ≤ k → ∀ d ∈ s.docs, d.1 ≠ ["pantries", u, "items", gen k])
    (hu : req.body.prop "userId" = .ok (.str u)) (hne : u ≠ "")
    (hi : req.body.prop "items" = .ok (.arr items))
    (hwf : ∀ e ∈ items, (∃ fields, e = .obj fields) ∧ hasName e = true)
    (hc : s.doc ["pantries", u] = some c) :
    pantryAddOn gen s req =
      (⟨200, pantryAddOk⟩,
        ⟨s.docs ++ (newItemRecords gen s.generated items).map (itemDoc u),
          s.generated + items.length⟩) := by
  have hget : (s.db gen).get ["pantries", u] = .ok (some c) := by
    show Except.ok (s.doc ["pantries", u]) = _
    rw [hc]
  have hstage := stagePantryItems_records gen s u items hwf 0
  have hbatch : pantryBatch (s.db gen) ["pantries", u] (.str u) (some c) items =
      (((newItemRecords gen s.generated items).map (itemDoc u)).map
        (fun d => Write.set d.1 (.obj d.2)), none) := by
    unfold pantryBatch
    rw [hstage]
    simp
  have hcommit : (s.db gen).commit
      (((newItemRecords gen s.generated items).map (itemDoc u)).map
        (fun d => Write.set d.1 (.obj d.2))) = .ok () := by
    show (if _ then _ else _) = _
    rw [sets_accepted]
    rfl
  have hrun : pantryAdd (s.db gen) req =
      ⟨⟨200, pantryAddOk⟩, .get ["pantries", u] ::
        ((((newItemRecords gen s.generated items).map (itemDoc u)).map
            (fun d => Write.set d.1 (.obj d.2))).map StoreOp.batch ++
          [.batchCommit (((newItemRecords gen s.generated items).map (itemDoc u)).map
            (fun d => Write.set d.1 (.obj d.2)))])⟩ := by
    rw [pantryAdd_valid (s.db gen) req u items (some c) hu hne hi hget, hbatch]
    unfold pantryCommit
    simp only [hcommit]
  unfold pantryAddOn
  rw [hrun]
  simp only [persistedOf, stagedOf, persistedOf_batch_append, stagedOf_batch_append, hcommit,
    List.append_nil, List.length_map, newItemRecords_length]
  rw [foldl_applyWrite_fresh]
  · intro p hp d hd
    obtain ⟨r, hr, hrp⟩ := List.mem_map.1 hp
    obtain ⟨j, h1, _, h3⟩ := newItemRecords_ids gen items s.generated r.1
      (List.mem_map_of_mem Prod.fst hr)
    rw [← hrp]
    show d.1 ≠ ["pantries", u, "items", r.1]
    rw [h3]
    exact hfresh j h1 d hd
  · rw [List.map_map]
    have hinj : Function.Injective (fun id : String => ["pantries", u, "items", id]) := by
      intro a b hab
      simpa using hab
    have := (newItemRecords_nodup gen hgen items s.generated).map hinj
    rw [List.map_map] at this
    exact this

/-- The documents of the items collection of `u` after item records were
appended. -/
theorem children_append_items (docs : List (DocPath × Fields)) (u : String)
    (records : List (String × Fields)) (g g2 : Nat) :
    Store.children ⟨docs ++ records.map (itemDoc u), g⟩ ["pantries", u, "items"] =
      Store.children ⟨docs, g2⟩ ["pantries", u, "items"] ++ records := by
  unfold Store.children
  simp only [List.filterMap_append]
  congr 1
  induction records with
  | nil => rfl
  | cons r rs ih =>
    simp only [List.map_cons, List.filterMap_cons, ih]
    simp [itemDoc, childId]

/-- A document that is found stays the one found when documents are appended. -/
theorem doc_append (docs new : List (DocPath × Fields)) (ref : DocPath) (c : Fields)
    (g g2 : Nat) (h : Store.doc ⟨docs, g⟩ ref = some c) :
    Store.doc ⟨docs ++ new, g2⟩ ref = some c := by
  unfold Store.doc at h ⊢
  simp only at h ⊢
  rw [List.lookup_append, h]
  rfl

/-- A document of a collection is a document of the store. -/
theorem children_mem (s : Store) (coll : DocPath) (id : String) (f : Fields)
    (h : (id, f) ∈ s.children coll) : (coll ++ [id], f) ∈ s.docs := by
  unfold Store.children at h
  rw [List.mem_filterMap] at h
  obtain ⟨d, hd, hmap⟩ := h
  unfold childId at hmap
  split at hmap
  · rename_i hdrop
    cases hlast : d.1.getLast? with
    | none => simp [hlast] at hmap
    | some x =>
      simp only [hlast, Option.map_some', Option.some.injEq, Prod.mk.injEq] at hmap
      obtain ⟨hx, hf⟩ := hmap
      subst hx hf
      have hpath : d.1 = coll ++ [x] := by
        rw [← hdrop]
        exact (List.dropLast_append_getLast? x hlast).symm
      rw [← hpath]
      exact hd
  · simp at hmap

/-- With both bounds at the same instant, the range query only returns
documents whose field is exactly that instant. -/
theorem rangeQuery_same_bounds (db : Db) (coll : DocPath) (field : String) (at_ : Int)
    (docs : List (String × Fields)) (h : rangeQuery db coll field at_ at_ = .ok docs) :
    ∀ d ∈ docs, d.2.lookup field = some (.num at_) := by
  unfold rangeQuery at h
  cases hl : db.list coll with
  | error e => rw [hl] at h; cases h
  | ok all =>
    rw [hl] at h
    have hd : docs = all.filter (fun d =>
        match d.2.lookup field with
        | some (.num e) => decide (at_ ≤ e) && decide (e ≤ at_)
        | _ => false) := (Except.ok.inj h).symm
    intro d hmem
    rw [hd, List.mem_filter] at hmem
    obtain ⟨_, hcond⟩ := hmem
    split at hcond
    · rename_i e heq
      simp only [Bool.and_eq_true, decide_eq_true_eq] at hcond
      have : e = at_ := by omega
      rw [heq, this]
    · cases hcond

/-- A greedy repetition succeeds with what its continuation yields behind the
longest run, when that run is long enough. -/
theorem manyGo_greedy {α : Type} (p : Char → Bool) (k : List Char → Option α) (least : Nat)
    (r : α) :
    ∀ (s : List Char) (taken : Nat), k (s.dropWhile p) = some r →
      least ≤ taken + (s.takeWhile p).length → manyGo p k least s taken = some r := by
  intro s
  induction s with
  | nil =>
    intro taken hk hl
    simp only [List.dropWhile_nil, List.takeWhile_nil, List.length_nil, Nat.add_zero] at hk hl
    simp [manyGo, hl, hk]
  | cons ch rest ih =>
    intro taken hk hl
    unfold manyGo
    by_cases hp : p ch = true
    · simp only [hp, if_true]
      simp only [List.dropWhile_cons_of_pos hp] at hk
      simp only [List.takeWhile_cons_of_pos hp, List.length_cons] at hl
      rw [ih (taken + 1) hk (by omega)]
    · simp only [hp, Bool.false_eq_true, if_false]
      have hp2 : ¬ (p ch = true) := hp
      simp only [List.dropWhile_cons_of_neg hp2] at hk
      simp only [List.takeWhile_cons_of_neg hp2, List.length_nil, Nat.add_zero] at hl
      simp [hl, hk]

/-- A repetition that succeeds has consumed a run of matching characters that is
long enough, and its continuation has succeeded behind that run. -/
theorem manyGo_sound {α : Type} (p : Char → Bool) (k : List Char → Option α) (least : Nat)
    (r : α) :
    ∀ (s : List Char) (taken : Nat), manyGo p k least s taken = some r →
      ∃ pre rest, s = pre ++ rest ∧ (∀ c ∈ pre, p c = true) ∧
        least ≤ taken + pre.length ∧ k rest = some r := by
  intro s
  induction s with
  | nil =>
    intro taken h
    unfold manyGo at h
    split at h
    · rename_i hl
      exact ⟨[], [], rfl, by simp, by simpa using hl, h⟩
    · cases h
  | cons ch rest ih =>
    intro taken h
    unfold manyGo at h
    have stop : (if least ≤ taken then k (ch :: rest) else none) = some r →
        ∃ pre rest2, ch :: rest = pre ++ rest2 ∧ (∀ c ∈ pre, p c = true) ∧
          least ≤ taken + pre.length ∧ k rest2 = some r := by
      intro h
      split at h
      · rename_i hl
        exact ⟨[], ch :: rest, rfl, by simp, by simpa using hl, h⟩
      · cases h
    split at h
    · rename_i hp
      cases hm : manyGo p k least rest (taken + 1) with
      | some r2 =>
        simp only [hm, Option.some.injEq] at h
        subst h
        obtain ⟨pre, rest2, h1, h2, h3, h4⟩ := ih (taken + 1) hm
        refine ⟨ch :: pre, rest2, by rw [h1]; rfl, ?_, by simp only [List.length_cons]; omega, h4⟩
        intro c hc
        rcases List.mem_cons.1 hc with hc | hc
        · rw [hc]; exact hp
        · exact h2 c hc
      | none =>
        simp only [hm] at h
        exact stop h
    · exact stop h

/-- A text is its numeral followed by the rest. -/
theorem numeralOf_append (t : List Char) : numeralOf t ++ afterNumeral t = t := by
  unfold numeralOf afterNumeral
  have h := List.takeWhile_append_dropWhile isDigit t
  split
  · rename_i rest hd
    rw [hd] at h
    have h2 := List.takeWhile_append_dropWhile isDigit rest
    rw [List.append_assoc, List.cons_append, h2]
    exact h
  · exact h

/-- Closing a group that was opened at `pre ++ s` while at `s` captures `pre`. -/
theorem close_opened (opened texts : List (Nat × List Char)) (i : Nat)
    (start pre s : List Char) (h : start = pre ++ s) :
    Captures.close ⟨(i, start) :: opened, texts⟩ i s =
      ⟨(i, start) :: opened, (i, pre) :: texts⟩ := by
  subst h
  simp [Captures.close, List.lookup]

/-- What is left after the longest run starts with no character of the run. -/
theorem dropWhile_dropWhile (p : Char → Bool) (s : List Char) :
    (s.dropWhile p).dropWhile p = s.dropWhile p := by
  induction s with
  | nil => rfl
  | cons ch rest ih =>
    by_cases hp : p ch = true
    · simp only [List.dropWhile_cons_of_pos hp, ih]
    · have hp2 : ¬ (p ch = true) := hp
      simp only [List.dropWhile_cons_of_neg hp2]

/-- A repetition without a lower bound whose continuation always succeeds takes
the longest run. -/
theorem manyGo_star {α : Type} (p : Char → Bool) (g : List Char → α) (x : List Char)
    (taken : Nat) :
    manyGo p (fun rest => some (g rest)) 0 x taken = some (g (x.dropWhile p)) :=
  manyGo_greedy _ _ _ _ _ _ rfl (Nat.zero_le _)

/-- The second group of the price pattern, `(\d+\.?\d*)`, at a text that starts
with a digit: it captures the numeral. -/
theorem matchAtoms_numeral (t : List Char) (c : Captures) (h : t.takeWhile isDigit ≠ []) :
    matchAtoms [.opening 2, .many isDigit 1, .opt (fun c => c == '.'), .many isDigit 0,
        .closing 2] t c =
      some (afterNumeral t,
        { opened := (2, t) :: c.opened, texts := (2, numeralOf t) :: c.texts }) := by
  have hlen : 1 ≤ 0 + (t.takeWhile isDigit).length := by
    cases hl : t.takeWhile isDigit with
    | nil => exact absurd hl h
    | cons _ _ => simp
  have happ := numeralOf_append t
  simp only [matchAtoms]
  apply manyGo_greedy _ _ _ _ _ _ _ hlen
  simp only [manyGo_star]
  have hidem := dropWhile_dropWhile isDigit t
  unfold numeralOf afterNumeral at *
  cases hd : List.dropWhile isDigit t with
  | nil =>
    simp only [hd, List.dropWhile_nil] at happ ⊢
    rw [close_opened c.opened c.texts 2 t _ _ happ.symm]
  | cons ch r4 =>
    by_cases hdot : ch = '.'
    · subst hdot
      simp only [hd] at happ ⊢
      simp only [beq_self_eq_true, if_true]
      rw [close_opened c.opened c.texts 2 t _ _ happ.symm]
    · have hne : (ch == '.') = false := by simpa using hdot
      rw [hd] at hidem
      simp only [hne, Bool.false_eq_true, if_false, hidem]
      have e1 : (match ch :: r4 with
          | '.' :: rest => List.takeWhile isDigit t ++ '.' :: List.takeWhile isDigit rest
          | _ => List.takeWhile isDigit t) = List.takeWhile isDigit t := by
        split
        · rename_i heq
          cases heq
          exact absurd rfl hdot
        · rfl
      have e2 : (match ch :: r4 with
          | '.' :: rest => List.dropWhile isDigit rest
          | rest => rest) = ch :: r4 := by
        split
        · rename_i heq
          cases heq
          exact absurd rfl hdot
        · rfl
      simp only [hd, e1, e2] at happ ⊢
      rw [close_opened c.opened c.texts 2 t _ _ happ.symm]

/-- Matching a repetition. -/
theorem matchAtoms_many (p : Char → Bool) (least : Nat) (atoms : List Atom) (s : List Char)
    (c : Captures) :
    matchAtoms (.many p least :: atoms) s c =
      manyGo p (fun rest => matchAtoms atoms rest c) least s 0 := by
  simp only [matchAtoms]

/-- Matching the start of a group. -/
theorem matchAtoms_opening (i : Nat) (atoms : List Atom) (s : List Char) (c : Captures) :
    matchAtoms (.opening i :: atoms) s c =
      matchAtoms atoms s { c with opened := (i, s) :: c.opened } := by
  simp only [matchAtoms]

/-- Matching the end of a group. -/
theorem matchAtoms_closing (i : Nat) (atoms : List Atom) (s : List Char) (c : Captures) :
    matchAtoms (.closing i :: atoms) s c = matchAtoms atoms s (c.close i s) := by
  simp only [matchAtoms]

/-- Matching one character. -/
theorem matchAtoms_one (p : Char → Bool) (atoms : List Atom) (s : List Char) (c : Captures) :
    matchAtoms (.one p :: atoms) s c =
      match s with
      | ch :: rest => if p ch then matchAtoms atoms rest c else none
      | [] => none := by
  cases s <;> simp only [matchAtoms]

/-- White space is not a dollar sign. -/
theorem isJsSpace_ne_dollar (ch : Char) (h : isJsSpace ch = true) : (ch != '$') = true := by
  by_cases he : ch = '$'
  · subst he
    exact absurd h (by decide)
  · simpa using he

/-- White space is not an opening parenthesis. -/
theorem isJsSpace_ne_paren (ch : Char) (h : isJsSpace ch = true) : (ch != '(') = true := by
  by_cases he : ch = '('
  · subst he
    exact absurd h (by decide)
  · simpa using he

/-- The longest run before a character that ends it. -/
theorem takeWhile_append_stop (p : Char → Bool) (pre : List Char) (x : Char) (rest : List Char)
    (hpre : ∀ c ∈ pre, p c = true) (hx : p x = false) :
    (pre ++ x :: rest).takeWhile p = pre ∧ (pre ++ x :: rest).dropWhile p = x :: rest := by
  induction pre with
  | nil => simp [List.takeWhile, List.dropWhile, hx]
  | cons ch pre ih =>
    have hch : p ch = true := hpre ch (List.mem_cons_self _ _)
    have ih2 := ih (fun c hc => hpre c (List.mem_cons_of_mem _ hc))
    simp [List.takeWhile, List.dropWhile, hch, ih2]

/-- What is left after the longest run is empty or starts with a character that
ends the run. -/
theorem dropWhile_head (p : Char → Bool) (s : List Char) (x : Char) (rest : List Char)
    (h : s.dropWhile p = x :: rest) : p x = false := by
  induction s with
  | nil => cases h
  | cons ch s ih =>
    by_cases hp : p ch = true
    · rw [List.dropWhile_cons_of_pos hp] at h
      exact ih h
    · have hp2 : ¬ (p ch = true) := hp
      rw [List.dropWhile_cons_of_neg hp2] at h
      cases h
      simpa using hp

/-- The price pattern at a text whose first dollar sign comes after at least one
character and before a digit: the first group is the text before that dollar
sign, the second the numeral behind it. -/
theorem pricePattern_start (s t : List Char) (c : Captures)
    (hd : s.dropWhile (fun c => c != '$') = '$' :: t)
    (hrun : s.takeWhile (fun c => c != '$') ≠ [])
    (hdig : t.takeWhile isDigit ≠ []) :
    matchAtoms pricePattern s c =
      some (afterNumeral t,
        { opened := (2, t) :: (1, s) :: c.opened,
          texts := (2, numeralOf t) :: (1, s.takeWhile (fun c => c != '$')) :: c.texts }) := by
  have hlen : 1 ≤ 0 + (s.takeWhile (fun c => c != '$')).length := by
    cases hl : s.takeWhile (fun c => c != '$') with
    | nil => exact absurd hl hrun
    | cons _ _ => simp
  have hsplit := List.takeWhile_append_dropWhile (fun c => c != '$') s
  unfold pricePattern
  rw [matchAtoms_opening, matchAtoms_many]
  apply manyGo_greedy _ _ _ _ _ _ _ hlen
  show matchAtoms _ _ _ = _
  rw [matchAtoms_closing, matchAtoms_many]
  apply manyGo_greedy _ _ _ _ _ _ _ (Nat.zero_le _)
  show matchAtoms _ _ _ = _
  rw [hd]
  have hsp : List.dropWhile isJsSpace ('$' :: t) = '$' :: t := by
    rw [List.dropWhile_cons_of_neg (by decide)]
  rw [hsp, matchAtoms_one]
  simp only [beq_self_eq_true, if_true]
  rw [close_opened c.opened c.texts 1 s (s.takeWhile (fun c => c != '$')) ('$' :: t)
    (by rw [← hd, hsplit])]
  rw [matchAtoms_numeral t _ hdig]

/-- The longest run is not empty when the text starts with a non-empty run. -/
theorem takeWhile_ne_nil (p : Char → Bool) (pre rest : List Char)
    (hpre : ∀ c ∈ pre, p c = true) (hlen : 1 ≤ pre.length) :
    (pre ++ rest).takeWhile p ≠ [] := by
  cases pre with
  | nil => simp at hlen
  | cons ch pre =>
    have hch : p ch = true := hpre ch (List.mem_cons_self _ _)
    simp [List.takeWhile, hch]

/-- The price pattern matches at the start of a text only when the first dollar
sign of the text comes after at least one character and before a digit. -/
theorem pricePattern_sound (s : List Char) (c : Captures) (r : List Char × Captures)
    (h : matchAtoms pricePattern s c = some r) :
    ∃ t, s.dropWhile (fun c => c != '$') = '$' :: t ∧
      s.takeWhile (fun c => c != '$') ≠ [] ∧ t.takeWhile isDigit ≠ [] := by
  unfold pricePattern at h
  rw [matchAtoms_opening, matchAtoms_many] at h
  obtain ⟨pre, rest, hs, hpre, hlen, hk⟩ := manyGo_sound _ _ _ _ _ _ h
  have hk1 : matchAtoms _ _ _ = some r := hk
  rw [matchAtoms_closing, matchAtoms_many] at hk1
  obtain ⟨w, rest2, hrest, hw, _, hk2⟩ := manyGo_sound _ _ _ _ _ _ hk1
  have hk3 : matchAtoms _ _ _ = some r := hk2
  rw [matchAtoms_one] at hk3
  cases rest2 with
  | nil => cases hk3
  | cons ch t =>
    simp only at hk3
    split at hk3
    · rename_i hch
      have hch2 : ch = '$' := by simpa using hch
      subst hch2
      rw [matchAtoms_opening, matchAtoms_many] at hk3
      obtain ⟨ds, rest3, ht, hds, hdl, _⟩ := manyGo_sound _ _ _ _ _ _ hk3
      have hall : ∀ x ∈ pre ++ w, (fun c => c != '$') x = true := by
        intro x hx
        rcases List.mem_append.1 hx with hx | hx
        · exact hpre x hx
        · exact isJsSpace_ne_dollar x (hw x hx)
      have hs2 : s = (pre ++ w) ++ '$' :: t := by
        rw [hs, hrest, List.append_assoc]
      obtain ⟨h1, h2⟩ := takeWhile_append_stop (fun c => c != '$') (pre ++ w) '$' t hall
        (by decide)
      refine ⟨t, by rw [hs2, h2], ?_, ?_⟩
      · rw [hs2, h1]
        intro hnil
        have : pre = [] := (List.append_eq_nil.1 hnil).1
        rw [this] at hlen
        simp at hlen
      · rw [ht]
        exact takeWhile_ne_nil isDigit ds rest3 hds (by simpa using hdl)
    · cases hk3

/-- The match that the search finds is the leftmost one: it starts at some
position of the text, and the pattern matches at no position before. -/
theorem regexMatch_first (pattern : List Atom) (caps : Captures) :
    ∀ line : List Char, regexMatch pattern line = some caps →
      ∃ pre s r, line = pre ++ s ∧ matchAtoms pattern s ⟨[], []⟩ = some r ∧ r.2 = caps ∧
        ∀ p1 p2, pre = p1 ++ p2 → p2 ≠ [] → matchAtoms pattern (p2 ++ s) ⟨[], []⟩ = none := by
  intro line
  induction line with
  | nil =>
    intro h
    simp only [regexMatch] at h
    cases hm : matchAtoms pattern [] ⟨[], []⟩ with
    | none => simp [hm] at h
    | some r =>
      simp only [hm, Option.map_some', Option.some.injEq] at h
      refine ⟨[], [], r, rfl, hm, h, ?_⟩
      intro p1 p2 hp hne
      have := (List.append_eq_nil.1 hp.symm).2
      exact absurd this hne
  | cons ch rest ih =>
    intro h
    simp only [regexMatch] at h
    cases hm : matchAtoms pattern (ch :: rest) ⟨[], []⟩ with
    | some r =>
      simp only [hm, Option.some.injEq] at h
      refine ⟨[], ch :: rest, r, rfl, hm, h, ?_⟩
      intro p1 p2 hp hne
      have := (List.append_eq_nil.1 hp.symm).2
      exact absurd this hne
    | none =>
      simp only [hm] at h
      obtain ⟨pre, s, r, h1, h2, h3, h4⟩ := ih h
      refine ⟨ch :: pre, s, r, by rw [h1]; rfl, h2, h3, ?_⟩
      intro p1 p2 hp hne
      cases p1 with
      | nil =>
        simp only [List.nil_append] at hp
        rw [← hp, List.cons_append, ← h1]
        exact hm
      | cons x p1 =>
        simp only [List.cons_append, List.cons.injEq] at hp
        exact h4 p1 p2 hp.2 hne

/-- The search passes over a stretch of the text in which the pattern matches at
no position. -/
theorem regexMatch_skip (pattern : List Atom) (s : List Char) :
    ∀ pre : List Char,
      (∀ p1 p2, pre = p1 ++ p2 → p2 ≠ [] → matchAtoms pattern (p2 ++ s) ⟨[], []⟩ = none) →
      regexMatch pattern (pre ++ s) = regexMatch pattern s := by
  intro pre
  induction pre with
  | nil => intro _; rfl
  | cons ch pre ih =>
    intro h
    have h0 := h [] (ch :: pre) rfl (by simp)
    simp only [List.cons_append] at h0 ⊢
    simp only [regexMatch, h0]
    exact ih (fun p1 p2 hp hne => h (ch :: p1) p2 (by rw [hp]; rfl) hne)

/-- When the pattern matches at some position of the text, the search finds a
match. -/
theorem regexMatch_complete (pattern : List Atom) (s : List Char) (r : List Char × Captures)
    (hm : matchAtoms pattern s ⟨[], []⟩ = some r) :
    ∀ pre : List Char, (regexMatch pattern (pre ++ s)).isSome = true := by
  have hs : (regexMatch pattern s).isSome = true := by
    cases s with
    | nil => simp [regexMatch, hm]
    | cons ch rest => simp [regexMatch, hm]
  intro pre
  induction pre with
  | nil => exact hs
  | cons ch pre ih =>
    simp only [List.cons_append, regexMatch]
    cases matchAtoms pattern (ch :: (pre ++ s)) ⟨[], []⟩ with
    | some r2 => rfl
    | none => exact ih

/-- The search finds the match at the start of the text when there is one. -/
theorem regexMatch_start (pattern : List Atom) (s : List Char) (r : List Char × Captures)
    (hm : matchAtoms pattern s ⟨[], []⟩ = some r) : regexMatch pattern s = some r.2 := by
  cases s with
  | nil => simp [regexMatch, hm]
  | cons ch rest => simp [regexMatch, hm]

/-- The longest run stops before the end of a text that holds a character
outside the run. -/
theorem dropWhile_of_mem (p : Char → Bool) (x : Char) (hx : p x = false) :
    ∀ l : List Char, x ∈ l → ∃ y q, l.dropWhile p = y :: q := by
  intro l
  induction l with
  | nil => intro h; cases h
  | cons ch l ih =>
    intro h
    by_cases hp : p ch = true
    · rw [List.dropWhile_cons_of_pos hp]
      rcases List.mem_cons.1 h with h | h
      · subst h
        rw [hx] at hp
        cases hp
      · exact ih h
    · have hp2 : ¬ (p ch = true) := hp
      rw [List.dropWhile_cons_of_neg hp2]
      exact ⟨ch, l, rfl⟩

/-- A text that starts with a non-digit has no leading digits, whatever
follows. -/
theorem takeWhile_append_nil (p : Char → Bool) (b r : List Char) (hb : b ≠ [])
    (h : b.takeWhile p = []) : (b ++ r).takeWhile p = [] := by
  cases b with
  | nil => exact absurd rfl hb
  | cons ch b =>
    by_cases hp : p ch = true
    · simp [List.takeWhile, hp] at h
    · simp [List.takeWhile, hp]

/-- A text that starts with digits keeps them when more text follows. -/
theorem takeWhile_append_ne_nil (p : Char → Bool) (b r : List Char)
    (h : b.takeWhile p ≠ []) : (b ++ r).takeWhile p ≠ [] := by
  cases b with
  | nil => exact absurd rfl h
  | cons ch b =>
    by_cases hp : p ch = true
    · simp [List.takeWhile, hp]
    · simp [List.takeWhile, hp] at h

/-- The price pattern at a text `name ++ "$" ++ after`. -/
theorem pricePattern_at (name after : List Char) (c : Captures)
    (hne : name ≠ []) (hname : ∀ ch ∈ name, ch ≠ '$') (hdig : after.takeWhile isDigit ≠ []) :
    matchAtoms pricePattern (name ++ '$' :: after) c =
      some (afterNumeral after,
        { opened := (2, after) :: (1, name ++ '$' :: after) :: c.opened,
          texts := (2, numeralOf after) :: (1, name) :: c.texts }) := by
  obtain ⟨h1, h2⟩ := takeWhile_append_stop (fun c => c != '$') name '$' after
    (fun ch h => by simpa using hname ch h) (by decide)
  have := pricePattern_start (name ++ '$' :: after) after c h2 (by rw [h1]; exact hne) hdig
  rw [h1] at this
  exact this

/-- The match of the price pattern that the search finds in a line is the one at
the first priced dollar sign of the line. -/
theorem pricePattern_first (line : List Char) (caps : Captures)
    (h : regexMatch pricePattern line = some caps) :
    ∃ pre name after, line = pre ++ name ++ '$' :: after ∧ firstPriced pre name after ∧
      caps.group 1 = name ∧ caps.group 2 = numeralOf after := by
  obtain ⟨pre, s, r, hline, hm, hr, hnone⟩ := regexMatch_first _ _ _ h
  obtain ⟨t, hd, hrun, hdig⟩ := pricePattern_sound _ _ _ hm
  rw [pricePattern_start s t _ hd hrun hdig] at hm
  cases hm
  subst hr
  have key : ∃ name, s.takeWhile (fun c => c != '$') = name ∧ s = name ++ '$' :: t ∧
      name ≠ [] ∧ ∀ c ∈ name, c ≠ '$' := by
    refine ⟨s.takeWhile (fun c => c != '$'), rfl, ?_, hrun, ?_⟩
    · rw [← hd, List.takeWhile_append_dropWhile]
    · intro c hc
      have := List.mem_takeWhile_imp hc
      simpa using this
  obtain ⟨name, htw, hs, hne, hname⟩ := key
  subst hs
  refine ⟨pre, name, t, by rw [hline, List.append_assoc], ⟨hne, hname, hdig, ?_, ?_⟩,
    by simp [Captures.group, List.lookup, htw], by simp [Captures.group, List.lookup]⟩
  · rcases List.eq_nil_or_concat pre with hp | ⟨p1, x, hp⟩
    · exact Or.inl hp
    · right
      subst hp
      by_cases hx : x = '$'
      · subst hx
        simp
      · exfalso
        have hstart := pricePattern_at (x :: name) t ⟨[], []⟩ (by simp)
          (by
            intro ch hch
            rcases List.mem_cons.1 hch with hch | hch
            · rw [hch]; exact hx
            · exact hname ch hch) hdig
        have hn := hnone p1 [x] (by simp) (by simp)
        simp only [List.singleton_append, List.cons_append, List.nil_append] at hstart hn
        rw [hstart] at hn
        cases hn
  · intro a x b hab hx
    by_contra hb
    rcases List.append_eq_append_iff.1 hab with ⟨a2, ha, hn⟩ | ⟨c2, hp, hc⟩
    · have : '$' ∈ name := by rw [hn]; simp
      exact hname _ this rfl
    · have hq : ∃ q, c2 = x :: '$' :: q ∧ b = q ++ name := by
        cases c2 with
        | nil =>
          simp only [List.nil_append] at hc
          have : '$' ∈ name := by rw [← hc]; simp
          exact absurd rfl (hname _ this)
        | cons y c2 =>
          cases c2 with
          | nil =>
            simp only [List.cons_append, List.nil_append, List.cons.injEq] at hc
            have : '$' ∈ name := by rw [← hc.2]; simp
            exact absurd rfl (hname _ this)
          | cons z q =>
            simp only [List.cons_append, List.cons.injEq] at hc
            obtain ⟨h1, h2, h3⟩ := hc
            subst h1 h2
            exact ⟨q, rfl, h3⟩
      obtain ⟨q, hc2, hbq⟩ := hq
      subst hc2 hbq
      have hstart := pricePattern_at [x] (q ++ (name ++ '$' :: t)) ⟨[], []⟩ (by simp)
        (by
          intro ch hch
          rw [List.mem_singleton.1 hch]
          exact hx)
        (by
          rw [← List.append_assoc]
          exact takeWhile_append_ne_nil _ _ _ hb)
      have hn := hnone a (x :: '$' :: q) hp (by simp)
      simp only [List.singleton_append, List.cons_append, List.nil_append] at hstart hn
      rw [hstart] at hn
      cases hn

/-- The search for the price pattern in a line that is split at its first priced
dollar sign finds the match at that dollar sign. -/
theorem pricePattern_leftmost (pre name after : List Char) (h : firstPriced pre name after) :
    ∃ caps, regexMatch pricePattern (pre ++ name ++ '$' :: after) = some caps ∧
      caps.group 1 = name ∧ caps.group 2 = numeralOf after := by
  obtain ⟨hne, hname, hdig, hpre, hleft⟩ := h
  have hat := pricePattern_at name after ⟨[], []⟩ hne hname hdig
  have hskip : ∀ p1 p2, pre = p1 ++ p2 → p2 ≠ [] →
      matchAtoms pricePattern (p2 ++ (name ++ '$' :: after)) ⟨[], []⟩ = none := by
    intro p1 p2 hp hp2
    cases hm : matchAtoms pricePattern (p2 ++ (name ++ '$' :: after)) ⟨[], []⟩ with
    | none => rfl
    | some r =>
      exfalso
      obtain ⟨t, hd, hrun, hdig2⟩ := pricePattern_sound _ _ _ hm
      have hlast : pre.getLast? = some '$' := by
        rcases hpre with hnil | hl
        · rw [hnil] at hp
          exact absurd (List.append_eq_nil.1 hp.symm).2 hp2
        · exact hl
      have hmem : '$' ∈ p2 := by
        rw [hp, List.getLast?_append_of_ne_nil _ hp2] at hlast
        exact List.mem_of_getLast?_eq_some hlast
      obtain ⟨y, q, hdrop⟩ := dropWhile_of_mem (fun c => c != '$') '$' (by decide) p2 hmem
      have hy : y = '$' := by
        have := dropWhile_head _ _ _ _ hdrop
        simpa using this
      subst hy
      have hsplit := List.takeWhile_append_dropWhile (fun c => c != '$') p2
      rw [hdrop] at hsplit
      have hall : ∀ c ∈ p2.takeWhile (fun c => c != '$'), (c != '$') = true := by
        intro c hc
        have := List.mem_takeWhile_imp hc
        simpa using this
      generalize p2.takeWhile (fun c => c != '$') = run at hsplit hall
      subst hsplit
      obtain ⟨h1, h2⟩ := takeWhile_append_stop (fun c => c != '$') run '$'
        (q ++ (name ++ '$' :: after)) (fun c hc => hall c hc) (by decide)
      have e : (run ++ '$' :: q) ++ (name ++ '$' :: after) =
          run ++ '$' :: (q ++ (name ++ '$' :: after)) := by simp
      rw [e, h1] at hrun
      rw [e, h2] at hd
      cases hd
      rcases List.eq_nil_or_concat run with hr | ⟨run2, x, hr⟩
      · exact hrun hr
      · subst hr
        have hx : x ≠ '$' := by
          have := hall x (by simp)
          simpa using this
        have hb := hleft (p1 ++ run2) x (q ++ name) (by rw [hp]; simp) hx
        have hbne : q ++ name ≠ [] := by
          intro hnil
          exact hne (List.append_eq_nil.1 hnil).2
        have := takeWhile_append_nil isDigit (q ++ name) ('$' :: after) hbne hb
        rw [List.append_assoc] at this
        exact hdig2 this
  have hskip2 := regexMatch_skip pricePattern (name ++ '$' :: after) pre hskip
  rw [List.append_assoc, hskip2, regexMatch_start _ _ _ hat]
  exact ⟨_, rfl, by simp [Captures.group, List.lookup], by simp [Captures.group, List.lookup]⟩

/-- The food pattern at a text whose first opening parenthesis comes after at
least one character and whose text behind that parenthesis reaches a closing
parenthesis after at least one character: the first group is the text before
the opening parenthesis, the second the text between the two. -/
theorem foodPattern_start (s t u : List Char) (c : Captures)
    (hd : s.dropWhile (fun c => c != '(') = '(' :: t)
    (hrun : s.takeWhile (fun c => c != '(') ≠ [])
    (hd2 : t.dropWhile (fun c => c != ')') = ')' :: u)
    (hrun2 : t.takeWhile (fun c => c != ')') ≠ []) :
    matchAtoms foodPattern s c =
      some (u,
        { opened := (2, t) :: (1, s) :: c.opened,
          texts := (2, t.takeWhile (fun c => c != ')')) ::
            (1, s.takeWhile (fun c => c != '(')) :: c.texts }) := by
  have hlen : 1 ≤ 0 + (s.takeWhile (fun c => c != '(')).length := by
    cases hl : s.takeWhile (fun c => c != '(') with
    | nil => exact absurd hl hrun
    | cons _ _ => simp
  have hlen2 : 1 ≤ 0 + (t.takeWhile (fun c => c != ')')).length := by
    cases hl : t.takeWhile (fun c => c != ')') with
    | nil => exact absurd hl hrun2
    | cons _ _ => simp
  have hsplit := List.takeWhile_append_dropWhile (fun c => c != '(') s
  have hsplit2 := List.takeWhile_append_dropWhile (fun c => c != ')') t
  unfold foodPattern
  rw [matchAtoms_opening, matchAtoms_many]
  apply manyGo_greedy _ _ _ _ _ _ _ hlen
  show matchAtoms _ _ _ = _
  rw [matchAtoms_closing, matchAtoms_many]
  apply manyGo_greedy _ _ _ _ _ _ _ (Nat.zero_le _)
  show matchAtoms _ _ _ = _
  rw [hd]
  have hsp : List.dropWhile isJsSpace ('(' :: t) = '(' :: t := by
    rw [List.dropWhile_cons_of_neg (by decide)]
  rw [hsp, matchAtoms_one]
  simp only [beq_self_eq_true, if_true]
  rw [close_opened c.opened c.texts 1 s (s.takeWhile (fun c => c != '(')) ('(' :: t)
    (by rw [← hd, hsplit])]
  rw [matchAtoms_opening, matchAtoms_many]
  apply manyGo_greedy _ _ _ _ _ _ _ hlen2
  show matchAtoms _ _ _ = _
  rw [matchAtoms_closing, hd2, matchAtoms_one]
  simp only [beq_self_eq_true, if_true]
  rw [close_opened _ _ 2 t (t.takeWhile (fun c => c != ')')) (')' :: u)
    (by rw [← hd2, hsplit2])]
  simp only [matchAtoms]

/-- The item of a line that starts with a name, followed by a category in
parentheses. -/
theorem foodItemOfLine_form (name category rest : List Char)
    (hname : name ≠ []) (hn : ∀ c ∈ name, c ≠ '(')
    (hcategory : category ≠ []) (hc : ∀ c ∈ category, c ≠ ')') :
    foodItemOfLine (name ++ '(' :: category ++ ')' :: rest) =
      some (.obj [("name", .str (String.mk (jsTrim name))),
        ("category", .str (String.mk (jsTrim category))), ("confidence", .dec 9 1)]) := by
  obtain ⟨h1, h2⟩ := takeWhile_append_stop (fun c => c != '(') name '('
    (category ++ ')' :: rest) (fun c h => by simpa using hn c h) (by decide)
  obtain ⟨h3, h4⟩ := takeWhile_append_stop (fun c => c != ')') category ')' rest
    (fun c h => by simpa using hc c h) (by decide)
  have hstart := foodPattern_start (name ++ '(' :: (category ++ ')' :: rest))
    (category ++ ')' :: rest) rest ⟨[], []⟩ h2 (by rw [h1]; exact hname) h4
    (by rw [h3]; exact hcategory)
  have hm := regexMatch_start _ _ _ hstart
  have e : name ++ '(' :: category ++ ')' :: rest =
      name ++ '(' :: (category ++ ')' :: rest) := by simp
  rw [e]
  unfold foodItemOfLine
  rw [hm]
  simp [Captures.group, List.lookup, h1, h3]

/-- The 500 of the handler `userProfileGet` carries the text of its `catch` block. -/
theorem userProfileGet_failure (db : Db) (req : Request)
    (h : (userProfileGet db req).response.status = 500) :
    (userProfileGet db req).response.body = .obj [("error", .str "Failed to fetch user profile")] := by
  unfold userProfileGet getDocument at h ⊢
  try dsimp only at h ⊢
  repeat' split at h
  all_goals simp_all

/-- The 500 of the handler `pantryAdd` carries the text of its `catch` block. -/
theorem pantryAdd_failure (db : Db) (req : Request)
    (h : (pantryAdd db req).response.status = 500) :
    (pantryAdd db req).response.body = .obj [("error", .str "Failed to add items to pantry")] := by
  unfold pantryAdd pantryCommit pantryAddFailed pantryAddBadRequest pantryAddOk at h ⊢
  try dsimp only at h ⊢
  repeat' split at h
  all_goals simp_all

/-- The 500 of the handler `pantryGet` carries the text of its `catch` block. -/
theorem pantryGet_failure (db : Db) (req : Request)
    (h : (pantryGet db req).response.status = 500) :
    (pantryGet db req).response.body = .obj [("error", .str "Failed to fetch pantry items")] := by
  unfold pantryGet at h ⊢
  try dsimp only at h ⊢
  repeat' split at h
  all_goals simp_all

/-- The 500 of the handler `pantryItemPut` carries the text of its `catch` block. -/
theorem pantryItemPut_failure (db : Db) (req : Request)
    (h : (pantryItemPut db req).response.status = 500) :
    (pantryItemPut db req).response.body = .obj [("error", .str "Failed to update pantry item")] := by
  unfold pantryItemPut at h ⊢
  try dsimp only at h ⊢
  repeat' split at h
  all_goals simp_all

/-- The 500 of the handler `pantryItemDelete` carries the text of its `catch` block. -/
theorem pantryItemDelete_failure (db : Db) (req : Request)
    (h : (pantryItemDelete db req).response.status = 500) :
    (pantryItemDelete db req).response.body = .obj [("error", .str "Failed to delete pantry item")] := by
  unfold pantryItemDelete at h ⊢
  try dsimp only at h ⊢
  repeat' split at h
  all_goals simp_all

/-- The 500 of the handler `shoppingListCreate` carries the text of its `catch` block. -/
theorem shoppingListCreate_failure (db : Db) (req : Request)
    (h : (shoppingListCreate db req).response.status = 500) :
    (shoppingListCreate db req).response.body = .obj [("error", .str "Failed to create shopping list")] := by
  unfold shoppingListCreate createChildren at h ⊢
  try dsimp only at h ⊢
  repeat' split at h
  all_goals simp_all

/-- The 500 of the handler `shoppingListsGet` carries the text of its `catch` block. -/
theorem shoppingListsGet_failure (db : Db) (req : Request)
    (h : (shoppingListsGet db req).response.status = 500) :
    (shoppingListsGet db req).response.body = .obj [("error", .str "Failed to fetch shopping lists")] := by
  unfold shoppingListsGet listOwned at h ⊢
  try dsimp only at h ⊢
  repeat' split at h
  all_goals simp_all

/-- The 500 of the handler `shoppingListGet` carries the text of its `catch` block. -/
theorem shoppingListGet_failure (db : Db) (req : Request)
    (h : (shoppingListGet db req).response.status = 500) :
    (shoppingListGet db req).response.body = .obj [("error", .str "Failed to fetch shopping list items")] := by
  unfold shoppingListGet at h ⊢
  try dsimp only at h ⊢
  repeat' split at h
  all_goals simp_all

/-- The 500 of the handler `shoppingListAdd` carries the text of its `catch` block. -/
theorem shoppingListAdd_failure (db : Db) (req : Request)
    (h : (shoppingListAdd db req).response.status = 500) :
    (shoppingListAdd db req).response.body = .obj [("error", .str "Failed to add items to shopping list")] := by
  unfold shoppingListAdd at h ⊢
  try dsimp only at h ⊢
  repeat' split at h
  all_goals simp_all

/-- The 500 of the handler `shoppingListItemPut` carries the text of its `catch` block. -/
theorem shoppingListItemPut_failure (db : Db) (req : Request)
    (h : (shoppingListItemPut db req).response.status = 500) :
    (shoppingListItemPut db req).response.body = .obj [("error", .str "Failed to update shopping list item")] := by
  unfold shoppingListItemPut at h ⊢
  try dsimp only at h ⊢
  repeat' split at h
  all_goals simp_all

/-- The 500 of the handler `mealPlanCreate` carries the text of its `catch` block. -/
theorem mealPlanCreate_failure (db : Db) (req : Request)
    (h : (mealPlanCreate db req).response.status = 500) :
    (mealPlanCreate db req).response.body = .obj [("error", .str "Failed to create meal plan")] := by
  unfold mealPlanCreate createChildren at h ⊢
  try dsimp only at h ⊢
  repeat' split at h
  all_goals simp_all

/-- The 500 of the handler `mealPlansGet` carries the text of its `catch` block. -/
theorem mealPlansGet_failure (db : Db) (req : Request)
    (h : (mealPlansGet db req).response.status = 500) :
    (mealPlansGet db req).response.body = .obj [("error", .str "Failed to fetch meal plans")] := by
  unfold mealPlansGet listOwned at h ⊢
  try dsimp only at h ⊢
  repeat' split at h
  all_goals simp_all

/-- The 500 of the handler `mealPlanGet` carries the text of its `catch` block. -/
theorem mealPlanGet_failure (db : Db) (req : Request)
    (h : (mealPlanGet db req).response.status = 500) :
    (mealPlanGet db req).response.body = .obj [("error", .str "Failed to fetch meal plan details")] := by
  unfold mealPlanGet at h ⊢
  try dsimp only at h ⊢
  repeat' split at h
  all_goals simp_all

/-- The 500 of the handler `recipeSave` carries the text of its `catch` block. -/
theorem recipeSave_failure (db : Db) (req : Request)
    (h : (recipeSave db req).response.status = 500) :
    (recipeSave db req).response.body = .obj [("error", .str "Failed to save recipe")] := by
  unfold recipeSave at h ⊢
  try dsimp only at h ⊢
  repeat' split at h
  all_goals simp_all

/-- The 500 of the handler `recipesGet` carries the text of its `catch` block. -/
theorem recipesGet_failure (db : Db) (req : Request)
    (h : (recipesGet db req).response.status = 500) :
    (recipesGet db req).response.body = .obj [("error", .str "Failed to fetch recipes")] := by
  unfold recipesGet listOwned at h ⊢
  try dsimp only at h ⊢
  repeat' split at h
  all_goals simp_all

/-- The 500 of the handler `recipeGet` carries the text of its `catch` block. -/
theorem recipeGet_failure (db : Db) (req : Request)
    (h : (recipeGet db req).response.status = 500) :
    (recipeGet db req).response.body = .obj [("error", .str "Failed to fetch recipe details")] := by
  unfold recipeGet getDocument at h ⊢
  try dsimp only at h ⊢
  repeat' split at h
  all_goals simp_all

/-- The 500 of the handler `aiChefQuery` carries the text of its `catch` block. -/
theorem aiChefQuery_failure (openai : Option OpenAI) (db : Db) (req : Request)
    (h : (aiChefQuery openai db req).response.status = 500) :
    (aiChefQuery openai db req).response.body = .obj [("error", .str "Failed to process query")] := by
  unfold aiChefQuery at h ⊢
  try dsimp only at h ⊢
  repeat' split at h
  all_goals simp_all

/-- The 500 of the handler `recipesSearch` carries the text of its `catch` block. -/
theorem recipesSearch_failure (openai : Option OpenAI) (jsonParse : JsVal → Except String JsVal) (toLowerCase : String → String) (db : Db) (req : Request)
    (h : (recipesSearch openai jsonParse toLowerCase db req).response.status = 500) :
    (recipesSearch openai jsonParse toLowerCase db req).response.body = .obj [("error", .str "Failed to search recipes")] := by
  unfold recipesSearch at h ⊢
  try dsimp only at h ⊢
  repeat' split at h
  all_goals simp_all

/-- The 500 of the handler `foodSearch` carries the text of its `catch` block. -/
theorem foodSearch_failure (edamam : JsVal → Except String JsVal) (urlQuery : JsVal) (req : Request)
    (h : (foodSearch edamam urlQuery req).response.status = 500) :
    (foodSearch edamam urlQuery req).response.body = .obj [("error", .str "Failed to search food database")] := by
  unfold foodSearch at h ⊢
  try dsimp only at h ⊢
  repeat' split at h
  all_goals simp_all

/-- The 500 of the handler `foodNutrition` carries the text of its `catch` block. -/
theorem foodNutrition_failure (req : Request)
    (h : (foodNutrition req).response.status = 500) :
    (foodNutrition req).response.body = .obj [("error", .str "Failed to fetch nutrition information")] := by
  unfold foodNutrition at h ⊢
  try dsimp only at h ⊢
  repeat' split at h
  all_goals simp_all

/-- The 500 of the handler `receiptProcess` carries the text of its `catch` block. -/
theorem receiptProcess_failure (nowIso : String) (req : Request)
    (h : (receiptProcess nowIso req).response.status = 500) :
    (receiptProcess nowIso req).response.body = .obj [("error", .str "Failed to process receipt")] := by
  unfold receiptProcess at h ⊢
  try dsimp only at h ⊢
  repeat' split at h
  all_goals simp_all

/-- The 500 of the handler `barcodeProcess` carries the text of its `catch` block. -/
theorem barcodeProcess_failure (req : Request)
    (h : (barcodeProcess req).response.status = 500) :
    (barcodeProcess req).response.body = .obj [("error", .str "Failed to process barcode")] := by
  unfold barcodeProcess at h ⊢
  try dsimp only at h ⊢
  repeat' split at h
  all_goals simp_all

/-- The 500 of the handler `micronutritionAnalyze` carries the text of its `catch` block. -/
theorem micronutritionAnalyze_failure (openai : Option OpenAI) (req : Request)
    (h : (micronutritionAnalyze openai req).response.status = 500) :
    (micronutritionAnalyze openai req).response.body = .obj [("error", .str "Failed to analyze micronutrition")] := by
  unfold micronutritionAnalyze at h ⊢
  try dsimp only at h ⊢
  repeat' split at h
  all_goals simp_all

/-- The 500 of the handler `foodRecognize` carries the text of its `catch` block. -/
theorem foodRecognize_failure (openai : Option OpenAI) (parse : JsVal → JsVal) (db : Db) (req : Request)
    (h : (foodRecognize openai parse db req).response.status = 500) :
    (foodRecognize openai parse db req).response.body = .obj [("error", .str "Failed to recognize food items")] := by
  unfold foodRecognize at h ⊢
  try dsimp only at h ⊢
  repeat' split at h
  all_goals simp_all

/-- The 500 of the handler `receiptScan` carries the text of its `catch` block. -/
theorem receiptScan_failure (openai : Option OpenAI) (parse : JsVal → JsVal) (db : Db) (req : Request)
    (h : (receiptScan openai parse db req).response.status = 500) :
    (receiptScan openai parse db req).response.body = .obj [("error", .str "Failed to scan receipt")] := by
  unfold receiptScan at h ⊢
  try dsimp only at h ⊢
  repeat' split at h
  all_goals simp_all

/-- A 500 of any handler other than the one of `POST /user/profile` has the body
`{error: text}` with the text of the route. -/
theorem handlers_failure (s : Services) (urlQuery : JsVal) (route : Route) (req : Request)
    (hroute : route ≠ .userProfilePost)
    (h : (handlers s urlQuery route req).response.status = 500) :
    ∃ text, failureText route = some text ∧
      (handlers s urlQuery route req).response.body = .obj [("error", .str text)] := by
  cases route with
  | health => simp [handlers, health] at h
  | userProfilePost => exact absurd rfl hroute
  | userProfileGet => exact ⟨_, rfl, userProfileGet_failure _ req h⟩
  | pantryAdd => exact ⟨_, rfl, pantryAdd_failure _ req h⟩
  | pantryGet => exact ⟨_, rfl, pantryGet_failure _ req h⟩
  | pantryItemPut => exact ⟨_, rfl, pantryItemPut_failure _ req h⟩
  | pantryItemDelete => exact ⟨_, rfl, pantryItemDelete_failure _ req h⟩
  | shoppingListCreate => exact ⟨_, rfl, shoppingListCreate_failure _ req h⟩
  | shoppingListsGet => exact ⟨_, rfl, shoppingListsGet_failure _ req h⟩
  | shoppingListGet => exact ⟨_, rfl, shoppingListGet_failure _ req h⟩
  | shoppingListAdd => exact ⟨_, rfl, shoppingListAdd_failure _ req h⟩
  | shoppingListItemPut => exact ⟨_, rfl, shoppingListItemPut_failure _ req h⟩
  | mealPlanCreate => exact ⟨_, rfl, mealPlanCreate_failure _ req h⟩
  | mealPlansGet => exact ⟨_, rfl, mealPlansGet_failure _ req h⟩
  | mealPlanGet => exact ⟨_, rfl, mealPlanGet_failure _ req h⟩
  | recipeSave => exact ⟨_, rfl, recipeSave_failure _ req h⟩
  | recipesGet => exact ⟨_, rfl, recipesGet_failure _ req h⟩
  | recipeGet => exact ⟨_, rfl, recipeGet_failure _ req h⟩
  | aiChefQuery => exact ⟨_, rfl, aiChefQuery_failure _ _ req h⟩
  | recipesSearch => exact ⟨_, rfl, recipesSearch_failure _ _ _ _ req h⟩
  | foodSearch => exact ⟨_, rfl, foodSearch_failure _ _ req h⟩
  | foodNutrition => exact ⟨_, rfl, foodNutrition_failure req h⟩
  | receiptProcess => exact ⟨_, rfl, receiptProcess_failure _ req h⟩
  | barcodeProcess => exact ⟨_, rfl, barcodeProcess_failure req h⟩
  | micronutritionAnalyze => exact ⟨_, rfl, micronutritionAnalyze_failure _ req h⟩
  | foodRecognize => exact ⟨_, rfl, foodRecognize_failure _ _ _ req h⟩
  | receiptScan => exact ⟨_, rfl, receiptScan_failure _ _ _ req h⟩

/-- A path parameter is never empty: every value that `matchSegs` collects is a
non-empty segment. -/
theorem matchSegs_nonempty (pattern : List Seg) :
    ∀ (segments : List String) (params : List (String × String)),
      matchSegs pattern segments = some params → ∀ kv ∈ params, kv.2 ≠ "" := by
  induction pattern with
  | nil =>
    intro segments params h kv hkv
    cases segments with
    | nil => simp [matchSegs] at h; subst h; cases hkv
    | cons seg segs => simp [matchSegs] at h
  | cons p pattern ih =>
    intro segments params h kv hkv
    cases segments with
    | nil => cases p <;> simp [matchSegs] at h
    | cons seg segs =>
      cases p with
      | lit s =>
        simp only [matchSegs] at h
        split at h
        · exact ih segs params h kv hkv
        · cases h
      | par name =>
        simp only [matchSegs] at h
        split at h
        · cases h
        · rename_i hne
          cases hm : matchSegs pattern segs with
          | none => simp [hm] at h
          | some ps =>
            simp only [hm, Option.map_some', Option.some.injEq] at h
            subst h
            rcases List.mem_cons.1 hkv with hkv | hkv
            · subst hkv
              simpa using hne
            · exact ih segs ps hm kv hkv

/-- A value found by `lookup` is the second component of an entry. -/
theorem mem_of_lookup {α β : Type} [BEq α] [LawfulBEq α] (k : α) (v : β) :
    ∀ (l : List (α × β)), l.lookup k = some v → (k, v) ∈ l := by
  intro l
  induction l with
  | nil => intro h; cases h
  | cons p ps ih =>
    intro h
    obtain ⟨a, b⟩ := p
    simp only [List.lookup] at h
    split at h
    · rename_i heq
      have : k = a := by simpa using heq
      cases h
      subst this
      exact List.mem_cons_self _ _
    · exact List.mem_cons_of_mem _ (ih h)

/-- With a truthy path parameter `userId`, `authorizeUser` does not read the
body. -/
theorem authorizeUser_path_subject (r : Request) (b : JsVal)
    (h : (r.param "userId").truthy = true) :
    (authorizeUser { r with body := b }).response = (authorizeUser r).response ∧
    (authorizeUser { r with body := b }).nextCalls = (authorizeUser r).nextCalls := by
  have hp : ∀ x : JsVal, Request.param { r with body := x } "userId" = r.param "userId" :=
    fun _ => rfl
  unfold authorizeUser requestUserId
  simp only [hp, h, if_true]
  cases r.user.prop "uid" with
  | error e => exact ⟨rfl, rfl⟩
  | ok uid =>
    simp only [h, Bool.not_true, Bool.false_eq_true, if_false]
    split <;> exact ⟨rfl, rfl⟩

/-- The item document of `POST /pantry/add` holds, for `quantity`, `unit` and
`category`, the value of the entry when that is truthy and the default
otherwise. -/
theorem pantryItemData_defaults (item data : JsVal) (h : pantryItemData item = .ok data) :
    ∃ quantity unit category,
      item.prop "quantity" = .ok quantity ∧ item.prop "unit" = .ok unit ∧
      item.prop "category" = .ok category ∧
      data.prop "quantity" = .ok (if quantity.truthy then quantity else .num 1) ∧
      data.prop "unit" = .ok (if unit.truthy then unit else .str "item") ∧
      data.prop "category" = .ok (if category.truthy then category else .str "uncategorized") := by
  cases item <;>
    simp [pantryItemData, JsVal.prop, bind, Except.bind, pure, Except.pure] at h <;>
    subst h <;> simp [JsVal.prop, JsVal.or, List.lookup]

/-- The item document of the shopping-list routes holds, for `quantity`, `unit`
and `category`, the value of the entry when that is truthy and the default
otherwise. -/
theorem listItemData_defaults (item data : JsVal) (h : listItemData item = .ok (some data)) :
    ∃ quantity unit category,
      item.prop "quantity" = .ok quantity ∧ item.prop "unit" = .ok unit ∧
      item.prop "category" = .ok category ∧
      data.prop "quantity" = .ok (if quantity.truthy then quantity else .num 1) ∧
      data.prop "unit" = .ok (if unit.truthy then unit else .str "item") ∧
      data.prop "category" = .ok (if category.truthy then category else .str "uncategorized") := by
  cases item <;>
    simp [listItemData, JsVal.prop, bind, Except.bind, pure, Except.pure] at h <;>
    (try split at h) <;> simp at h <;>
    subst h <;> simp [JsVal.prop, JsVal.or, List.lookup]

/-- Every write staged by the loop of `POST /pantry/add` is the item document of
an entry. -/
theorem stagePantryItems_entries (db : Db) (ref : DocPath) (items : List JsVal) :
    ∀ n, ∀ w ∈ (stagePantryItems db ref n items).1,
      ∃ item ∈ items, ∃ k data, w = .set (ref ++ ["items", db.autoId k]) data ∧
        pantryItemData item = .ok data := by
  induction items with
  | nil => intro n w hw; simp [stagePantryItems] at hw
  | cons item rest ih =>
    intro n w hw
    unfold stagePantryItems at hw
    split at hw
    · simp at hw
    · split at hw
      · obtain ⟨i, hi, r⟩ := ih n w hw
        exact ⟨i, List.mem_cons_of_mem _ hi, r⟩
      · split at hw
        · simp at hw
        · rename_i data hdata
          simp only [List.mem_cons] at hw
          rcases hw with hw | hw
          · exact ⟨item, List.mem_cons_self _ _, n, data, hw, hdata⟩
          · obtain ⟨i, hi, r⟩ := ih (n + 1) w hw
            exact ⟨i, List.mem_cons_of_mem _ hi, r⟩

/-- Every write staged by a child loop is the document made from an entry. -/
theorem stageChildren_entries (db : Db) (coll : DocPath)
    (mk : JsVal → Except String (Option JsVal)) (children : List JsVal) :
    ∀ n, ∀ w ∈ (stageChildren db coll mk n children).1,
      ∃ child ∈ children, ∃ k data, w = .set (coll ++ [db.autoId k]) data ∧
        mk child = .ok (some data) := by
  induction children with
  | nil => intro n w hw; simp [stageChildren] at hw
  | cons child rest ih =>
    intro n w hw
    unfold stageChildren at hw
    split at hw
    · simp at hw
    · obtain ⟨i, hi, r⟩ := ih n w hw
      exact ⟨i, List.mem_cons_of_mem _ hi, r⟩
    · rename_i data hdata
      simp only [List.mem_cons] at hw
      rcases hw with hw | hw
      · exact ⟨child, List.mem_cons_self _ _, n, data, hw, hdata⟩
      · obtain ⟨i, hi, r⟩ := ih (n + 1) w hw
        exact ⟨i, List.mem_cons_of_mem _ hi, r⟩

/-- What the end of `POST /pantry/add` has staged is the batch built. -/
theorem pantryCommit_staged (db : Db) (ref : DocPath) (batch : List Write × Option String) :
    stagedOf (pantryCommit db ref batch).ops = batch.1 := by
  unfold pantryCommit
  have h := stagedOf_batch_append batch.1 []
  have h2 := stagedOf_batch_append batch.1 [.batchCommit batch.1]
  simp only [List.append_nil] at h
  repeat' split
  all_goals simp_all [stagedOf]

/-- What the second part of a create handler has staged, when nothing was
staged before, comes from the child loop. -/
theorem createChildren_staged (db : Db) (coll : DocPath)
    (mk : JsVal → Except String (Option JsVal)) (children : JsVal) (done : List StoreOp)
    (ok failed : Response) (hdone : stagedOf done = []) :
    ∀ w ∈ stagedOf (createChildren db coll mk children done ok failed).ops,
      w ∈ (stageChildren db coll mk 1 children.elems).1 := by
  have happ : ∀ a b : List StoreOp, stagedOf (a ++ b) = stagedOf a ++ stagedOf b := by
    intro a b
    induction a with
    | nil => rfl
    | cons x xs ih => cases x <;> simp [stagedOf, ih]
  have h := stagedOf_batch_append (stageChildren db coll mk 1 children.elems).1 []
  have h2 := stagedOf_batch_append (stageChildren db coll mk 1 children.elems).1
    [.batchCommit (stageChildren db coll mk 1 children.elems).1]
  simp only [List.append_nil] at h
  intro w hw
  unfold createChildren at hw
  split at hw
  · cases hl : (stageChildren db coll mk 1 children.elems).2 with
    | some e =>
      simpa [hl, happ, hdone, h, stagedOf] using hw
    | none =>
      simp only [hl] at hw
      cases hc : db.commit (stageChildren db coll mk 1 children.elems).1 with
      | error e =>
        simpa [hc, happ, hdone, h, stagedOf] using hw
      | ok u =>
        simpa [hc, happ, hdone, h, stagedOf] using hw
  · simp [hdone] at hw

/-- A persisted write was sent on its own or in a committed batch. -/
theorem mem_persistedOf (db : Db) (w : Write) :
    ∀ ops : List StoreOp, w ∈ persistedOf db ops →
      StoreOp.write w ∈ ops ∨ ∃ ws, StoreOp.batchCommit ws ∈ ops ∧ w ∈ ws := by
  intro ops
  induction ops with
  | nil => intro h; simp [persistedOf] at h
  | cons op rest ih =>
    intro h
    have lift : (StoreOp.write w ∈ rest ∨ ∃ ws, StoreOp.batchCommit ws ∈ rest ∧ w ∈ ws) →
        StoreOp.write w ∈ op :: rest ∨ ∃ ws, StoreOp.batchCommit ws ∈ op :: rest ∧ w ∈ ws := by
      rintro (h | ⟨ws, h1, h2⟩)
      · exact Or.inl (List.mem_cons_of_mem _ h)
      · exact Or.inr ⟨ws, List.mem_cons_of_mem _ h1, h2⟩
    cases op with
    | get ref => exact lift (ih (by simpa [persistedOf] using h))
    | list coll => exact lift (ih (by simpa [persistedOf] using h))
    | batch w2 => exact lift (ih (by simpa [persistedOf] using h))
    | query q => exact lift (ih (by simpa [persistedOf] using h))
    | write w2 =>
      simp only [persistedOf, List.mem_append] at h
      rcases h with h | h
      · split at h
        · simp only [List.mem_singleton] at h
          subst h
          exact Or.inl (List.mem_cons_self _ _)
        · cases h
      · exact lift (ih h)
    | batchCommit ws =>
      simp only [persistedOf, List.mem_append] at h
      rcases h with h | h
      · split at h
        · exact Or.inr ⟨ws, List.mem_cons_self _ _, h⟩
        · cases h
      · exact lift (ih h)

/-- When `authorizeUser` passes a request on, the request carries a principal,
and the subject it names is falsy or strictly equal to the uid of the
principal. -/
theorem authorizeUser_passed (r : Request) (h : (authorizeUser r).response = none) :
    ∃ uid subject, r.user.prop "uid" = .ok uid ∧ requestUserId r = .ok subject ∧
      (subject.truthy = false ∨ JsVal.strictEq uid subject = true) := by
  unfold authorizeUser at h
  split at h
  · cases h
  · rename_i uid huid
    split at h
    · cases h
    · rename_i subject hsub
      refine ⟨uid, subject, huid, hsub, ?_⟩
      split at h
      · rename_i ht
        exact Or.inl (by simpa using ht)
      · split at h
        · cases h
        · rename_i hs
          exact Or.inr (by simpa using hs)

/-- A value strictly equal to a string is that string. -/
theorem strictEq_str_right (v : JsVal) (u : String) (h : JsVal.strictEq v (.str u) = true) :
    v = .str u := by
  cases v <;> simp [JsVal.strictEq] at h
  rw [h]

/-- The end of `POST /pantry/add` sends no single write. -/
theorem pantryCommit_no_write (db : Db) (ref : DocPath) (batch : List Write × Option String)
    (w : Write) : StoreOp.write w ∉ (pantryCommit db ref batch).ops := by
  unfold pantryCommit
  repeat' split
  all_goals simp

/-- A reference made by `docRef` is the collection path followed by the id,
which is a string. -/
theorem docRef_ok (coll : DocPath) (id : JsVal) (ref : DocPath) (h : docRef coll id = .ok ref) :
    ∃ s, id = .str s ∧ ref = coll ++ [s] := by
  unfold docRef at h
  split at h
  · rename_i s
    split at h
    · cases h
    · cases h
      exact ⟨s, rfl, rfl⟩
  · cases h

/-- The documents that a successful `POST /pantry/add` persists lie under the
pantry of the subject named in the body, which is the principal when
`authorizeUser` has compared the two. -/
theorem pantryAdd_owned (db : Db) (r : Request) (uid : JsVal) (w : Write)
    (hsub : ∀ subject, r.body.prop "userId" = .ok subject → subject.truthy = true →
      JsVal.strictEq uid subject = true)
    (hw : w ∈ persistedOf db (pantryAdd db r).ops) :
    ownedBy uid w ∧ ∃ u, uid = .str u ∧ w.ref.take 2 = ["pantries", u] := by
  unfold pantryAdd at hw
  split at hw
  · rename_i userId items hu hi
    split at hw
    · simp [persistedOf] at hw
    · rename_i hvalid
      have htruthy : userId.truthy = true := by
        cases ht : userId.truthy with
        | true => rfl
        | false => simp [ht] at hvalid
      split at hw
      · simp [persistedOf] at hw
      · rename_i pantryRef href
        obtain ⟨u, hu2, href2⟩ := docRef_ok _ _ _ href
        subst hu2
        have huid : uid = .str u := strictEq_str_right uid u (hsub _ hu htruthy)
        subst huid href2
        split at hw
        · simp [persistedOf] at hw
        · rcases mem_persistedOf _ _ _ hw with h | ⟨ws, h1, h2⟩
          · exact absurd h (pantryCommit_no_write _ _ _ _)
          · have := pantryCommit_commits _ _ _ _ h1
            subst this
            unfold pantryBatch at h2
            simp only [List.mem_append] at h2
            rcases h2 with h2 | h2
            · split at h2
              · simp at h2
              · simp only [List.mem_singleton] at h2
                subst h2
                refine ⟨fun _ => ⟨_, .str u, rfl, rfl, ?_⟩, u, rfl, rfl⟩
                simp [JsVal.strictEq]
            · obtain ⟨k, data, hk⟩ := stagePantryItems_refs _ _ _ _ _ h2
              subst hk
              refine ⟨fun hlen => ?_, u, rfl, rfl⟩
              simp [Write.ref] at hlen
  · simp [persistedOf] at hw

/-- A child loop writes below its collection. -/
theorem stageChildren_refs (db : Db) (coll : DocPath)
    (mk : JsVal → Except String (Option JsVal)) (children : List JsVal) (n : Nat) (w : Write)
    (h : w ∈ (stageChildren db coll mk n children).1) : w.ref.length = coll.length + 1 := by
  obtain ⟨_, _, k, data, hw, _⟩ := stageChildren_entries db coll mk children n w h
  subst hw
  simp [Write.ref]

/-- The writes that the second part of a create handler persists are the ones
persisted before or come from the child loop. -/
theorem createChildren_persisted (db : Db) (coll : DocPath)
    (mk : JsVal → Except String (Option JsVal)) (children : JsVal) (done : List StoreOp)
    (ok failed : Response) (w : Write)
    (h : w ∈ persistedOf db (createChildren db coll mk children done ok failed).ops) :
    w ∈ persistedOf db done ∨ w ∈ (stageChildren db coll mk 1 children.elems).1 := by
  have happ : ∀ a b : List StoreOp, persistedOf db (a ++ b) = persistedOf db a ++ persistedOf db b := by
    intro a b
    induction a with
    | nil => rfl
    | cons x xs ih => cases x <;> simp [persistedOf, ih]
  have hb := persistedOf_batch_append db (stageChildren db coll mk 1 children.elems).1 []
  simp only [List.append_nil] at hb
  unfold createChildren at h
  split at h
  · cases hl : (stageChildren db coll mk 1 children.elems).2 with
    | some e =>
      simp only [hl, happ, hb, List.mem_append] at h
      rcases h with h | h
      · exact Or.inl h
      · simp [persistedOf] at h
    | none =>
      simp only [hl] at h
      cases hc : db.commit (stageChildren db coll mk 1 children.elems).1 with
      | error e =>
        simp only [hc, happ, hb, persistedOf, List.mem_append, List.append_nil,
          List.not_mem_nil, or_false] at h
        exact Or.inl h
      | ok u =>
        simp only [hc, happ, hb, persistedOf, List.mem_append, List.append_nil,
          List.not_mem_nil, false_or] at h
        exact h
  · exact Or.inl h

/-- The container that `POST /shopping-list/create` persists names the subject
of the body. -/
theorem shoppingListCreate_owned (db : Db) (r : Request) (uid : JsVal) (w : Write)
    (hsub : ∀ subject, r.body.prop "userId" = .ok subject → subject.truthy = true →
      JsVal.strictEq uid subject = true)
    (hw : w ∈ persistedOf db (shoppingListCreate db r).ops) : ownedBy uid w := by
  unfold shoppingListCreate at hw
  split at hw
  · rename_i userId name items hu hn hi
    simp only at hw
    split at hw
    · simp [persistedOf] at hw
    · rename_i hvalid
      have htruthy : userId.truthy = true := by simpa using hvalid
      split at hw
      · rename_i hwr
        simp [persistedOf, hwr] at hw
      · rename_i hwr
        rcases createChildren_persisted _ _ _ _ _ _ _ _ hw with h | h
        · simp only [persistedOf, hwr, List.append_nil, List.mem_singleton] at h
          subst h
          exact fun _ => ⟨_, userId, rfl, rfl, hsub _ hu htruthy⟩
        · intro hlen
          have := stageChildren_refs _ _ _ _ _ _ h
          rw [this] at hlen
          simp at hlen
  · simp [persistedOf] at hw

/-- The container that `POST /meal-plan/create` persists names the subject of
the body. -/
theorem mealPlanCreate_owned (db : Db) (r : Request) (uid : JsVal) (w : Write)
    (hsub : ∀ subject, r.body.prop "userId" = .ok subject → subject.truthy = true →
      JsVal.strictEq uid subject = true)
    (hw : w ∈ persistedOf db (mealPlanCreate db r).ops) : ownedBy uid w := by
  unfold mealPlanCreate at hw
  split at hw
  · rename_i userId name startDate endDate meals hu hn hs he hm
    simp only at hw
    split at hw
    · simp [persistedOf] at hw
    · rename_i hvalid
      have htruthy : userId.truthy = true := by
        cases ht : userId.truthy with
        | true => rfl
        | false => simp [ht] at hvalid
      split at hw
      · rename_i hwr
        simp [persistedOf, hwr] at hw
      · rename_i hwr
        rcases createChildren_persisted _ _ _ _ _ _ _ _ hw with h | h
        · simp only [persistedOf, hwr, List.append_nil, List.mem_singleton] at h
          subst h
          exact fun _ => ⟨_, userId, rfl, rfl, hsub _ hu htruthy⟩
        · intro hlen
          have := stageChildren_refs _ _ _ _ _ _ h
          rw [this] at hlen
          simp at hlen
  · simp [persistedOf] at hw

/-- The recipe that `POST /recipe/save` persists names the subject of the
body. -/
theorem recipeSave_owned (db : Db) (r : Request) (uid : JsVal) (w : Write)
    (hsub : ∀ subject, r.body.prop "userId" = .ok subject → subject.truthy = true →
      JsVal.strictEq uid subject = true)
    (hw : w ∈ persistedOf db (recipeSave db r).ops) : ownedBy uid w := by
  unfold recipeSave at hw
  simp only at hw
  split at hw
  · rename_i userId recipe hu hr
    split at hw
    · simp [persistedOf] at hw
    · rename_i hvalid
      have htruthy : userId.truthy = true := by
        cases ht : userId.truthy with
        | true => rfl
        | false => simp [ht] at hvalid
      split at hw
      · simp [persistedOf] at hw
      · rename_i data hdata
        have hd : data.prop "userId" = .ok userId := by
          cases recipe <;>
            simp [recipeData, JsVal.prop, bind, Except.bind, pure, Except.pure] at hdata <;>
            subst hdata <;> simp [JsVal.prop, List.lookup]
        split at hw
        · rename_i hwr
          simp [persistedOf, hwr] at hw
        · rename_i hwr
          simp only [persistedOf, hwr, List.append_nil, List.mem_singleton] at hw
          subst hw
          exact fun _ => ⟨_, userId, rfl, hd, hsub _ hu htruthy⟩
  · simp [persistedOf] at hw

/-- A handler behind `authorizeUser` is entered with the request given to the
stack, and only after `authorizeUser` has passed that request on. -/
theorem runRoute_authorized (verifyIdToken : Verifier)
    (handlers : Route → Request → HandlerResult) (decl : RouteDecl) (r0 r : Request)
    (route : Route) (hg : decl.guard = .authorize)
    (h : Step.handler route r ∈ (runRoute verifyIdToken handlers decl r0).steps) :
    r = r0 ∧ (authorizeUser r0).response = none := by
  unfold runRoute at h
  simp only [hg] at h
  rcases authorizeUser_cases r0 with hr | ⟨body, hr⟩
  · simp only [hr, List.mem_cons, List.mem_singleton, List.not_mem_nil, or_false] at h
    rcases h with h | h
    · cases h
    · cases h
      exact ⟨rfl, by rw [hr]⟩
  · simp [hr] at h

/-- A handler behind `authorizeUser` that the application enters off the
liveness path sees the request with the decoded token of its bearer as
principal and the params of the match, and `authorizeUser` has passed that
request on. -/
theorem app_authorized (verifyIdToken : Verifier) (handlers : Route → Request → HandlerResult)
    (req r : Request) (route : Route) (decl : RouteDecl) (params : List (String × String))
    (hm : matchRoute req.method req.path = some (decl, params))
    (hg : decl.guard = .authorize) (hne : req.path ≠ "/health")
    (h : Step.handler route r ∈ (app verifyIdToken handlers req).steps) :
    ∃ hd d, req.authorization = some hd ∧ verifyIdToken (idTokenOf hd) = .ok d ∧
      r = { req with user := d, params := params } ∧ (authorizeUser r).response = none := by
  unfold app at h
  rw [authGate_other verifyIdToken req hne] at h
  rcases authenticateUser_cases verifyIdToken req with
    ⟨body, hr, _, _⟩ | ⟨hd, e, hauth, hst, hv, hr⟩ | ⟨hd, d, hauth, hst, hv, hr⟩
  · simp [hr] at h
  · simp [hr] at h
  · simp only [hr, hm, if_true, List.singleton_append, List.mem_cons] at h
    rcases h with h | h
    · cases h
    · obtain ⟨h1, h2⟩ := runRoute_authorized _ _ _ _ _ _ hg h
      subst h1
      exact ⟨hd, d, hauth, hv, rfl, h2⟩

/-- The route that method and path are dispatched to is a declared route whose
pattern matches the path. -/
theorem matchRoute_mem (method : Method) (path : String) (decl : RouteDecl)
    (params : List (String × String)) (h : matchRoute method path = some (decl, params)) :
    decl ∈ routes ∧ matchSegs decl.pattern (pathSegments path) = some params := by
  unfold matchRoute at h
  obtain ⟨d, hd, hf⟩ := List.exists_of_findSome?_eq_some h
  split at hf
  · cases hs : matchSegs d.pattern (pathSegments path) with
    | none => simp [hs] at hf
    | some ps =>
      simp only [hs, Option.map_some', Option.some.injEq, Prod.mk.injEq] at hf
      obtain ⟨h1, h2⟩ := hf
      subst h1 h2
      exact ⟨hd, hs⟩
  · cases hf

/-- A pattern of two literals yields no params. -/
theorem matchSegs_literals (a b : String) (segments : List String)
    (params : List (String × String))
    (h : matchSegs [.lit a, .lit b] segments = some params) : params = [] := by
  match segments, h with
  | [], h => simp [matchSegs] at h
  | [_], h =>
    simp only [matchSegs] at h
    split at h <;> simp at h
  | [_, _], h =>
    simp only [matchSegs] at h
    split at h
    · split at h
      · simpa using h.symm
      · cases h
    · cases h
  | _ :: _ :: _ :: _, h =>
    simp only [matchSegs] at h
    split at h
    · split at h
      · cases h
      · cases h
    · cases h

/-- The four create routes are declared behind `authorizeUser`, and their
patterns have no parameters. -/
theorem create_routes_declared (decl : RouteDecl) (hmem : decl ∈ routes)
    (hroute : decl.route = .pantryAdd ∨ decl.route = .shoppingListCreate ∨
      decl.route = .mealPlanCreate ∨ decl.route = .recipeSave) :
    decl.guard = .authorize ∧ ∃ a b, decl.pattern = [.lit a, .lit b] := by
  simp only [routes, List.mem_cons, List.mem_singleton, List.not_mem_nil, or_false] at hmem
  rcases hmem with h | h | h | h | h | h | h | h | h | h | h | h | h | h | h | h | h | h | h |
    h | h | h | h | h | h | h | h
  all_goals
    subst h
    first
      | exact ⟨rfl, _, _, rfl⟩
      | (exfalso; revert hroute; decide)

/-- The liveness path is dispatched to no create route. -/
theorem matchRoute_health (method : Method) (decl : RouteDecl)
    (params : List (String × String)) (h : matchRoute method "/health" = some (decl, params)) :
    decl.route = .health := by
  cases method with
  | GET =>
    have e : matchRoute .GET "/health" =
        some (⟨.GET, [.lit "health"], .unguarded, .health⟩, []) := rfl
    rw [e] at h
    cases h
    rfl
  | POST =>
    have e : matchRoute .POST "/health" = none := rfl
    rw [e] at h
    cases h
  | PUT =>
    have e : matchRoute .PUT "/health" = none := rfl
    rw [e] at h
    cases h
  | DELETE =>
    have e : matchRoute .DELETE "/health" = none := rfl
    rw [e] at h
    cases h
  | OTHER =>
    have e : matchRoute .OTHER "/health" = none := rfl
    rw [e] at h
    cases h

/-- The item loop of `functions/index.js` stages what the item loop of
`backend/main.js` stages. -/
theorem stageItems_eq (db : Db) (ref : DocPath) (items : List JsVal) :
    ∀ n, FunctionsIndex.stageItems db ref n items = stagePantryItems db ref n items := by
  induction items with
  | nil => intro n; rfl
  | cons item rest ih =>
    intro n
    unfold FunctionsIndex.stageItems stagePantryItems pantryItemData
    cases item <;> simp [JsVal.prop, ih, bind, Except.bind, pure, Except.pure]

/-- The item loop of `POST /shopping-list/create` in `functions/index.js` stages
what the one of `backend/main.js` stages. -/
theorem stageListItems_eq (db : Db) (ref : DocPath) (items : List JsVal) :
    ∀ n, FunctionsIndex.stageListItems db ref n items =
      stageChildren db (ref ++ ["items"]) listItemData n items := by
  induction items with
  | nil => intro n; rfl
  | cons item rest ih =>
    intro n
    unfold FunctionsIndex.stageListItems stageChildren
    cases item <;>
      simp [listItemData, JsVal.prop, JsVal.truthy, ih, bind, Except.bind, pure, Except.pure]
    split <;> simp [ih]

/-- The meal loop of `functions/index.js` stages what the one of
`backend/main.js` stages. -/
theorem stageMeals_eq (db : Db) (ref : DocPath) (meals : List JsVal) :
    ∀ n, FunctionsIndex.stageMeals db ref n meals =
      stageChildren db (ref ++ ["meals"]) mealData n meals := by
  induction meals with
  | nil => intro n; rfl
  | cons meal rest ih =>
    intro n
    unfold FunctionsIndex.stageMeals stageChildren
    cases meal <;>
      simp [mealData, JsVal.prop, JsVal.truthy, ih, bind, Except.bind, pure, Except.pure]
    split <;> simp [ih]

/-- The handler of `POST /pantry/add` in `functions/index.js` is the one of
`backend/main.js`. -/
theorem pantryAdd_eq (db : Db) (req : Request) :
    FunctionsIndex.pantryAdd db req = pantryAdd db req := by
  unfold FunctionsIndex.pantryAdd pantryAdd pantryCommit pantryBatch
  simp only [stageItems_eq, pantryContainer, pantryAddFailed, pantryAddBadRequest, pantryAddOk]
  repeat' split
  all_goals simp_all

/-- The handler of `POST /shopping-list/create` in `functions/index.js` is the
one of `backend/main.js`. -/
theorem shoppingListCreate_eq (db : Db) (req : Request) :
    FunctionsIndex.shoppingListCreate db req = shoppingListCreate db req := by
  unfold FunctionsIndex.shoppingListCreate shoppingListCreate createChildren
  simp only [stageListItems_eq]
  repeat' split
  all_goals simp_all [JsVal.truthy, JsVal.isArray, JsVal.nonEmptyArray, JsVal.elems]

/-- The handler of `POST /meal-plan/create` in `functions/index.js` is the one
of `backend/main.js`. -/
theorem mealPlanCreate_eq (db : Db) (req : Request) :
    FunctionsIndex.mealPlanCreate db req = mealPlanCreate db req := by
  unfold FunctionsIndex.mealPlanCreate mealPlanCreate createChildren
  simp only [stageMeals_eq]
  repeat' split
  all_goals simp_all [JsVal.truthy, JsVal.isArray, JsVal.nonEmptyArray, JsVal.elems]

/-! ## Claims -/

/-- C1: `authenticateUser` rejects every request without a valid bearer
credential. Whenever the Authorization header is absent, does not start with
"Bearer ", or carries a token that `verifyIdToken` rejects (the token being the
one `authenticateUser` takes from the header), the response is a 401 whose body
has `success: false`, `next` is not called and the request context, `req.user`
included, is left as it was, whatever the body of the request is; when the header
is absent or malformed the identity provider is not called at all. -/
theorem authenticateUser_rejects_invalid_credential (verifyIdToken : Verifier) (req : Request)
    (h : req.authorization = none ∨
      (∃ hd, req.authorization = some hd ∧ startsWith hd "Bearer " = false) ∨
      (∃ hd e, req.authorization = some hd ∧ verifyIdToken (idTokenOf hd) = .error e)) :
    (∃ body, (authenticateUser verifyIdToken req).response = some ⟨401, body⟩ ∧
      body.prop "success" = .ok (.bool false)) ∧
    (authenticateUser verifyIdToken req).nextCalls = 0 ∧
    (authenticateUser verifyIdToken req).req = req ∧
    (authenticateUser verifyIdToken req).req.user = req.user ∧
    ((req.authorization = none ∨
        ∃ hd, req.authorization = some hd ∧ startsWith hd "Bearer " = false) →
      (authenticateUser verifyIdToken req).verified = []) := by
  rcases authenticateUser_cases verifyIdToken req with
    ⟨body, hr, hb, _⟩ | ⟨hd, e, hauth, hst, hv, hr⟩ | ⟨hd, d, hauth, hst, hv, hr⟩
  · rw [hr]
    exact ⟨⟨body, rfl, hb⟩, rfl, rfl, rfl, fun _ => rfl⟩
  · rw [hr]
    refine ⟨⟨invalidTokenBody, rfl, rfl⟩, rfl, rfl, rfl, ?_⟩
    rintro (hnone | ⟨hd2, h2, hst2⟩)
    · rw [hauth] at hnone; cases hnone
    · rw [hauth] at h2; cases h2; rw [hst] at hst2; cases hst2
  · exfalso
    rcases h with hnone | ⟨hd2, h2, hst2⟩ | ⟨hd2, e, h2, hv2⟩
    · rw [hauth] at hnone; cases hnone
    · rw [hauth] at h2; cases h2; rw [hst] at hst2; cases hst2
    · rw [hauth] at h2; cases h2; rw [hv] at hv2; cases hv2

/-- Witness of C1: a request with a bearer header whose token is rejected, and
a body that names a user. -/
theorem authenticateUser_rejects_invalid_credential_witness :
    (∃ body, (authenticateUser rejectAll
        ⟨.POST, "/pantry/add", some "Bearer forged", [], .obj [("userId", .str "u1")],
          .undefined⟩).response = some ⟨401, body⟩ ∧
      body.prop "success" = .ok (.bool false)) ∧
    (authenticateUser rejectAll
        ⟨.POST, "/pantry/add", some "Bearer forged", [], .obj [("userId", .str "u1")],
          .undefined⟩).nextCalls = 0 :=
  let h := authenticateUser_rejects_invalid_credential rejectAll
    ⟨.POST, "/pantry/add", some "Bearer forged", [], .obj [("userId", .str "u1")], .undefined⟩
    (Or.inr (Or.inr ⟨"Bearer forged", "auth/argument-error", rfl, rfl⟩))
  ⟨h.1, h.2.1⟩

/-- C2, counterexample: the principal is `u1`, no path parameter `userId` is
present and the body carries `userId: 0`. The identifier is present (it is not
`undefined`) and is not equal to the principal's uid, yet `authorizeUser` calls
`next` once and sends no response instead of answering 403. -/
theorem authorizeUser_passes_falsy_id :
    falsyIdRequest.user.prop "uid" = .ok (.str "u1") ∧
    falsyIdRequest.params.lookup "userId" = none ∧
    falsyIdRequest.body.prop "userId" = .ok (.num 0) ∧
    JsVal.strictEq (.str "u1") (.num 0) = false ∧
    (authorizeUser falsyIdRequest).nextCalls = 1 ∧
    (authorizeUser falsyIdRequest).response = none :=
  ⟨rfl, rfl, rfl, rfl, rfl, rfl⟩

/-- C2, amended: for a request that carries a principal with uid `u`, let `id`
be the value of `req.params.userId || req.body.userId`. `authorizeUser` calls
`next` exactly once and sends no response if and only if `id` is falsy
(`undefined`, `null`, `false`, `0` or the empty string) or is exactly equal to
`u`; in every other case it answers 403 with
`{success: false, message: "Unauthorized access"}` and does not call `next`. -/
theorem authorizeUser_decision (req : Request) (u : String) (id : JsVal)
    (huser : req.user.prop "uid" = .ok (.str u))
    (hid : requestUserId req = .ok id) :
    (((authorizeUser req).nextCalls = 1 ∧ (authorizeUser req).response = none) ↔
      (id.truthy = false ∨ id = .str u)) ∧
    (¬ (id.truthy = false ∨ id = .str u) →
      (authorizeUser req).response = some ⟨403, unauthorizedBody⟩ ∧
      (authorizeUser req).nextCalls = 0) := by
  unfold authorizeUser
  simp only [huser, hid]
  by_cases ht : id.truthy = true
  · by_cases he : id = .str u
    · have hs : JsVal.strictEq (.str u) id = true := (strictEq_str u id).2 he
      subst he
      simp [ht, hs]
    · have hs : JsVal.strictEq (.str u) id = false := by
        cases hb : JsVal.strictEq (.str u) id with
        | false => rfl
        | true => exact absurd ((strictEq_str u id).1 hb) he
      simp [ht, hs, he]
  · have hf : id.truthy = false := by simpa using ht
    simp [hf]

/-- Witness of C2 (amended): the principal `u1` asks for the pantry of `u1`. -/
theorem authorizeUser_decision_witness :
    (((authorizeUser ⟨.GET, "/pantry/u1", some "Bearer tok1", [("userId", "u1")], .obj [],
          .obj [("uid", .str "u1")]⟩).nextCalls = 1 ∧
      (authorizeUser ⟨.GET, "/pantry/u1", some "Bearer tok1", [("userId", "u1")], .obj [],
          .obj [("uid", .str "u1")]⟩).response = none) ↔
      ((JsVal.str "u1").truthy = false ∨ JsVal.str "u1" = .str "u1")) :=
  (authorizeUser_decision
    ⟨.GET, "/pantry/u1", some "Bearer tok1", [("userId", "u1")], .obj [],
      .obj [("uid", .str "u1")]⟩ "u1" (.str "u1") rfl rfl).1

/-- C3, at the failing input: the principal `u1`, authenticated by the token
`tok1`, asks for the shopping list `L2`, whose stored `userId` is `u2`. The
request passes `authorizeUser` and the handler answers 200 with the list of `u2`
and its items. -/
theorem shoppingListGet_serves_foreign_list (others : Route → Request → HandlerResult) :
    storeOfU2.get ["shopping-lists", "L2"] =
      .ok (some [("userId", .str "u2"), ("name", .str "Groceries")]) ∧
    tokenOfU1 (idTokenOf "Bearer tok1") =
      .ok (.obj [("uid", .str "u1"), ("email", .str "u1@example.com")]) ∧
    (app tokenOfU1 (mainHandlers storeOfU2 others) foreignListRequest).response =
      ⟨200, .obj [
        ("list", .obj [("userId", .str "u2"), ("name", .str "Groceries")]),
        ("items", .arr [.obj [("id", .str "i1"), ("name", .str "Milk")]])]⟩ :=
  ⟨rfl, rfl, rfl⟩

/-- C4, at the failing input: the header is "Bearer " followed by the token
`aBearer b`, which the provider rejects. `authenticateUser` hands the provider
the token `a` instead, which the provider accepts, so the request is passed on
as the principal of `a`. -/
theorem authenticateUser_submits_truncated_token :
    nestedBearerRequest.authorization = some ("Bearer " ++ "aBearer b") ∧
    onlyTokenA (.str "aBearer b") = .error "auth/argument-error" ∧
    (authenticateUser onlyTokenA nestedBearerRequest).verified = [.str "a"] ∧
    (authenticateUser onlyTokenA nestedBearerRequest).nextCalls = 1 ∧
    (authenticateUser onlyTokenA nestedBearerRequest).response = none ∧
    (authenticateUser onlyTokenA nestedBearerRequest).req.user = .obj [("uid", .str "u1")] :=
  ⟨rfl, rfl, rfl, rfl, rfl, rfl⟩

/-- C5: the gate exempts exactly the liveness path. A request whose path is
"/health" is passed on by the gate without `authenticateUser` being invoked:
`next` is called once, nothing is sent, the provider is not called; so
`GET /health` answers `{status: "ok"}` whatever credential it carries, with the
health handler as the only stage entered. A request with any other path is
handed to `authenticateUser`, whose outcome is the outcome of the gate. -/
theorem gate_exempts_exactly_health (verifyIdToken : Verifier) (db : Db)
    (others : Route → Request → HandlerResult) (req : Request) :
    (req.path = "/health" →
      authGate verifyIdToken req =
        ({ req := req, response := none, nextCalls := 1, verified := [] }, false)) ∧
    (req.path = "/health" → req.method = .GET →
      (app verifyIdToken (mainHandlers db others) req).response =
        ⟨200, .obj [("status", .str "ok")]⟩ ∧
      (app verifyIdToken (mainHandlers db others) req).verified = [] ∧
      (app verifyIdToken (mainHandlers db others) req).steps =
        [.handler .health { req with params := [] }]) ∧
    (req.path ≠ "/health" →
      authGate verifyIdToken req = (authenticateUser verifyIdToken req, true) ∧
      ∃ rest, (app verifyIdToken (mainHandlers db others) req).steps =
        .authenticate req :: rest) := by
  refine ⟨authGate_health verifyIdToken req, ?_, ?_⟩
  · intro hp hm
    obtain ⟨method, path, authorization, params, body, user⟩ := req
    simp only at hp hm
    subst hp hm
    exact ⟨rfl, rfl, rfl⟩
  · intro hp
    exact ⟨authGate_other verifyIdToken req hp, app_first_stage verifyIdToken _ req hp⟩

/-- Witness of C5: `GET /health` without a credential, and `GET /pantry/u1`
without a credential. -/
theorem gate_exempts_exactly_health_witness :
    (app rejectAll (mainHandlers storeOfU2 otherHandlers)
        ⟨.GET, "/health", none, [], .obj [], .undefined⟩).response =
      ⟨200, .obj [("status", .str "ok")]⟩ ∧
    authGate rejectAll ⟨.GET, "/pantry/u1", none, [], .obj [], .undefined⟩ =
      (authenticateUser rejectAll ⟨.GET, "/pantry/u1", none, [], .obj [], .undefined⟩, true) :=
  ⟨((gate_exempts_exactly_health rejectAll storeOfU2 otherHandlers
      ⟨.GET, "/health", none, [], .obj [], .undefined⟩).2.1 rfl rfl).1,
   ((gate_exempts_exactly_health rejectAll storeOfU2 otherHandlers
      ⟨.GET, "/pantry/u1", none, [], .obj [], .undefined⟩).2.2 (by decide)).1⟩

/-- C6: authentication always runs before authorization. For every request
whose path is not "/health", `authenticateUser` is the first stage entered; when
it fails the request is answered 401 and no other stage is entered (neither
`authorizeUser` nor a handler) and the store is not touched; and whenever
`authorizeUser` or a route handler is entered, `authenticateUser` has succeeded
(it called `next`, sent nothing) and the request they are entered with carries
the principal that the identity provider returned. -/
theorem authentication_precedes_authorization (verifyIdToken : Verifier)
    (handlers : Route → Request → HandlerResult) (req : Request)
    (hpath : req.path ≠ "/health") :
    (∃ rest, (app verifyIdToken handlers req).steps = .authenticate req :: rest) ∧
    ((authenticateUser verifyIdToken req).nextCalls = 0 →
      (app verifyIdToken handlers req).steps = [.authenticate req] ∧
      (app verifyIdToken handlers req).ops = [] ∧
      ∃ body, (app verifyIdToken handlers req).response = ⟨401, body⟩) ∧
    (∀ r, Step.authorize r ∈ (app verifyIdToken handlers req).steps →
      ∃ hd d, req.authorization = some hd ∧ verifyIdToken (idTokenOf hd) = .ok d ∧
        (authenticateUser verifyIdToken req).nextCalls = 1 ∧
        (authenticateUser verifyIdToken req).response = none ∧ r.user = d) ∧
    (∀ route r, Step.handler route r ∈ (app verifyIdToken handlers req).steps →
      ∃ hd d, req.authorization = some hd ∧ verifyIdToken (idTokenOf hd) = .ok d ∧
        (authenticateUser verifyIdToken req).nextCalls = 1 ∧
        (authenticateUser verifyIdToken req).response = none ∧ r.user = d) := by
  unfold app
  rw [authGate_other verifyIdToken req hpath]
  rcases authenticateUser_cases verifyIdToken req with
    ⟨body, hr, _, _⟩ | ⟨hd, e, hauth, hst, hv, hr⟩ | ⟨hd, d, hauth, hst, hv, hr⟩
  · simp [hr]
  · simp [hr]
  · simp only [hr]
    cases hm : matchRoute req.method req.path with
    | none => simp
    | some found =>
      obtain ⟨decl, params⟩ := found
      simp only [if_true, List.singleton_append, List.mem_cons]
      refine ⟨⟨_, rfl⟩, by simp, ?_, ?_⟩
      · intro r hmem
        rcases hmem with hmem | hmem
        · cases hmem
        · refine ⟨hd, d, hauth, hv, trivial, trivial, ?_⟩
          rcases runRoute_steps _ _ _ _ _ hmem with h | h | h | ⟨hd2, d2, _, _, h⟩
          · cases h; rfl
          · cases h
          · cases h
          · cases h
      · intro route r hmem
        rcases hmem with hmem | hmem
        · cases hmem
        · refine ⟨hd, d, hauth, hv, trivial, trivial, ?_⟩
          rcases runRoute_steps _ _ _ _ _ hmem with h | h | h | ⟨hd2, d2, hauth2, hv2, h⟩
          · cases h
          · cases h
          · cases h; rfl
          · cases h
            simp only at hauth2
            rw [hauth] at hauth2
            cases hauth2
            rw [hv] at hv2
            cases hv2
            rfl

/-- Witness of C6: a request for a pantry without a credential. -/
theorem authentication_precedes_authorization_witness :
    (app rejectAll otherHandlers ⟨.GET, "/pantry/u1", none, [], .obj [], .undefined⟩).steps =
      [.authenticate ⟨.GET, "/pantry/u1", none, [], .obj [], .undefined⟩] :=
  ((authentication_precedes_authorization rejectAll otherHandlers
    ⟨.GET, "/pantry/u1", none, [], .obj [], .undefined⟩ (by decide)).2.1 rfl).1

/-- C7, counterexample: invoked without a principal, `authorizeUser` does not
fail fatally. It returns normally and reports the failure to the client as a
client error, a response with a 4xx status. -/
theorem authorizeUser_without_principal_is_client_error :
    noPrincipalRequest.user = .undefined ∧
    ∃ resp, (authorizeUser noPrincipalRequest).response = some resp ∧
      400 ≤ resp.status ∧ resp.status < 500 :=
  ⟨rfl, ⟨403, authorizationFailedBody⟩, rfl, by decide, by decide⟩

/-- C7, amended: when `authorizeUser` is invoked on a request to which no
principal has been attached (`req.user` is `undefined`), the `TypeError` of the
destructuring is caught by its own `catch` and answered with 403
`{success: false, message: "Authorization failed"}`; it never calls `next`, leaves
the request as it was, and the failure is not reported as a 401. -/
theorem authorizeUser_without_principal (req : Request) (h : req.user = .undefined) :
    (authorizeUser req).response = some ⟨403, authorizationFailedBody⟩ ∧
    (authorizeUser req).nextCalls = 0 ∧
    (authorizeUser req).req = req ∧
    (∀ resp, (authorizeUser req).response = some resp → resp.status ≠ 401) := by
  have hr : authorizeUser req =
      { req := req, response := some ⟨403, authorizationFailedBody⟩, nextCalls := 0,
        verified := [] } := by
    unfold authorizeUser
    rw [h]
    rfl
  rw [hr]
  refine ⟨rfl, rfl, rfl, ?_⟩
  intro resp hresp
  cases hresp
  decide

/-- Witness of C7 (amended). -/
theorem authorizeUser_without_principal_witness :
    (authorizeUser noPrincipalRequest).response = some ⟨403, authorizationFailedBody⟩ ∧
    (authorizeUser noPrincipalRequest).nextCalls = 0 :=
  let h := authorizeUser_without_principal noPrincipalRequest rfl
  ⟨h.1, h.2.1⟩

/-- C8: `POST /pantry/add` fails fast on a malformed top-level request. For
every request that passes the access gate (its handler is entered) and whose
body has no `userId`, or whose `items` field is missing or is not an array, the
answer is 400 `{error: "User ID and items array are required"}` and the store is
not touched: no read, no staged write, no commit. -/
theorem pantryAdd_fails_fast (verifyIdToken : Verifier) (db : Db)
    (others : Route → Request → HandlerResult) (req : Request)
    (hm : req.method = .POST) (hp : req.path = "/pantry/add")
    (hgate : ∃ r, Step.handler .pantryAdd r ∈
      (app verifyIdToken (mainHandlers db others) req).steps)
    (hbad : req.body.prop "userId" = .ok .undefined ∨
      req.body.prop "items" = .ok .undefined ∨
      ∃ v, req.body.prop "items" = .ok v ∧ v.isArray = false) :
    (app verifyIdToken (mainHandlers db others) req).response =
      ⟨400, pantryAddBadRequest⟩ ∧
    (app verifyIdToken (mainHandlers db others) req).ops = [] ∧
    readsOf (app verifyIdToken (mainHandlers db others) req).ops = [] ∧
    stagedOf (app verifyIdToken (mainHandlers db others) req).ops = [] ∧
    commitsOf (app verifyIdToken (mainHandlers db others) req).ops = [] := by
  obtain ⟨r, hstep⟩ := hgate
  obtain ⟨hbody, hresp, hops⟩ := app_pantryAdd verifyIdToken db others req r hm hp hstep
  have hinv : pantryAdd db r = ⟨⟨400, pantryAddBadRequest⟩, []⟩ := by
    rcases hbad with hu | hi | ⟨v, hi, hv⟩
    · obtain ⟨items, hi⟩ := prop_ok_of_prop_ok _ _ "items" _ hu
      rw [← hbody] at hu hi
      exact pantryAdd_invalid db r .undefined items hu hi (Or.inl rfl)
    · obtain ⟨userId, hu⟩ := prop_ok_of_prop_ok _ _ "userId" _ hi
      rw [← hbody] at hu hi
      exact pantryAdd_invalid db r userId .undefined hu hi (Or.inr (Or.inl rfl))
    · obtain ⟨userId, hu⟩ := prop_ok_of_prop_ok _ _ "userId" _ hi
      rw [← hbody] at hu hi
      exact pantryAdd_invalid db r userId v hu hi (Or.inr (Or.inr hv))
  rw [hresp, hops, hinv]
  exact ⟨rfl, rfl, rfl, rfl, rfl⟩

/-- Witness of C8: the principal `u1` posts items without naming a user. -/
theorem pantryAdd_fails_fast_witness :
    (app tokenOfU1 (mainHandlers emptyStore otherHandlers)
        (pantryAddRequest (.obj [("items", .arr [.obj [("name", .str "Rice")]])]))).response =
      ⟨400, pantryAddBadRequest⟩ ∧
    (app tokenOfU1 (mainHandlers emptyStore otherHandlers)
        (pantryAddRequest (.obj [("items", .arr [.obj [("name", .str "Rice")]])]))).ops = [] :=
  let h := pantryAdd_fails_fast tokenOfU1 emptyStore otherHandlers
    (pantryAddRequest (.obj [("items", .arr [.obj [("name", .str "Rice")]])])) rfl rfl
    ⟨_, List.mem_cons_of_mem _ (List.mem_cons_of_mem _ (List.mem_singleton.2 rfl))⟩
    (Or.inl rfl)
  ⟨h.1, h.2.1⟩

/-- C9: upsert-on-first-use of the pantry container. For every well-formed
`POST /pantry/add` (a non-empty string `userId`, an array `items`) whose pantry
lookup answers, every batch handed to `commit` contains a write to the document
`pantries/{userId}` if and only if that document did not exist at lookup time;
such a write is the `set` of `{userId, createdAt: server timestamp}`; when
the pantry exists no write of the batch targets the container. A batch is
committed, exactly one, whenever no entry of `items` is `null`. -/
theorem pantryAdd_upserts_container (db : Db) (req : Request) (uid : String)
    (items : List JsVal) (snap : Option Fields)
    (hu : req.body.prop "userId" = .ok (.str uid)) (hne : uid ≠ "")
    (hi : req.body.prop "items" = .ok (.arr items))
    (hget : db.get ["pantries", uid] = .ok snap) :
    (∀ batch, StoreOp.batchCommit batch ∈ (pantryAdd db req).ops →
      ((∃ w ∈ batch, w.ref = ["pantries", uid]) ↔ snap = none) ∧
      (∀ w ∈ batch, w.ref = ["pantries", uid] →
        w = .set ["pantries", uid]
          (.obj [("userId", .str uid), ("createdAt", .serverTimestamp)])) ∧
      (snap ≠ none → ∀ w ∈ batch, w.ref ≠ ["pantries", uid])) ∧
    ((∀ e ∈ items, e ≠ .null ∧ e ≠ .undefined) →
      ∃ batch, commitsOf (pantryAdd db req).ops = [batch]) := by
  rw [pantryAdd_valid db req uid items snap hu hne hi hget]
  have hitem : ∀ w ∈ (stagePantryItems db ["pantries", uid] 0 items).1,
      w.ref ≠ ["pantries", uid] := by
    intro w hw
    obtain ⟨k, data, hk⟩ := stagePantryItems_refs db ["pantries", uid] items 0 w hw
    rw [hk]
    simp [Write.ref]
  constructor
  · intro batch hmem
    have hb := pantryCommit_commits db _ _ batch hmem
    subst hb
    cases snap with
    | none =>
      simp only [pantryBatch, Option.isSome_none, Bool.false_eq_true, if_false,
        List.singleton_append, List.mem_cons]
      refine ⟨⟨fun _ => trivial, fun _ => ⟨_, Or.inl rfl, rfl⟩⟩, ?_, ?_⟩
      · rintro w (hw | hw) href
        · rw [hw]; rfl
        · exact absurd href (hitem w hw)
      · intro h
        exact absurd rfl h
    | some fields =>
      simp only [pantryBatch, Option.isSome_some, if_true, List.nil_append]
      refine ⟨⟨?_, fun h => by cases h⟩, ?_, fun _ => hitem⟩
      · rintro ⟨w, hw, href⟩
        exact absurd href (hitem w hw)
      · intro w hw href
        exact absurd href (hitem w hw)
  · intro hnn
    have hdone : (pantryBatch db ["pantries", uid] (.str uid) snap items).2 = none :=
      stagePantryItems_completes db ["pantries", uid] items hnn 0
    exact ⟨_, (pantryCommit_complete db _ _ hdone).1⟩

/-- Witness of C9: the first `POST /pantry/add` of `u1`, on an empty store. -/
theorem pantryAdd_upserts_container_witness :
    ∃ batch,
      commitsOf (pantryAdd emptyStore (pantryAddRequest (.obj [("userId", .str "u1"),
        ("items", .arr [.obj [("name", .str "Rice")]])]))).ops = [batch] :=
  (pantryAdd_upserts_container emptyStore
    (pantryAddRequest (.obj [("userId", .str "u1"),
      ("items", .arr [.obj [("name", .str "Rice")]])]))
    "u1" [.obj [("name", .str "Rice")]] none rfl (by decide) rfl rfl).2
    (by
      intro e he
      rw [List.mem_singleton] at he
      subst he
      exact ⟨by simp, by simp⟩)

/-- C10: malformed-entry skipping. For every well-formed `POST /pantry/add`
whose `items` entries are objects and whose pantry lookup answers, the writes
staged after the container write are exactly one per entry that has a name and
none for an entry without one, in the order of the array, each the `set` of the
item document of its entry under the next generated id; this batch is the one
committed, and when the commit succeeds the answer is 200
`{success: true, message: "Items added to pantry"}`. -/
theorem pantryAdd_skips_nameless (db : Db) (req : Request) (uid : String)
    (items : List JsVal) (snap : Option Fields)
    (hu : req.body.prop "userId" = .ok (.str uid)) (hne : uid ≠ "")
    (hi : req.body.prop "items" = .ok (.arr items))
    (hget : db.get ["pantries", uid] = .ok snap)
    (hobj : ∀ e ∈ items, ∃ fields, e = .obj fields) :
    ∃ itemWrites : List Write,
      stagedOf (pantryAdd db req).ops =
        (if snap.isSome then [] else [.set ["pantries", uid] (pantryContainer (.str uid))]) ++
          itemWrites ∧
      List.Forall₂
        (fun e w => ∃ id data, pantryItemData e = .ok data ∧
          w = Write.set ["pantries", uid, "items", id] data)
        (items.filter hasName) itemWrites ∧
      itemWrites.length = (items.filter hasName).length ∧
      itemWrites.map Write.ref =
        (List.range itemWrites.length).map (fun i => ["pantries", uid, "items", db.autoId i]) ∧
      commitsOf (pantryAdd db req).ops = [stagedOf (pantryAdd db req).ops] ∧
      (db.commit (stagedOf (pantryAdd db req).ops) = .ok () →
        (pantryAdd db req).response = ⟨200, pantryAddOk⟩) := by
  have hnn : ∀ e ∈ items, e ≠ .null ∧ e ≠ .undefined := by
    intro e he
    obtain ⟨fields, hf⟩ := hobj e he
    subst hf
    exact ⟨by simp, by simp⟩
  rw [pantryAdd_valid db req uid items snap hu hne hi hget]
  have hdone : (pantryBatch db ["pantries", uid] (.str uid) snap items).2 = none :=
    stagePantryItems_completes db ["pantries", uid] items hnn 0
  obtain ⟨hc, hs, hok⟩ := pantryCommit_complete db ["pantries", uid] _ hdone
  obtain ⟨hall, hrefs⟩ := stagePantryItems_named db ["pantries", uid] items hnn 0
  refine ⟨(stagePantryItems db ["pantries", uid] 0 items).1, ?_, ?_, ?_, ?_, ?_, ?_⟩
  · rw [hs]; rfl
  · simpa using hall
  · exact hall.length_eq.symm
  · simpa using hrefs
  · rw [hc, hs]
  · rw [hs]; exact hok

/-- Witness of C10: a list with one nameless entry and two named entries; two
item records are staged and committed. -/
theorem pantryAdd_skips_nameless_witness :
    ∃ itemWrites : List Write,
      stagedOf (pantryAdd emptyStore (pantryAddRequest (.obj [("userId", .str "u1"),
        ("items", .arr [.obj [("quantity", .num 3)], .obj [("name", .str "Rice")],
          .obj [("name", .str "Beans")]])]))).ops =
        [.set ["pantries", "u1"] (pantryContainer (.str "u1"))] ++ itemWrites ∧
      itemWrites.length = 2 ∧
      (pantryAdd emptyStore (pantryAddRequest (.obj [("userId", .str "u1"),
        ("items", .arr [.obj [("quantity", .num 3)], .obj [("name", .str "Rice")],
          .obj [("name", .str "Beans")]])]))).response = ⟨200, pantryAddOk⟩ :=
  let ⟨ws, h1, _, h3, _, _, h6⟩ := pantryAdd_skips_nameless emptyStore
    (pantryAddRequest (.obj [("userId", .str "u1"),
      ("items", .arr [.obj [("quantity", .num 3)], .obj [("name", .str "Rice")],
        .obj [("name", .str "Beans")]])]))
    "u1" [.obj [("quantity", .num 3)], .obj [("name", .str "Rice")],
      .obj [("name", .str "Beans")]] none rfl (by decide) rfl rfl
    (by
      intro e he
      simp only [List.mem_cons, List.mem_singleton, List.not_mem_nil, or_false] at he
      rcases he with he | he | he <;> exact ⟨_, he⟩)
  ⟨ws, h1, h3, h6 rfl⟩

/-- C11, at the failing input: the principal `u1` posts
`{userId: "u1", items: [null, {name: "Rice"}]}`. Reading `name` from the `null`
entry throws, the handler answers 500 and commits nothing: the well-formed
entry is not persisted. -/
theorem pantryAdd_fails_on_null_entry :
    (app tokenOfU1 (mainHandlers emptyStore otherHandlers)
      (requestOfU1 .POST "/pantry/add" (.obj [("userId", .str "u1"),
        ("items", .arr [.null, .obj [("name", .str "Rice")]])]))).response =
      ⟨500, pantryAddFailed⟩ ∧
    commitsOf (app tokenOfU1 (mainHandlers emptyStore otherHandlers)
      (requestOfU1 .POST "/pantry/add" (.obj [("userId", .str "u1"),
        ("items", .arr [.null, .obj [("name", .str "Rice")]])]))).ops = [] ∧
    persistedOf emptyStore (app tokenOfU1 (mainHandlers emptyStore otherHandlers)
      (requestOfU1 .POST "/pantry/add" (.obj [("userId", .str "u1"),
        ("items", .arr [.null, .obj [("name", .str "Rice")]])]))).ops = [] :=
  ⟨rfl, rfl, rfl⟩

/-- C12: child defaults. The item document that `POST /pantry/add` builds for
an entry that gives only a name carries that name, quantity 1, unit "item",
category "uncategorized", expiryDate null, isCustom false, and `createdAt` and
`updatedAt` set to the server timestamp; in every well-formed request with
object entries, such an entry with a (truthy) name has a staged write with that
document; and `{userId: "u1", items: [{name: "Rice"}]}` with no prior pantry for `u1`
commits exactly two writes, the container with userId "u1" and one item record
with these defaults. -/
theorem pantryAdd_child_defaults (db : Db) :
    (∀ name : JsVal, pantryItemData (.obj [("name", name)]) = .ok (.obj [
      ("name", name), ("quantity", .num 1), ("unit", .str "item"),
      ("category", .str "uncategorized"), ("expiryDate", .null),
      ("purchaseDate", .serverTimestamp), ("customImage", .null),
      ("isCustom", .bool false), ("createdAt", .serverTimestamp),
      ("updatedAt", .serverTimestamp)])) ∧
    (∀ (req : Request) (uid : String) (items : List JsVal) (snap : Option Fields)
      (name : JsVal),
      req.body.prop "userId" = .ok (.str uid) → uid ≠ "" →
      req.body.prop "items" = .ok (.arr items) →
      db.get ["pantries", uid] = .ok snap →
      (∀ e ∈ items, ∃ fields, e = .obj fields) →
      JsVal.obj [("name", name)] ∈ items → name.truthy = true →
      ∃ id, Write.set ["pantries", uid, "items", id] (.obj [
        ("name", name), ("quantity", .num 1), ("unit", .str "item"),
        ("category", .str "uncategorized"), ("expiryDate", .null),
        ("purchaseDate", .serverTimestamp), ("customImage", .null),
        ("isCustom", .bool false), ("createdAt", .serverTimestamp),
        ("updatedAt", .serverTimestamp)]) ∈ stagedOf (pantryAdd db req).ops) ∧
    (∀ req : Request,
      req.body = .obj [("userId", .str "u1"), ("items", .arr [.obj [("name", .str "Rice")]])] →
      db.get ["pantries", "u1"] = .ok none →
      commitsOf (pantryAdd db req).ops = [[
        .set ["pantries", "u1"] (.obj [("userId", .str "u1"), ("createdAt", .serverTimestamp)]),
        .set ["pantries", "u1", "items", db.autoId 0] (.obj [
          ("name", .str "Rice"), ("quantity", .num 1), ("unit", .str "item"),
          ("category", .str "uncategorized"), ("expiryDate", .null),
          ("purchaseDate", .serverTimestamp), ("customImage", .null),
          ("isCustom", .bool false), ("createdAt", .serverTimestamp),
          ("updatedAt", .serverTimestamp)])]]) := by
  refine ⟨fun _ => rfl, ?_, ?_⟩
  · intro req uid items snap name hu hne hi hget hobj hmem hname
    have hnn : ∀ e ∈ items, e ≠ .null ∧ e ≠ .undefined := by
      intro e he
      obtain ⟨fields, hf⟩ := hobj e he
      subst hf
      exact ⟨by simp, by simp⟩
    rw [pantryAdd_valid db req uid items snap hu hne hi hget]
    have hdone : (pantryBatch db ["pantries", uid] (.str uid) snap items).2 = none :=
      stagePantryItems_completes db ["pantries", uid] items hnn 0
    rw [(pantryCommit_complete db ["pantries", uid] _ hdone).2.1]
    obtain ⟨hall, _⟩ := stagePantryItems_named db ["pantries", uid] items hnn 0
    have hfilt : JsVal.obj [("name", name)] ∈ items.filter hasName := by
      rw [List.mem_filter]
      refine ⟨hmem, ?_⟩
      show name.truthy = true
      exact hname
    obtain ⟨w, hw, id, data, hdata, hweq⟩ := forall₂_exists_right _ _ _ hall _ hfilt
    refine ⟨id, ?_⟩
    have hd : data = JsVal.obj [
        ("name", name), ("quantity", .num 1), ("unit", .str "item"),
        ("category", .str "uncategorized"), ("expiryDate", .null),
        ("purchaseDate", .serverTimestamp), ("customImage", .null),
        ("isCustom", .bool false), ("createdAt", .serverTimestamp),
        ("updatedAt", .serverTimestamp)] := by
      have h2 : pantryItemData (.obj [("name", name)]) = .ok (JsVal.obj [
        ("name", name), ("quantity", .num 1), ("unit", .str "item"),
        ("category", .str "uncategorized"), ("expiryDate", .null),
        ("purchaseDate", .serverTimestamp), ("customImage", .null),
        ("isCustom", .bool false), ("createdAt", .serverTimestamp),
        ("updatedAt", .serverTimestamp)]) := rfl
      rw [h2] at hdata
      exact (Except.ok.inj hdata).symm
    subst hd
    subst hweq
    unfold pantryBatch
    exact List.mem_append_right _ hw
  · intro req hbody hget
    have hu : req.body.prop "userId" = .ok (.str "u1") := by rw [hbody]; rfl
    have hi : req.body.prop "items" = .ok (.arr [.obj [("name", .str "Rice")]]) := by
      rw [hbody]; rfl
    rw [pantryAdd_valid db req "u1" _ none hu (by decide) hi hget]
    have hdone : (pantryBatch db ["pantries", "u1"] (.str "u1") none
        [.obj [("name", .str "Rice")]]).2 = none := rfl
    rw [(pantryCommit_complete db ["pantries", "u1"] _ hdone).1]
    rfl

/-- Witness of C12: the scenario on an empty store. -/
theorem pantryAdd_child_defaults_witness :
    commitsOf (pantryAdd emptyStore (requestOfU1 .POST "/pantry/add"
      (.obj [("userId", .str "u1"), ("items", .arr [.obj [("name", .str "Rice")]])]))).ops = [[
        .set ["pantries", "u1"] (.obj [("userId", .str "u1"), ("createdAt", .serverTimestamp)]),
        .set ["pantries", "u1", "items", emptyStore.autoId 0] (.obj [
          ("name", .str "Rice"), ("quantity", .num 1), ("unit", .str "item"),
          ("category", .str "uncategorized"), ("expiryDate", .null),
          ("purchaseDate", .serverTimestamp), ("customImage", .null),
          ("isCustom", .bool false), ("createdAt", .serverTimestamp),
          ("updatedAt", .serverTimestamp)])]] :=
  (pantryAdd_child_defaults emptyStore).2.2
    (requestOfU1 .POST "/pantry/add"
      (.obj [("userId", .str "u1"), ("items", .arr [.obj [("name", .str "Rice")]])]))
    rfl rfl

/-- C13: repeated pantry adds leave the container alone and never deduplicate
children. On a store state in which the pantry of `u` exists with data `c`, with
a generator of document ids that never repeats an id and whose ids still to come
are unused, calling `POST /pantry/add` twice with the same list of `N` entries
that are objects with a name answers 200 both times, leaves the container
document `c` after each call, and adds to the items of `u` exactly `N` records
per call (`2N` in total), with the same data in both calls and under ids that
are pairwise different and were not in use before. -/
theorem pantryAdd_twice (gen : Nat → String) (hgen : Function.Injective gen)
    (s : Store) (req : Request) (u : String) (items : List JsVal) (c : Fields)
    (hfresh : ∀ k, s.generated ≤ k → ∀ d ∈ s.docs, d.1 ≠ ["pantries", u, "items", gen k])
    (hu : req.body.prop "userId" = .ok (.str u)) (hne : u ≠ "")
    (hi : req.body.prop "items" = .ok (.arr items))
    (hwf : ∀ e ∈ items, (∃ fields, e = .obj fields) ∧ hasName e = true)
    (hc : s.doc ["pantries", u] = some c) :
    (pantryAddOn gen s req).1 = ⟨200, pantryAddOk⟩ ∧
    (pantryAddOn gen (pantryAddOn gen s req).2 req).1 = ⟨200, pantryAddOk⟩ ∧
    (pantryAddOn gen s req).2.doc ["pantries", u] = some c ∧
    (pantryAddOn gen (pantryAddOn gen s req).2 req).2.doc ["pantries", u] = some c ∧
    ∃ first second : List (String × Fields),
      (pantryAddOn gen s req).2.children ["pantries", u, "items"] =
        s.children ["pantries", u, "items"] ++ first ∧
      (pantryAddOn gen (pantryAddOn gen s req).2 req).2.children ["pantries", u, "items"] =
        s.children ["pantries", u, "items"] ++ first ++ second ∧
      first.length = items.length ∧ second.length = items.length ∧
      first.map Prod.snd = items.map pantryItemFields ∧
      second.map Prod.snd = items.map pantryItemFields ∧
      ((first ++ second).map Prod.fst).Nodup ∧
      ∀ id ∈ (first ++ second).map Prod.fst,
        id ∉ (s.children ["pantries", u, "items"]).map Prod.fst := by
  have h1 := pantryAddOn_existing gen hgen s req u items c hfresh hu hne hi hwf hc
  have hfresh2 : ∀ k, s.generated + items.length ≤ k →
      ∀ d ∈ s.docs ++ (newItemRecords gen s.generated items).map (itemDoc u),
        d.1 ≠ ["pantries", u, "items", gen k] := by
    intro k hk d hd
    rcases List.mem_append.1 hd with hd | hd
    · exact hfresh k (by omega) d hd
    · obtain ⟨r, hr, hrd⟩ := List.mem_map.1 hd
      obtain ⟨j, _, hj2, hj3⟩ := newItemRecords_ids gen items s.generated r.1
        (List.mem_map_of_mem Prod.fst hr)
      rw [← hrd]
      show ["pantries", u, "items", r.1] ≠ ["pantries", u, "items", gen k]
      intro heq
      have hid : r.1 = gen k := by simpa using heq
      have := hgen (hj3.symm.trans hid)
      omega
  have hc2 : Store.doc ⟨s.docs ++ (newItemRecords gen s.generated items).map (itemDoc u),
      s.generated + items.length⟩ ["pantries", u] = some c :=
    doc_append s.docs _ _ c s.generated _ hc
  have h2 := pantryAddOn_existing gen hgen
    ⟨s.docs ++ (newItemRecords gen s.generated items).map (itemDoc u),
      s.generated + items.length⟩ req u items c hfresh2 hu hne hi hwf hc2
  rw [h1, h2]
  refine ⟨rfl, rfl, hc2, doc_append _ _ _ c (s.generated + items.length) _ hc2,
    newItemRecords gen s.generated items,
    newItemRecords gen (s.generated + items.length) items, ?_, ?_,
    newItemRecords_length _ _ _, newItemRecords_length _ _ _,
    newItemRecords_data _ _ _, newItemRecords_data _ _ _, ?_, ?_⟩
  · exact children_append_items s.docs u _ _ s.generated
  · show Store.children ⟨s.docs ++ _ ++ _, _⟩ _ = _
    rw [children_append_items _ u _ _ (s.generated + items.length),
      children_append_items s.docs u _ _ s.generated]
  · rw [List.map_append, List.nodup_append]
    refine ⟨newItemRecords_nodup gen hgen items _, newItemRecords_nodup gen hgen items _, ?_⟩
    intro id hid1 hid2
    obtain ⟨j, _, hj2, hj3⟩ := newItemRecords_ids gen items _ id hid1
    obtain ⟨j2, hk1, _, hk3⟩ := newItemRecords_ids gen items _ id hid2
    have := hgen (hj3.symm.trans hk3)
    omega
  · intro id hid hold
    obtain ⟨⟨id2, f⟩, hmem, hfst⟩ := List.mem_map.1 hold
    simp only at hfst
    subst hfst
    have hdoc := children_mem s _ _ _ hmem
    rw [List.map_append, List.mem_append] at hid
    rcases hid with hid | hid
    · obtain ⟨j, hj1, _, hj3⟩ := newItemRecords_ids gen items _ _ hid
      exact hfresh j hj1 _ hdoc (by rw [hj3]; rfl)
    · obtain ⟨j, hj1, _, hj3⟩ := newItemRecords_ids gen items _ _ hid
      exact hfresh j (by omega) _ hdoc (by rw [hj3]; rfl)

/-- Witness of C13: two entries, twice, into the pantry of `u1`. -/
theorem pantryAdd_twice_witness :
    (pantryAddOn xs (pantryAddOn xs pantryOfU1 (requestOfU1 .POST "/pantry/add"
      (.obj [("userId", .str "u1"),
        ("items", .arr [.obj [("name", .str "Rice")], .obj [("name", .str "Beans")]])]))).2
      (requestOfU1 .POST "/pantry/add"
      (.obj [("userId", .str "u1"),
        ("items", .arr [.obj [("name", .str "Rice")], .obj [("name", .str "Beans")]])]))).2.doc
      ["pantries", "u1"] = some [("userId", .str "u1"), ("createdAt", .serverTimestamp)] :=
  (pantryAdd_twice xs xs_injective pantryOfU1
    (requestOfU1 .POST "/pantry/add"
      (.obj [("userId", .str "u1"),
        ("items", .arr [.obj [("name", .str "Rice")], .obj [("name", .str "Beans")]])]))
    "u1" [.obj [("name", .str "Rice")], .obj [("name", .str "Beans")]]
    [("userId", .str "u1"), ("createdAt", .serverTimestamp)]
    (by
      intro k _ d hd
      simp only [pantryOfU1, List.mem_singleton] at hd
      subst hd
      simp)
    rfl (by decide) rfl
    (by
      intro e he
      simp only [List.mem_cons, List.mem_singleton, List.not_mem_nil, or_false] at he
      rcases he with he | he <;> subst he <;> exact ⟨⟨_, rfl⟩, rfl⟩)
    rfl).2.2.2.1

/-- C14, at the failing input: the principal `u1` creates a shopping list with
one item, and a meal plan with one meal, on a store that rejects the commit of
the child batch. Each handler answers 500, yet the container document, which it
wrote on its own before the batch, is persisted, without any child. -/
theorem create_persists_container_without_children :
    (app tokenOfU1 (mainHandlers batchRejectingStore otherHandlers)
      (requestOfU1 .POST "/shopping-list/create" (.obj [("userId", .str "u1"),
        ("items", .arr [.obj [("name", .str "Milk")]])]))).response.status = 500 ∧
    persistedOf batchRejectingStore
      (app tokenOfU1 (mainHandlers batchRejectingStore otherHandlers)
        (requestOfU1 .POST "/shopping-list/create" (.obj [("userId", .str "u1"),
          ("items", .arr [.obj [("name", .str "Milk")]])]))).ops =
      [.set ["shopping-lists", "x"] (.obj [("userId", .str "u1"),
        ("name", .str "Shopping List"), ("createdAt", .serverTimestamp),
        ("updatedAt", .serverTimestamp)])] ∧
    (app tokenOfU1 (mainHandlers batchRejectingStore otherHandlers)
      (requestOfU1 .POST "/meal-plan/create" (.obj [("userId", .str "u1"),
        ("startDate", .str "2025-01-06"),
        ("meals", .arr [.obj [("date", .str "2025-01-06"),
          ("type", .str "dinner")]])]))).response.status = 500 ∧
    persistedOf batchRejectingStore
      (app tokenOfU1 (mainHandlers batchRejectingStore otherHandlers)
        (requestOfU1 .POST "/meal-plan/create" (.obj [("userId", .str "u1"),
          ("startDate", .str "2025-01-06"),
          ("meals", .arr [.obj [("date", .str "2025-01-06"),
            ("type", .str "dinner")]])]))).ops =
      [.set ["meal-plans", "x"] (.obj [("userId", .str "u1"), ("name", .str "Meal Plan"),
        ("startDate", .str "2025-01-06"), ("endDate", .null),
        ("createdAt", .serverTimestamp), ("updatedAt", .serverTimestamp)])] :=
  ⟨rfl, rfl, rfl, rfl⟩

/-- C15, at the failing input: the callable is called without `userId`. The
`HttpsError` with code `invalid-argument` is thrown inside the `try`, caught by
the `catch` of the same function and replaced: the error surfaced to the caller
has code `internal`. No store access has been made. -/
theorem addShoppingListToPantry_surfaces_internal :
    (addShoppingListToPantryTry emptyStore
      (.obj [("listId", .str "L1"), ("purchasedItems", .arr [.str "i1"])])).1 =
      .error (.https ⟨"invalid-argument",
        "User ID, list ID, and purchased items array are required"⟩) ∧
    (addShoppingListToPantry emptyStore
      (.obj [("listId", .str "L1"), ("purchasedItems", .arr [.str "i1"])])).result =
      .error ⟨"internal", "Failed to add items to pantry"⟩ ∧
    (addShoppingListToPantry emptyStore
      (.obj [("listId", .str "L1"), ("purchasedItems", .arr [.str "i1"])])).ops = [] :=
  ⟨rfl, rfl, rfl⟩

/-- C16: a referenced document that is absent yields NotFound and nothing else
happens. `GET /pantry/:userId` for a user with no pantry document answers 404
`{error: "Pantry not found"}` and its only store operation is the lookup of the
pantry: the items collection is not read. `PUT` and `DELETE`
`/pantry/item/:userId/:itemId` for an item that does not exist answer 404
`{error: "Item not found"}` and their only store operation is the lookup of the
item: no update and no delete is issued. -/
theorem absent_document_yields_not_found (db : Db) (req : Request) (uid : String)
    (huid : req.param "userId" = .str uid) (hne : uid ≠ "") :
    (db.get ["pantries", uid] = .ok none →
      (pantryGet db req).response = ⟨404, .obj [("error", .str "Pantry not found")]⟩ ∧
      (pantryGet db req).ops = [.get ["pantries", uid]]) ∧
    (∀ iid : String, req.param "itemId" = .str iid → iid ≠ "" →
      db.get ["pantries", uid, "items", iid] = .ok none →
      ((pantryItemPut db req).response = ⟨404, .obj [("error", .str "Item not found")]⟩ ∧
        (pantryItemPut db req).ops = [.get ["pantries", uid, "items", iid]] ∧
        writesOf (pantryItemPut db req).ops = []) ∧
      ((pantryItemDelete db req).response = ⟨404, .obj [("error", .str "Item not found")]⟩ ∧
        (pantryItemDelete db req).ops = [.get ["pantries", uid, "items", iid]] ∧
        writesOf (pantryItemDelete db req).ops = [])) := by
  have hd : docRef ["pantries"] (.str uid) = .ok ["pantries", uid] := by
    simp [docRef, hne]
  have ht : (JsVal.str uid).truthy = true := by simp [JsVal.truthy, hne]
  constructor
  · intro hget
    unfold pantryGet
    simp only [huid, ht, hd, hget]
    exact ⟨rfl, rfl⟩
  · intro iid hiid hine hget
    have hti : (JsVal.str iid).truthy = true := by simp [JsVal.truthy, hine]
    have hr : pantryItemRef (.str uid) (.str iid) = .ok ["pantries", uid, "items", iid] := by
      simp [pantryItemRef, docRef, hne, hine, bind, Except.bind]
    constructor
    · unfold pantryItemPut
      simp only [huid, hiid, ht, hti, hr, hget]
      exact ⟨rfl, rfl, rfl⟩
    · unfold pantryItemDelete
      simp only [huid, hiid, ht, hti, hr, hget]
      exact ⟨rfl, rfl, rfl⟩

/-- Witness of C16: the pantry and an item of `u1` on an empty store. -/
theorem absent_document_yields_not_found_witness :
    (pantryGet emptyStore
      ⟨.GET, "/pantry/u1", none, [("userId", "u1")], .obj [], .undefined⟩).response =
      ⟨404, .obj [("error", .str "Pantry not found")]⟩ ∧
    (pantryItemDelete emptyStore
      ⟨.DELETE, "/pantry/item/u1/i1", none, [("userId", "u1"), ("itemId", "i1")], .obj [],
        .undefined⟩).ops = [.get ["pantries", "u1", "items", "i1"]] :=
  ⟨((absent_document_yields_not_found emptyStore
      ⟨.GET, "/pantry/u1", none, [("userId", "u1")], .obj [], .undefined⟩ "u1" rfl
      (by decide)).1 rfl).1,
   ((absent_document_yields_not_found emptyStore
      ⟨.DELETE, "/pantry/item/u1/i1", none, [("userId", "u1"), ("itemId", "i1")], .obj [],
        .undefined⟩ "u1" rfl (by decide)).2 "i1" rfl (by decide) rfl).2.2.1⟩

/-- C17, at the failing input: the sweep runs at the time `0` over the pantry
of `u1`, whose item `i1` expires one day later, inside the three-day window.
Both bounds of the query are the time three days ahead, the item is not found,
and no notification is recorded. -/
theorem checkExpiringItems_misses_item_in_window :
    (0 : Int) ≤ oneDayMs ∧ oneDayMs ≤ 0 + threeDaysMs ∧
    storeWithExpiringItem.list ["pantries", "u1", "items"] =
      .ok [("i1", [("name", .str "Milk"), ("expiryDate", .num oneDayMs)])] ∧
    checkExpiringItems storeWithExpiringItem 0 =
      [.list ["pantries"], .list ["pantries", "u1", "items"]] ∧
    writesOf (checkExpiringItems storeWithExpiringItem 0) = [] :=
  ⟨by decide, by decide, rfl, rfl, rfl⟩

/-- C18, at the failing input: the callable moves the purchased item `i1` of
the list `L1` to the pantry of `u1`. The batch it commits marks the
shopping-list item as checked with an `update` that carries `isChecked` alone:
the item is modified and its `updatedAt` is not set. -/
theorem addShoppingListToPantry_update_without_stamp :
    commitsOf (addShoppingListToPantry storeWithListItem
      (.obj [("userId", .str "u1"), ("listId", .str "L1"),
        ("purchasedItems", .arr [.str "i1"])])).ops =
      [[.set ["pantries", "u1"] (pantryContainer (.str "u1")),
        .set ["pantries", "u1", "items", "x"]
          (purchasedItemData [("name", .str "Milk"), ("quantity", .num 2),
            ("isChecked", .bool false), ("updatedAt", .serverTimestamp)]),
        .update ["shopping-lists", "L1", "items", "i1"] (.obj [("isChecked", .bool true)])]] ∧
    (JsVal.obj [("isChecked", .bool true)]).prop "updatedAt" = .ok .undefined ∧
    (addShoppingListToPantry storeWithListItem
      (.obj [("userId", .str "u1"), ("listId", .str "L1"),
        ("purchasedItems", .arr [.str "i1"])])).result =
      .ok (.obj [("success", .bool true), ("message", .str "Items added to pantry")]) :=
  ⟨rfl, rfl, rfl⟩

/-- C19: with the language-model client not configured, every
`POST /ai-chef/query` that passes the access gate (its handler is entered) and
carries a (truthy) `userId` and a (truthy) `query` answers 503
`{error: "AI Chef service unavailable", message: "OpenAI integration is not
configured"}`; the answer is not a 500 and the store is not touched. -/
theorem aiChef_unavailable_without_client (verifyIdToken : Verifier)
    (parseFoodItems parseReceiptItems : JsVal → JsVal) (db : Db)
    (others : Route → Request → HandlerResult) (req : Request)
    (hgate : ∃ r, Step.handler .aiChefQuery r ∈
      (app verifyIdToken (aiHandlers none parseFoodItems parseReceiptItems db others)
        req).steps)
    (hu : ∃ userId, req.body.prop "userId" = .ok userId ∧ userId.truthy = true)
    (hq : ∃ query, req.body.prop "query" = .ok query ∧ query.truthy = true) :
    (app verifyIdToken (aiHandlers none parseFoodItems parseReceiptItems db others)
      req).response =
      ⟨503, .obj [("error", .str "AI Chef service unavailable"),
        ("message", .str "OpenAI integration is not configured")]⟩ ∧
    (app verifyIdToken (aiHandlers none parseFoodItems parseReceiptItems db others)
      req).response.status ≠ 500 ∧
    (app verifyIdToken (aiHandlers none parseFoodItems parseReceiptItems db others)
      req).ops = [] := by
  obtain ⟨r, hstep⟩ := hgate
  obtain ⟨userId, hu, hut⟩ := hu
  obtain ⟨query, hq, hqt⟩ := hq
  obtain ⟨_, hbody, hresp, hops⟩ := app_handler _ _ _ _ _ hstep
  have hrun : aiChefQuery none db r =
      ⟨⟨503, .obj [("error", .str "AI Chef service unavailable"),
        ("message", .str "OpenAI integration is not configured")]⟩, []⟩ := by
    unfold aiChefQuery
    rw [hbody]
    simp only [hu, hq, hut, hqt]
    rfl
  have hh : aiHandlers none parseFoodItems parseReceiptItems db others .aiChefQuery r =
      aiChefQuery none db r := rfl
  rw [hresp, hops, hh, hrun]
  exact ⟨rfl, by decide, rfl⟩

/-- Witness of C19: the request of the test suite. -/
theorem aiChef_unavailable_without_client_witness :
    (app tokenOfU1 (aiHandlers none (fun _ => .arr []) (fun _ => .arr []) emptyStore
      otherHandlers)
      (requestOfU1 .POST "/ai-chef/query" (.obj [("userId", .str "u1"),
        ("query", .str "What can I make with bananas?")]))).response =
      ⟨503, .obj [("error", .str "AI Chef service unavailable"),
        ("message", .str "OpenAI integration is not configured")]⟩ :=
  (aiChef_unavailable_without_client tokenOfU1 (fun _ => .arr []) (fun _ => .arr [])
    emptyStore otherHandlers
    (requestOfU1 .POST "/ai-chef/query" (.obj [("userId", .str "u1"),
      ("query", .str "What can I make with bananas?")]))
    ⟨_, List.mem_cons_of_mem _ (List.mem_cons_of_mem _ (List.mem_singleton.2 rfl))⟩
    ⟨_, rfl, rfl⟩ ⟨_, rfl, rfl⟩).1

/-- C20, at the failing input: with no language-model client configured, the
principal `u1` posts an image to `/food/recognize` and to `/receipt/scan`. Both
handlers call the client without checking it, the call throws, and the answer
is 500; `/ai-chef/query` and `/micronutrition/analyze` answer 503 on the same
configuration. -/
theorem vision_routes_answer_500_without_client
    (parseFoodItems parseReceiptItems : JsVal → JsVal) :
    (app tokenOfU1 (aiHandlers none parseFoodItems parseReceiptItems emptyStore otherHandlers)
      (requestOfU1 .POST "/food/recognize"
        (.obj [("imageUrl", .str "https://example.com/test-image.jpg")]))).response =
      ⟨500, .obj [("error", .str "Failed to recognize food items")]⟩ ∧
    (app tokenOfU1 (aiHandlers none parseFoodItems parseReceiptItems emptyStore otherHandlers)
      (requestOfU1 .POST "/receipt/scan"
        (.obj [("imageUrl", .str "https://example.com/receipt.jpg")]))).response =
      ⟨500, .obj [("error", .str "Failed to scan receipt")]⟩ ∧
    (app tokenOfU1 (aiHandlers none parseFoodItems parseReceiptItems emptyStore otherHandlers)
      (requestOfU1 .POST "/ai-chef/query"
        (.obj [("userId", .str "u1"), ("query", .str "dinner?")]))).response.status = 503 ∧
    (app tokenOfU1 (aiHandlers none parseFoodItems parseReceiptItems emptyStore otherHandlers)
      (requestOfU1 .POST "/micronutrition/analyze"
        (.obj [("foodName", .str "kale")]))).response.status = 503 :=
  ⟨rfl, rfl, rfl, rfl⟩

/-- C21, counterexample: a profile whose `dietaryRestrictions` is present and is
the empty string, which is not an array, is accepted: the handler reads the
store, writes the profile and answers 200. -/
theorem userProfilePost_accepts_falsy_restrictions :
    (JsVal.str "").isArray = false ∧
    (userProfilePost emptyStore "2026-01-01T00:00:00.000Z"
      (passedRequestOfU1 .POST "/user/profile"
        (.obj [("displayName", .str "Test User"),
          ("preferences", .obj [("dietaryRestrictions", .str "")])]))).response.status = 200 ∧
    (userProfilePost emptyStore "2026-01-01T00:00:00.000Z"
      (passedRequestOfU1 .POST "/user/profile"
        (.obj [("displayName", .str "Test User"),
          ("preferences", .obj [("dietaryRestrictions", .str "")])]))).ops =
      [.get ["users", "u1"],
       .write (.set ["users", "u1"] (.obj [("displayName", .str "Test User"),
         ("email", .str "u1@example.com"),
         ("preferences", .obj [("dietaryRestrictions", .str "")]),
         ("createdAt", .serverTimestamp), ("updatedAt", .serverTimestamp)]))] :=
  ⟨rfl, rfl, rfl⟩

/-- C21, amended: on a request that carries a principal and a body,
`POST /user/profile` answers 400 with `success: false` and performs no store
operation whenever `displayName` is falsy (missing, `null`, empty), is not a
string, or is blank, and whenever `preferences.dietaryRestrictions` is truthy
and is not an array. -/
theorem userProfilePost_rejects_invalid (db : Db) (nowIso : String) (req : Request)
    (userId userEmail displayName preferences : JsVal)
    (hu : req.user.prop "uid" = .ok userId) (he : req.user.prop "email" = .ok userEmail)
    (hd : req.body.prop "displayName" = .ok displayName)
    (hp : req.body.prop "preferences" = .ok preferences)
    (hbad : displayName.truthy = false ∨ displayName.isString = false ∨
      displayName.isBlank = true ∨
      ((preferences.optProp "dietaryRestrictions").truthy = true ∧
        (preferences.optProp "dietaryRestrictions").isArray = false)) :
    (userProfilePost db nowIso req).response.status = 400 ∧
    (userProfilePost db nowIso req).response.body.prop "success" = .ok (.bool false) ∧
    (userProfilePost db nowIso req).ops = [] := by
  unfold userProfilePost
  simp only [hu, he, hd, hp]
  rcases hbad with h | h | h | ⟨h1, h2⟩
  · simp [h, displayNameRequired, JsVal.prop]
  · simp [h, displayNameRequired, JsVal.prop]
  · simp [h, displayNameRequired, JsVal.prop]
  · simp only [h1, h2]
    split
    · simp [displayNameRequired, JsVal.prop]
    · simp [dietaryMustBeArray, JsVal.prop]

/-- Witness of C21 (amended): a display name of three blanks. -/
theorem userProfilePost_rejects_invalid_witness :
    (userProfilePost emptyStore "2026-01-01T00:00:00.000Z"
      (passedRequestOfU1 .POST "/user/profile"
        (.obj [("displayName", .str "   ")]))).response.status = 400 ∧
    (userProfilePost emptyStore "2026-01-01T00:00:00.000Z"
      (passedRequestOfU1 .POST "/user/profile"
        (.obj [("displayName", .str "   ")]))).response.body.prop "success" =
      .ok (.bool false) ∧
    (userProfilePost emptyStore "2026-01-01T00:00:00.000Z"
      (passedRequestOfU1 .POST "/user/profile"
        (.obj [("displayName", .str "   ")]))).ops = [] :=
  userProfilePost_rejects_invalid emptyStore "2026-01-01T00:00:00.000Z"
    (passedRequestOfU1 .POST "/user/profile" (.obj [("displayName", .str "   ")]))
    (.str "u1") (.str "u1@example.com") (.str "   ") .undefined rfl rfl rfl rfl
    (Or.inr (Or.inr (Or.inl (by decide))))

/-- C22: for every route of `backend/main.js` other than `POST /user/profile`,
the body of a 500 response is `{error: text}` with the fixed text of the route.
Hence two runs of the same request that fail, whatever the services did and
whatever was thrown, answer with identical bodies. -/
theorem internal_failure_body_fixed_by_route (s₁ s₂ : Services) (urlQuery : JsVal)
    (route : Route) (req : Request) (hroute : route ≠ .userProfilePost)
    (h₁ : (handlers s₁ urlQuery route req).response.status = 500)
    (h₂ : (handlers s₂ urlQuery route req).response.status = 500) :
    (∃ text, failureText route = some text ∧
      (handlers s₁ urlQuery route req).response.body = .obj [("error", .str text)]) ∧
    (handlers s₁ urlQuery route req).response.body =
      (handlers s₂ urlQuery route req).response.body := by
  obtain ⟨t₁, ht₁, hb₁⟩ := handlers_failure s₁ urlQuery route req hroute h₁
  obtain ⟨t₂, ht₂, hb₂⟩ := handlers_failure s₂ urlQuery route req hroute h₂
  refine ⟨⟨t₁, ht₁, hb₁⟩, ?_⟩
  rw [hb₁, hb₂]
  rw [ht₁] at ht₂
  cases ht₂
  rfl

/-- Witness of C22: `POST /pantry/add` on a store whose commit times out and on
a store that cannot be reached. -/
theorem internal_failure_body_fixed_by_route_witness :
    (∃ text, failureText .pantryAdd = some text ∧
      (handlers (servicesOn batchRejectingStore none) (.obj []) .pantryAdd
        (passedRequestOfU1 .POST "/pantry/add"
          (.obj [("userId", .str "u1"), ("items", .arr [.obj [("name", .str "Milk")]])]))
        ).response.body = .obj [("error", .str text)]) ∧
    (handlers (servicesOn batchRejectingStore none) (.obj []) .pantryAdd
        (passedRequestOfU1 .POST "/pantry/add"
          (.obj [("userId", .str "u1"), ("items", .arr [.obj [("name", .str "Milk")]])]))
        ).response.body =
      (handlers (servicesOn unreachableStore none) (.obj []) .pantryAdd
        (passedRequestOfU1 .POST "/pantry/add"
          (.obj [("userId", .str "u1"), ("items", .arr [.obj [("name", .str "Milk")]])]))
        ).response.body :=
  internal_failure_body_fixed_by_route (servicesOn batchRejectingStore none)
    (servicesOn unreachableStore none) (.obj []) .pantryAdd
    (passedRequestOfU1 .POST "/pantry/add"
      (.obj [("userId", .str "u1"), ("items", .arr [.obj [("name", .str "Milk")]])]))
    (by decide) rfl rfl

/-- C23, at the failing input: the principal `u1` posts a profile with the
display name `Test User` and the dietary restrictions `[123]`. The list is an
array, so the request passes the validation: the profile is written with the
list as it came, and the answer is 200, not 400. -/
theorem userProfilePost_accepts_non_string_restriction :
    (app tokenOfU1 (handlers (servicesOn emptyStore none) (.obj []))
      (requestOfU1 .POST "/user/profile"
        (.obj [("displayName", .str "Test User"),
          ("preferences", .obj [("dietaryRestrictions", .arr [.num 123])])]))).response.status
      = 200 ∧
    (app tokenOfU1 (handlers (servicesOn emptyStore none) (.obj []))
      (requestOfU1 .POST "/user/profile"
        (.obj [("displayName", .str "Test User"),
          ("preferences", .obj [("dietaryRestrictions", .arr [.num 123])])]))).ops =
      [.get ["users", "u1"],
       .write (.set ["users", "u1"] (.obj [("displayName", .str "Test User"),
         ("email", .str "u1@example.com"),
         ("preferences", .obj [("dietaryRestrictions", .arr [.num 123])]),
         ("createdAt", .serverTimestamp), ("updatedAt", .serverTimestamp)]))] :=
  ⟨rfl, rfl⟩

/-- C24, at the failing input: the language model answers as its prompt tells it
to, with a JSON array of keywords. The text parses, the parsed array has no
property `keywords`, so `keywords` is `undefined`, the search loop throws, and
the answer is 500 without any search; the same happens for the reply `{}`. The
fallback to the original query is taken only when parsing throws. -/
theorem recipesSearch_fails_on_parsed_reply_without_keywords (db : Db) :
    (app tokenOfU1
      (handlers (servicesOn db (some (replyWith "[\"chicken\", \"rice\"]"))) (.obj []))
      (requestOfU1 .POST "/recipes/search" (.obj [("query", .str "chicken and rice")]))).response
      = ⟨500, .obj [("error", .str "Failed to search recipes")]⟩ ∧
    (app tokenOfU1
      (handlers (servicesOn db (some (replyWith "[\"chicken\", \"rice\"]"))) (.obj []))
      (requestOfU1 .POST "/recipes/search" (.obj [("query", .str "chicken and rice")]))).ops
      = [] ∧
    (app tokenOfU1
      (handlers (servicesOn db (some (replyWith "\x7b\x7d"))) (.obj []))
      (requestOfU1 .POST "/recipes/search" (.obj [("query", .str "chicken and rice")]))).response
      = ⟨500, .obj [("error", .str "Failed to search recipes")]⟩ ∧
    extractKeywords parseReply
      (.obj [("choices", .arr [.obj [("message",
        .obj [("role", .str "assistant"), ("content", .str "not json")])]])])
      (.str "chicken and rice") = .arr [.str "chicken and rice"] :=
  ⟨rfl, rfl, rfl, rfl⟩

/-- C25: `parseReceiptItems` goes through the lines of its input in order and
keeps at most one item per line. A line yields an item exactly when it matches
`/([^$]+)\s*\$(\d+\.?\d*)/`, that is when it holds a non-empty text without a
dollar sign, white space, a dollar sign and a digit. The item is fixed by the
split of the line at its first priced dollar sign (`firstPriced`, the leftmost
match with the longest first group): a line yields an item only if it has such a
split, and for every such split the item is the one with the name `name`,
trimmed, the price `parseFloat` reads from the numeral behind the dollar sign,
the quantity `1`, and the price again as total. The item depends on nothing but
the line: a total line yields an item like any other. -/
theorem parseReceiptItems_extracts_priced_lines (parseFloat : String → JsVal) (text : String)
    (line : List Char) :
    parseReceiptItems parseFloat (.str text) =
      .arr ((linesOf text.data).filterMap (receiptItemOfLine parseFloat)) ∧
    (parseReceiptItems parseFloat (.str text)).elems.length ≤ (linesOf text.data).length ∧
    ((receiptItemOfLine parseFloat line).isSome = true ↔
      ∃ pre name space digits rest,
        line = pre ++ name ++ space ++ '$' :: digits ++ rest ∧
        name ≠ [] ∧ (∀ c ∈ name, c ≠ '$') ∧ (∀ c ∈ space, isJsSpace c = true) ∧
        digits ≠ [] ∧ (∀ c ∈ digits, isDigit c = true)) ∧
    (∀ item, receiptItemOfLine parseFloat line = some item →
      ∃ pre name after, line = pre ++ name ++ '$' :: after ∧ firstPriced pre name after ∧
        item = .obj [("name", .str (String.mk (jsTrim name))),
          ("price", parseFloat (String.mk (numeralOf after))),
          ("quantity", .num 1),
          ("total", parseFloat (String.mk (numeralOf after)))]) ∧
    (∀ pre name after, line = pre ++ name ++ '$' :: after → firstPriced pre name after →
      receiptItemOfLine parseFloat line =
        some (.obj [("name", .str (String.mk (jsTrim name))),
          ("price", parseFloat (String.mk (numeralOf after))),
          ("quantity", .num 1),
          ("total", parseFloat (String.mk (numeralOf after)))])) ∧
    parseReceiptItems parseFloat
        (.str "Milk $3.99\nTotal: $3.99\nA $1 B $2\nOrganic Milk $3.99\na$ b$5\nno price") =
      .arr [
        .obj [("name", .str "Milk"), ("price", parseFloat "3.99"), ("quantity", .num 1),
          ("total", parseFloat "3.99")],
        .obj [("name", .str "Total:"), ("price", parseFloat "3.99"), ("quantity", .num 1),
          ("total", parseFloat "3.99")],
        .obj [("name", .str "A"), ("price", parseFloat "1"), ("quantity", .num 1),
          ("total", parseFloat "1")],
        .obj [("name", .str "Organic Milk"), ("price", parseFloat "3.99"),
          ("quantity", .num 1), ("total", parseFloat "3.99")],
        .obj [("name", .str "b"), ("price", parseFloat "5"), ("quantity", .num 1),
          ("total", parseFloat "5")]] := by
  refine ⟨rfl, ?_, ⟨?_, ?_⟩, ?_, ?_, ?_⟩
  · simp only [parseReceiptItems, JsVal.elems]
    exact List.length_filterMap_le _ _
  · intro h
    unfold receiptItemOfLine at h
    cases hm : regexMatch pricePattern line with
    | none => simp [hm] at h
    | some caps =>
      obtain ⟨pre, name, after, hline, ⟨hne, hname, hdig, _, _⟩, _, _⟩ :=
        pricePattern_first line caps hm
      refine ⟨pre, name, [], after.takeWhile isDigit, after.dropWhile isDigit, ?_, hne, hname,
        by simp, hdig, ?_⟩
      · rw [hline]
        simp [List.takeWhile_append_dropWhile]
      · intro c hc
        exact List.mem_takeWhile_imp hc
  · rintro ⟨pre, name, space, digits, rest, hline, hne, hname, hspace, hdne, hdigits⟩
    have hall : ∀ x ∈ name ++ space, (fun c => c != '$') x = true := by
      intro x hx
      rcases List.mem_append.1 hx with hx | hx
      · simpa using hname x hx
      · exact isJsSpace_ne_dollar x (hspace x hx)
    obtain ⟨h1, h2⟩ := takeWhile_append_stop (fun c => c != '$') (name ++ space) '$'
      (digits ++ rest) hall (by decide)
    have hlen : 1 ≤ digits.length := by
      cases digits with
      | nil => exact absurd rfl hdne
      | cons _ _ => simp
    have hstart := pricePattern_start ((name ++ space) ++ '$' :: (digits ++ rest))
      (digits ++ rest) ⟨[], []⟩ h2
      (by rw [h1]; intro hnil; exact hne (List.append_eq_nil.1 hnil).1)
      (takeWhile_ne_nil isDigit digits rest hdigits hlen)
    have := regexMatch_complete pricePattern _ _ hstart pre
    have hl : line = pre ++ ((name ++ space) ++ '$' :: (digits ++ rest)) := by
      rw [hline]
      simp
    rw [← hl] at this
    unfold receiptItemOfLine
    cases hm : regexMatch pricePattern line with
    | none => simp [hm] at this
    | some caps => rfl
  · intro item h
    unfold receiptItemOfLine at h
    cases hm : regexMatch pricePattern line with
    | none => simp [hm] at h
    | some caps =>
      obtain ⟨pre, name, after, hline, hfirst, hg1, hg2⟩ := pricePattern_first line caps hm
      simp only [hm, hg1, hg2, Option.some.injEq] at h
      exact ⟨pre, name, after, hline, hfirst, h.symm⟩
  · intro pre name after hline hfirst
    obtain ⟨caps, hm, hg1, hg2⟩ := pricePattern_leftmost pre name after hfirst
    unfold receiptItemOfLine
    rw [hline, hm]
    simp only [hg1, hg2]
  · rfl

/-- Witness of C25: the line `A $1 B $2`, read with the example numeral parser,
yields the item `A` with the price `1`. -/
theorem parseReceiptItems_extracts_priced_lines_witness :
    ∃ pre name after, "A $1 B $2".data = pre ++ name ++ '$' :: after ∧
      firstPriced pre name after ∧
      JsVal.obj [("name", .str "A"), ("price", .num 1), ("quantity", .num 1),
          ("total", .num 1)] =
        .obj [("name", .str (String.mk (jsTrim name))),
          ("price", decimalOf (String.mk (numeralOf after))),
          ("quantity", .num 1),
          ("total", decimalOf (String.mk (numeralOf after)))] :=
  (parseReceiptItems_extracts_priced_lines decimalOf "A $1 B $2" "A $1 B $2".data).2.2.2.1
    _ rfl

/-- C26: `parseFoodItems` goes through the lines of its input in order and keeps
at most one item per line, so the result never has more items than the input
has lines. A line without an opening or without a closing parenthesis yields no
item. A line that starts with a non-empty name without an opening parenthesis,
followed by a non-empty category in parentheses, yields the item with the name
trimmed, the category trimmed and the confidence `0.9`; every item returned has
the confidence `0.9`. -/
theorem parseFoodItems_extracts_parenthesised_lines (text : String)
    (line name category rest : List Char) :
    parseFoodItems (.str text) = .arr ((linesOf text.data).filterMap foodItemOfLine) ∧
    (parseFoodItems (.str text)).elems.length ≤ (linesOf text.data).length ∧
    (∀ item ∈ (parseFoodItems (.str text)).elems,
      item.prop "confidence" = .ok (.dec 9 1)) ∧
    (line.contains '(' = false ∨ line.contains ')' = false → foodItemOfLine line = none) ∧
    (name ≠ [] → (∀ c ∈ name, c ≠ '(') → category ≠ [] → (∀ c ∈ category, c ≠ ')') →
      foodItemOfLine (name ++ '(' :: category ++ ')' :: rest) =
        some (.obj [("name", .str (String.mk (jsTrim name))),
          ("category", .str (String.mk (jsTrim category))), ("confidence", .dec 9 1)])) ∧
    parseFoodItems (.str "Apple (fruit)\nno category\n - Chicken breast ( meat )") =
      .arr [
        .obj [("name", .str "Apple"), ("category", .str "fruit"), ("confidence", .dec 9 1)],
        .obj [("name", .str "- Chicken breast"), ("category", .str "meat"),
          ("confidence", .dec 9 1)]] := by
  refine ⟨rfl, ?_, ?_, ?_, foodItemOfLine_form name category rest, rfl⟩
  · simp only [parseFoodItems, JsVal.elems]
    exact List.length_filterMap_le _ _
  · intro item hitem
    simp only [parseFoodItems, JsVal.elems, List.mem_filterMap] at hitem
    obtain ⟨l, _, hl⟩ := hitem
    unfold foodItemOfLine at hl
    split at hl
    · split at hl
      · cases hl
        rfl
      · cases hl
    · cases hl
  · intro h
    unfold foodItemOfLine
    rcases h with h | h <;>
      simp only [h, Bool.false_and, Bool.and_false, Bool.false_eq_true, if_false]

/-- Witness of C26: the line `Apple (fruit)`. -/
theorem parseFoodItems_extracts_parenthesised_lines_witness :
    foodItemOfLine ("Apple ".data ++ '(' :: "fruit".data ++ ')' :: []) =
      some (.obj [("name", .str (String.mk (jsTrim "Apple ".data))),
        ("category", .str (String.mk (jsTrim "fruit".data))), ("confidence", .dec 9 1)]) :=
  (parseFoodItems_extracts_parenthesised_lines "Apple (fruit)" [] "Apple ".data "fruit".data
    []).2.2.2.2.1 (by decide) (by decide) (by decide) (by decide)

/-- C27: let the application enter the handler of `POST /pantry/add`,
`/shopping-list/create`, `/meal-plan/create` or `/recipe/save`, which it does
only after `authenticateUser` and `authorizeUser` have passed the request on.
Then the bearer token of the request was decoded to a principal with some `uid`,
and every write the store accepted in that run, whatever the response, belongs
to that principal: a write to a document of a top-level collection (the pantry,
the shopping list, the meal plan, the recipe) sets a document whose `userId` is
strictly equal to `uid`, and for `POST /pantry/add` every write goes to
`pantries/uid` or below. -/
theorem created_documents_owned_by_caller (verifyIdToken : Verifier) (s : Services)
    (urlQuery : JsVal) (req r : Request) (route : Route) (w : Write)
    (hroute : route = .pantryAdd ∨ route = .shoppingListCreate ∨ route = .mealPlanCreate ∨
      route = .recipeSave)
    (hstep : Step.handler route r ∈ (app verifyIdToken (handlers s urlQuery) req).steps)
    (hw : w ∈ persistedOf s.db (app verifyIdToken (handlers s urlQuery) req).ops) :
    ∃ hd d uid, req.authorization = some hd ∧ verifyIdToken (idTokenOf hd) = .ok d ∧
      d.prop "uid" = .ok uid ∧ ownedBy uid w ∧
      (route = .pantryAdd → ∃ u, uid = .str u ∧ w.ref.take 2 = ["pantries", u]) := by
  obtain ⟨⟨decl, hm, hdr⟩, _, _, hops⟩ := app_handler _ _ _ _ _ hstep
  obtain ⟨hmem, hsegs⟩ := matchRoute_mem _ _ _ _ hm
  obtain ⟨hg, a, b, hpat⟩ := create_routes_declared decl hmem (by rw [hdr]; exact hroute)
  rw [hpat] at hsegs
  have hparams : r.params = [] := matchSegs_literals _ _ _ _ hsegs
  have hne : req.path ≠ "/health" := by
    intro hp
    rw [hp] at hm
    have := matchRoute_health _ _ _ hm
    rw [hdr] at this
    rcases hroute with h | h | h | h <;> rw [h] at this <;> cases this
  obtain ⟨hd, d, hauth, hv, hr, hpass⟩ := app_authorized _ _ _ _ _ _ _ hm hg hne hstep
  obtain ⟨uid, subject, huid, hsubject, hor⟩ := authorizeUser_passed r hpass
  have huser : r.user = d := by rw [hr]
  rw [huser] at huid
  have hid : requestUserId r = r.body.prop "userId" := by
    simp [requestUserId, Request.param, hparams, JsVal.truthy]
  rw [hid] at hsubject
  have hsub : ∀ x, r.body.prop "userId" = .ok x → x.truthy = true →
      JsVal.strictEq uid x = true := by
    intro x hx ht
    rw [hsubject] at hx
    cases hx
    rcases hor with h | h
    · rw [ht] at h
      cases h
    · exact h
  rw [hops] at hw
  refine ⟨hd, d, uid, hauth, hv, huid, ?_⟩
  rcases hroute with h | h | h | h
  · subst h
    obtain ⟨h1, h2⟩ := pantryAdd_owned s.db r uid w hsub hw
    exact ⟨h1, fun _ => h2⟩
  · subst h
    exact ⟨shoppingListCreate_owned s.db r uid w hsub hw, fun h => by cases h⟩
  · subst h
    exact ⟨mealPlanCreate_owned s.db r uid w hsub hw, fun h => by cases h⟩
  · subst h
    exact ⟨recipeSave_owned s.db r uid w hsub hw, fun h => by cases h⟩

/-- Witness of C27: the principal `u1` saves the recipe `Soup` for `u1`. -/
theorem created_documents_owned_by_caller_witness :
    ∃ hd d uid, (requestOfU1 .POST "/recipe/save" soupOfU1).authorization = some hd ∧
      tokenOfU1 (idTokenOf hd) = .ok d ∧ d.prop "uid" = .ok uid ∧ ownedBy uid savedSoup ∧
      (Route.recipeSave = .pantryAdd →
        ∃ u, uid = .str u ∧ savedSoup.ref.take 2 = ["pantries", u]) :=
  created_documents_owned_by_caller tokenOfU1 (servicesOn emptyStore none) (.obj [])
    (requestOfU1 .POST "/recipe/save" soupOfU1)
    (passedRequestOfU1 .POST "/recipe/save" soupOfU1) .recipeSave savedSoup
    (Or.inr (Or.inr (Or.inr rfl)))
    (List.Mem.tail _ (List.Mem.tail _ (List.Mem.head _)))
    (List.Mem.head _)

/-- C28: let the params of a request come from matching a route pattern and hold
a `userId`. Then the outcome of `authorizeUser` (the response sent, if any, and
the calls of `next`) is the same for any two bodies; and when the path value is
the uid of the principal, the request proceeds whatever the body says. -/
theorem authorizeUser_compares_path_subject_only (pattern : List Seg)
    (segments : List String) (r : Request) (u : String) (b₁ b₂ : JsVal)
    (hmatch : matchSegs pattern segments = some r.params)
    (hpath : r.params.lookup "userId" = some u) :
    ((authorizeUser { r with body := b₁ }).response =
        (authorizeUser { r with body := b₂ }).response ∧
      (authorizeUser { r with body := b₁ }).nextCalls =
        (authorizeUser { r with body := b₂ }).nextCalls) ∧
    (r.user.prop "uid" = .ok (.str u) →
      (authorizeUser { r with body := b₁ }).response = none ∧
      (authorizeUser { r with body := b₁ }).nextCalls = 1) := by
  have hne : u ≠ "" := matchSegs_nonempty pattern segments r.params hmatch (_, u)
    (mem_of_lookup "userId" u r.params hpath)
  have hparam : r.param "userId" = .str u := by simp [Request.param, hpath]
  have ht : (r.param "userId").truthy = true := by simp [hparam, JsVal.truthy, hne]
  obtain ⟨h1, h2⟩ := authorizeUser_path_subject r b₁ ht
  obtain ⟨h3, h4⟩ := authorizeUser_path_subject r b₂ ht
  refine ⟨⟨by rw [h1, h3], by rw [h2, h4]⟩, ?_⟩
  intro huid
  rw [h1, h2]
  rw [hparam] at ht
  unfold authorizeUser requestUserId
  simp only [huid, hparam, ht, if_true]
  simp [JsVal.strictEq, ht]

/-- Witness of C28: the principal `u1` updates an item of the pantry `u1` with a
body that names `u2`. -/
theorem authorizeUser_compares_path_subject_only_witness :
    ((authorizeUser { (⟨.PUT, "/pantry/item/u1/i1", some "Bearer tok1",
          [("userId", "u1"), ("itemId", "i1")], .obj [], .obj [("uid", .str "u1")]⟩ : Request)
        with body := .obj [("userId", .str "u2")] }).response =
      (authorizeUser { (⟨.PUT, "/pantry/item/u1/i1", some "Bearer tok1",
          [("userId", "u1"), ("itemId", "i1")], .obj [], .obj [("uid", .str "u1")]⟩ : Request)
        with body := .obj [] }).response ∧
     (authorizeUser { (⟨.PUT, "/pantry/item/u1/i1", some "Bearer tok1",
          [("userId", "u1"), ("itemId", "i1")], .obj [], .obj [("uid", .str "u1")]⟩ : Request)
        with body := .obj [("userId", .str "u2")] }).nextCalls =
      (authorizeUser { (⟨.PUT, "/pantry/item/u1/i1", some "Bearer tok1",
          [("userId", "u1"), ("itemId", "i1")], .obj [], .obj [("uid", .str "u1")]⟩ : Request)
        with body := .obj [] }).nextCalls) ∧
    ((authorizeUser { (⟨.PUT, "/pantry/item/u1/i1", some "Bearer tok1",
          [("userId", "u1"), ("itemId", "i1")], .obj [], .obj [("uid", .str "u1")]⟩ : Request)
        with body := .obj [("userId", .str "u2")] }).response = none ∧
     (authorizeUser { (⟨.PUT, "/pantry/item/u1/i1", some "Bearer tok1",
          [("userId", "u1"), ("itemId", "i1")], .obj [], .obj [("uid", .str "u1")]⟩ : Request)
        with body := .obj [("userId", .str "u2")] }).nextCalls = 1) :=
  have h := authorizeUser_compares_path_subject_only
    [.lit "pantry", .lit "item", .par "userId", .par "itemId"] ["pantry", "item", "u1", "i1"]
    ⟨.PUT, "/pantry/item/u1/i1", some "Bearer tok1", [("userId", "u1"), ("itemId", "i1")],
      .obj [], .obj [("uid", .str "u1")]⟩ "u1" (.obj [("userId", .str "u2")]) (.obj [])
    rfl rfl
  ⟨h.1, h.2 rfl⟩

/-- C29, counterexample: an entry that supplies `quantity: false` and
`unit: null`, values other than `0` and the empty string, is not stored
unchanged: `POST /pantry/add` stages it with the quantity `1` and the unit
`item`. -/
theorem pantryAdd_replaces_false_quantity :
    stagedOf (pantryAdd emptyStore (passedRequestOfU1 .POST "/pantry/add"
      (.obj [("userId", .str "u1"),
        ("items", .arr [.obj [("name", .str "Milk"), ("quantity", .bool false),
          ("unit", .null)]])]))).ops =
      [.set ["pantries", "u1"] (.obj [("userId", .str "u1"), ("createdAt", .serverTimestamp)]),
       .set ["pantries", "u1", "items", "x"] (.obj [
        ("name", .str "Milk"),
        ("quantity", .num 1),
        ("unit", .str "item"),
        ("category", .str "uncategorized"),
        ("expiryDate", .null),
        ("purchaseDate", .serverTimestamp),
        ("customImage", .null),
        ("isCustom", .bool false),
        ("createdAt", .serverTimestamp),
        ("updatedAt", .serverTimestamp)])] :=
  rfl

/-- C29, amended: every write staged by `POST /pantry/add`,
`POST /shopping-list/create` or `POST /shopping-list/:listId/add` is either a
write to the container (a path of two segments) or the item document of an entry
of `items`, and in that document `quantity`, `unit` and `category` hold the
value of the entry when that value is truthy, and `1`, `item` and
`uncategorized` when it is falsy (missing, `null`, `false`, `0` or the empty
string). -/
theorem staged_entries_replace_falsy_values (db : Db) (req : Request) (w : Write)
    (h : w ∈ stagedOf (pantryAdd db req).ops ∨ w ∈ stagedOf (shoppingListCreate db req).ops ∨
      w ∈ stagedOf (shoppingListAdd db req).ops) :
    w.ref.length = 2 ∨
    ∃ items item data quantity unit category,
      req.body.prop "items" = .ok items ∧ item ∈ items.elems ∧ w = .set w.ref data ∧
      item.prop "quantity" = .ok quantity ∧ item.prop "unit" = .ok unit ∧
      item.prop "category" = .ok category ∧
      data.prop "quantity" = .ok (if quantity.truthy then quantity else .num 1) ∧
      data.prop "unit" = .ok (if unit.truthy then unit else .str "item") ∧
      data.prop "category" =
        .ok (if category.truthy then category else .str "uncategorized") := by
  have hlen : ∀ (coll : String) (id : JsVal) (ref : DocPath),
      docRef [coll] id = .ok ref → ref.length = 2 := by
    intro coll id ref hr
    unfold docRef at hr
    split at hr
    · split at hr
      · cases hr
      · cases hr
        rfl
    · cases hr
  rcases h with h | h | h
  · unfold pantryAdd at h
    split at h
    · rename_i userId items hu hi
      split at h
      · simp [stagedOf] at h
      · split at h
        · simp [stagedOf] at h
        · rename_i pantryRef href
          split at h
          · simp [stagedOf] at h
          · rw [pantryCommit_staged] at h
            unfold pantryBatch at h
            simp only [List.mem_append] at h
            rcases h with h | h
            · split at h
              · simp at h
              · simp only [List.mem_singleton] at h
                subst h
                exact Or.inl (hlen _ _ _ href)
            · obtain ⟨item, hmem, k, data, hw, hdata⟩ := stagePantryItems_entries _ _ _ _ _ h
              obtain ⟨q, u, c, r⟩ := pantryItemData_defaults item data hdata
              subst hw
              exact Or.inr ⟨items, item, data, q, u, c, hi, hmem, rfl, r⟩
    · simp [stagedOf] at h
  · unfold shoppingListCreate at h
    split at h
    · rename_i userId name items hu hn hi
      simp only at h
      split at h
      · simp [stagedOf] at h
      · split at h
        · simp [stagedOf] at h
        · have h2 := createChildren_staged _ _ _ _ _ _ _ (by rfl) w h
          obtain ⟨item, hmem, k, data, hw, hdata⟩ := stageChildren_entries _ _ _ _ _ _ h2
          obtain ⟨q, u, c, r⟩ := listItemData_defaults item data hdata
          subst hw
          exact Or.inr ⟨items, item, data, q, u, c, hi, hmem, rfl, r⟩
    · simp [stagedOf] at h
  · unfold shoppingListAdd at h
    simp only at h
    split at h
    · simp [stagedOf] at h
    · rename_i items hi
      split at h
      · simp [stagedOf] at h
      · split at h
        · simp [stagedOf] at h
        · rename_i listRef href
          have hst : ∀ (ws : List Write) (rest : List StoreOp),
              stagedOf (.get listRef :: (ws.map StoreOp.batch ++ rest)) = ws ++ stagedOf rest := by
            intro ws rest
            simp [stagedOf, stagedOf_batch_append]
          have hst2 : ∀ (ws : List Write),
              stagedOf (.get listRef :: ws.map StoreOp.batch) = ws := by
            intro ws
            have := hst ws []
            simpa [stagedOf] using this
          have hchild : ∀ w ∈ (stageChildren db (listRef ++ ["items"]) listItemData 0
              items.elems).1, ∃ items item data quantity unit category,
              req.body.prop "items" = .ok items ∧ item ∈ items.elems ∧ w = .set w.ref data ∧
              item.prop "quantity" = .ok quantity ∧ item.prop "unit" = .ok unit ∧
              item.prop "category" = .ok category ∧
              data.prop "quantity" = .ok (if quantity.truthy then quantity else .num 1) ∧
              data.prop "unit" = .ok (if unit.truthy then unit else .str "item") ∧
              data.prop "category" =
                .ok (if category.truthy then category else .str "uncategorized") := by
            intro w hw
            obtain ⟨item, hmem, k, data, hw, hdata⟩ := stageChildren_entries _ _ _ _ _ _ hw
            obtain ⟨q, u, c, r⟩ := listItemData_defaults item data hdata
            subst hw
            exact ⟨items, item, data, q, u, c, hi, hmem, rfl, r⟩
          split at h
          · simp [stagedOf] at h
          · simp [stagedOf] at h
          · split at h
            · rw [hst2] at h
              exact Or.inr (hchild w h)
            · split at h
              all_goals
                rw [hst] at h
                simp only [stagedOf, List.append_nil, List.mem_append, List.mem_singleton] at h
                rcases h with h | h
                · exact Or.inr (hchild w h)
                · subst h
                  exact Or.inl (hlen _ _ _ href)

/-- Witness of C29 (amended): the entry `{name: "Milk", quantity: 0, unit: ""}`
of a `POST /pantry/add`. -/
theorem staged_entries_replace_falsy_values_witness :
    zeroQuantityWrite.ref.length = 2 ∨
    ∃ items item data quantity unit category,
      zeroQuantityRequest.body.prop "items" = .ok items ∧ item ∈ items.elems ∧
      zeroQuantityWrite = .set zeroQuantityWrite.ref data ∧
      item.prop "quantity" = .ok quantity ∧ item.prop "unit" = .ok unit ∧
      item.prop "category" = .ok category ∧
      data.prop "quantity" = .ok (if quantity.truthy then quantity else .num 1) ∧
      data.prop "unit" = .ok (if unit.truthy then unit else .str "item") ∧
      data.prop "category" =
        .ok (if category.truthy then category else .str "uncategorized") :=
  staged_entries_replace_falsy_values emptyStore zeroQuantityRequest zeroQuantityWrite
    (Or.inl (List.Mem.tail _ (List.Mem.head _)))

/-- C30: for every request and every store, the handlers of `POST /pantry/add`,
`POST /shopping-list/create` and `POST /meal-plan/create` of
`functions/index.js` do what the handlers of `backend/main.js` do once they are
entered: the same store operations in the same order, hence the same writes, and
the same response. -/
theorem route_sets_agree_on_batched_writers (db : Db) (req : Request) :
    FunctionsIndex.pantryAdd db req = pantryAdd db req ∧
    FunctionsIndex.shoppingListCreate db req = shoppingListCreate db req ∧
    FunctionsIndex.mealPlanCreate db req = mealPlanCreate db req :=
  ⟨pantryAdd_eq db req, shoppingListCreate_eq db req, mealPlanCreate_eq db req⟩

/-- Witness of C30: a `POST /pantry/add` with one entry on the empty store. -/
theorem route_sets_agree_on_batched_writers_witness :
    FunctionsIndex.pantryAdd emptyStore zeroQuantityRequest =
      pantryAdd emptyStore zeroQuantityRequest ∧
    FunctionsIndex.shoppingListCreate emptyStore zeroQuantityRequest =
      shoppingListCreate emptyStore zeroQuantityRequest ∧
    FunctionsIndex.mealPlanCreate emptyStore zeroQuantityRequest =
      mealPlanCreate emptyStore zeroQuantityRequest :=
  route_sets_agree_on_batched_writers emptyStore zeroQuantityRequest

end MicroPantry
